import Mathlib

/-!
# The `/WhoIs` lookup service of `main.go`

A shallow embedding of the request builder, the XML-to-JSON transcoding and the
endpoint adapter of `main.go`, and the properties of them that the
specification states.

Go strings are Lean strings (the request name arrives through `encoding/json`
and the remote record through `encoding/xml`, which both deliver valid UTF-8).
The remote response body is taken as the tree of the tokens `encoding/xml`
reads from it, with the place marked where reading fails, if it does, and JSON
output is a JSON value together with the text `encoding/json` writes for it.
The library functions the program calls (`strings.Fields`, `xml.Unmarshal`,
`json.Marshal`) are modelled after their documentation and code in the Go
standard library, the decoder and the encoder at the types the program uses
them at.
-/

namespace CCB

/-! ## Go run-time outcomes -/

/-- Run-time panics of the Go program that the model distinguishes. -/
inductive Panic where
  | indexOutOfRange (index len : Nat)
  | nilDereference
  | typeAssertion
  deriving DecidableEq, Repr

/-- The outcome of running Go code: it returns a value or it panics. -/
inductive Result (α : Type) where
  | ok (val : α)
  | panic (p : Panic)
  deriving DecidableEq, Repr

/-- Sequencing of Go statements: a panic ends the run. -/
def Result.bind {α β : Type} (r : Result α) (f : α → Result β) : Result β :=
  match r with
  | .ok a => f a
  | .panic p => .panic p

instance : Monad Result where
  pure := Result.ok
  bind := Result.bind

/-- A Go `error` value, identified by its description. -/
structure GoError where
  msg : String
  deriving DecidableEq, Repr

/-- The method `Error()` of a Go `error`. -/
def GoError.Error (e : GoError) : String := e.msg

/-- The source's `var ErrEmpty = errors.New("empty string")`. -/
def ErrEmpty : GoError := ⟨"empty string"⟩

/-- A Go slice value; `none` is the nil slice. -/
abbrev Slice (α : Type) := Option (List α)

/-- Go's `append(s, x)`. -/
def Slice.append {α : Type} (s : Slice α) (x : α) : Slice α :=
  some (s.getD [] ++ [x])

/-- Go's `append(s, xs...)`. -/
def Slice.appendAll {α : Type} (s : Slice α) (xs : List α) : Slice α :=
  match xs with
  | [] => s
  | x :: rest => some (s.getD [] ++ x :: rest)

/-- A slice after `append(s, x)` followed by `SetLen(len(s))`, what the decoder
leaves when the entry it appended cannot be decoded: the entries of `s`, in a
slice that is not nil. -/
def Slice.appendUndone {α : Type} (s : Slice α) : Slice α :=
  some (s.getD [])

/-- Go's `len(s)`. -/
def Slice.len {α : Type} (s : Slice α) : Nat := (s.getD []).length

/-! ## `strings.Fields` -/

/-- Go's `unicode.IsSpace`: the Latin-1 cases are listed explicitly, the other
runes are the remaining members of the Unicode `White_Space` table. -/
def unicode.IsSpace (r : Char) : Bool :=
  let n := r.toNat
  if n ≤ 0xFF then
    n == 0x09 || n == 0x0A || n == 0x0B || n == 0x0C || n == 0x0D || n == 0x20
      || n == 0x85 || n == 0xA0
  else
    n == 0x1680 || (0x2000 ≤ n && n ≤ 0x200A) || n == 0x2028 || n == 0x2029
      || n == 0x202F || n == 0x205F || n == 0x3000

/-- The scanning loop of Go's `strings.FieldsFunc(s, unicode.IsSpace)`.  The
second argument is the field being read (`none` when the scan is between
fields, Go's `start < 0`). -/
def strings.fieldsLoop : List Char → Option (List Char) → List (List Char)
  | [], none => []
  | [], some field => [field]
  | r :: rest, none =>
    if unicode.IsSpace r then fieldsLoop rest none else fieldsLoop rest (some [r])
  | r :: rest, some field =>
    if unicode.IsSpace r then field :: fieldsLoop rest none
    else fieldsLoop rest (some (field ++ [r]))

/-- Go's `strings.Fields`: the maximal runs of non-space runes of `s`, in order. -/
def strings.Fields (s : String) : List String :=
  (strings.fieldsLoop s.data none).map String.mk

/-- Go's slice indexing `xs[i]`, which panics when `i` is out of range. -/
def index (xs : List String) (i : Nat) : Result String :=
  match xs[i]? with
  | some x => .ok x
  | none => .panic (.indexOutOfRange i xs.length)

/-! ## The request builder -/

/-- The initial value of `urlNameSearch` in `WhoIs`. -/
def searchURL : String :=
  "https://vouschurch.ccbchurch.com/api.php?srv=individual_search"

/-- The request builder of `WhoIs`: the value of `urlNameSearch` after the
statement `if len(fullName) == 2 ... else ...`. -/
def WhoIs.urlNameSearch (name : String) : Result String :=
  let urlNameSearch := searchURL
  let fullName := strings.Fields name
  if fullName.length = 2 then do
    let first ← index fullName 0
    let last ← index fullName 1
    pure (urlNameSearch ++ "&first_name=" ++ first ++ "&last_name=" ++ last)
  else do
    let first ← index fullName 0
    pure (urlNameSearch ++ "&first_name=" ++ first)

/-! ## XML documents and the record `CCBAPI` -/

/-- Go's `xml.Name`. -/
structure xml.Name where
  Space : String := ""
  Local : String := ""
  deriving DecidableEq, Repr

/-- Go's `xml.Attr`. -/
structure xml.Attr where
  Name : xml.Name
  Value : String
  deriving DecidableEq, Repr

/-- The tokens the decoder reads from an input, as a tree: an element with its
name, attributes and content, a run of character data, a processing
instruction, or the place where reading fails.  Comments and directives, which
the decoder passes over, are left out.

A processing instruction carries its target and the values of `version=` and
`encoding=` in its text, as the decoder finds them, empty when absent; the XML
declaration is the one with target `xml`.  `readError` stands where `Token`
fails on the input itself, on a syntax error, an undefined entity, bytes that
are not UTF-8, or the end of the input inside an element; what follows it in
the tree is never read. -/
inductive xml.Node where
  | element (name : xml.Name) (attr : List xml.Attr) (children : List xml.Node)
  | charData (data : String)
  | procInst (target version encoding : String)
  | readError
  deriving Repr

/-- The errors `xml.Unmarshal` returns at the type `CCBAPI`. -/
inductive xml.Error where
  /-- Go's `io.EOF`: the input ends before any element. -/
  | EOF
  /-- The message `expected element type <ccb_api> but have <found>`. -/
  | unexpectedElement (found : String)
  /-- The message `xml: unsupported version ...; only version 1.0 is supported`. -/
  | unsupportedVersion (version : String)
  /-- The message `xml: encoding ... declared but Decoder.CharsetReader is nil`. -/
  | unsupportedEncoding (encoding : String)
  /-- An error of `Token` on the input itself. -/
  | read
  deriving DecidableEq, Repr

/-- The check the decoder makes on a processing instruction with target `xml`:
a version other than `1.0` is refused, and so is, no `CharsetReader` being set,
an encoding other than UTF-8 (the last comparison is Go's
`strings.EqualFold(encoding, "utf-8")`, which for this name is equality after
the ASCII letters are put in lower case). -/
def xml.declarationError? (version encoding : String) : Option xml.Error :=
  if version ≠ "" ∧ version ≠ "1.0" then some (.unsupportedVersion version)
  else if encoding ≠ "" ∧ encoding ≠ "utf-8" ∧ encoding ≠ "UTF-8"
      ∧ String.mk (encoding.data.map Char.toLower) ≠ "utf-8" then
    some (.unsupportedEncoding encoding)
  else none

mutual
/-- The error of the first token inside a node, the node's own token included,
on which `Token` fails; `none` when the node is read to its end. -/
def xml.Node.error? : xml.Node → Option xml.Error
  | .element _ _ children => xml.firstError? children
  | .charData _ => none
  | .procInst target version encoding =>
    if target = "xml" then xml.declarationError? version encoding else none
  | .readError => some .read
/-- The same, for a sequence of nodes read in order. -/
def xml.firstError? : List xml.Node → Option xml.Error
  | [] => none
  | c :: rest =>
    match c.error? with
    | some e => some e
    | none => xml.firstError? rest
end

/-- Whether reading a node fails before its end. -/
def xml.Node.fails (c : xml.Node) : Bool := c.error?.isSome

/-- The character data the decoder saves for a string field: the character
data directly inside the element, concatenated; nested elements are skipped. -/
def xml.charData : List xml.Node → String
  | [] => ""
  | .charData data :: rest => data ++ xml.charData rest
  | _ :: rest => xml.charData rest

/-- The loop of the decoder over the content of an element that is decoded
into a struct: the children are decoded in order by `setChild`, up to the first
one on which reading fails; that one leaves what `failChild` says, and the
decoder returns at once. -/
def xml.decodeChildren {α : Type} (setChild failChild : α → xml.Node → α) :
    α → List xml.Node → α
  | v, [] => v
  | v, c :: rest =>
    if c.fails = true then failChild v c
    else xml.decodeChildren setChild failChild (setChild v c) rest

/-- The search of `Unmarshal` for the first start element of the input; a token
on which reading fails before it ends the search with its error. -/
def xml.firstElement :
    List xml.Node → Except xml.Error (xml.Name × List xml.Attr × List xml.Node)
  | [] => .error .EOF
  | .element name attr children :: _ => .ok (name, attr, children)
  | c :: rest =>
    match c.error? with
    | some e => .error e
    | none => xml.firstElement rest

/-- The anonymous struct element type of the slice `CCBAPI.Request.Parameters.Argument`.
-/
structure Argument where
  Value : String := ""
  Name : String := ""
  deriving DecidableEq, Repr

/-- Attribute step of decoding into `Argument`: an attribute named like a field tagged
`attr` sets it. -/
def Argument.setAttr (v : Argument) (a : xml.Attr) : Argument :=
  if a.Name.Local = "value" then { v with Value := a.Value }
  else if a.Name.Local = "name" then { v with Name := a.Value }
  else v

/-- Decoding of an element into `Argument`: the attributes, then the children, in
document order. -/
def Argument.unmarshal (v : Argument) (attr : List xml.Attr)
    (_children : List xml.Node) : Argument :=
  attr.foldl Argument.setAttr v

/-- The anonymous struct type of the field `CCBAPI.Request.Parameters`. -/
structure Parameters where
  Argument : Slice Argument := none
  deriving DecidableEq, Repr

/-- Child step of decoding into `Parameters`: a child element goes to the field tagged
with its name, any other child is skipped. -/
def Parameters.setChild (v : Parameters) : xml.Node → Parameters
  | .element name attr children =>
    if name.Local = "argument" then
      { v with Argument := Slice.append v.Argument (Argument.unmarshal {} attr children) }
    else v
  | _ => v

/-- What decoding into `Parameters` leaves when reading fails inside a child: a struct
field keeps what was decoded into it, a slice loses the entry being decoded, and nothing
else is set. -/
def Parameters.failChild (v : Parameters) : xml.Node → Parameters
  | .element name _ _ =>
    if name.Local = "argument" then { v with Argument := Slice.appendUndone v.Argument }
    else v
  | _ => v

/-- Decoding of an element into `Parameters`: the attributes, then the children, in
document order. -/
def Parameters.unmarshal (v : Parameters) (_attr : List xml.Attr)
    (children : List xml.Node) : Parameters :=
  xml.decodeChildren Parameters.setChild Parameters.failChild v children

/-- The anonymous struct type of the field `CCBAPI.Request`. -/
structure Request where
  Parameters : Parameters := {}
  deriving DecidableEq, Repr

/-- Child step of decoding into `Request`: a child element goes to the field tagged with
its name, any other child is skipped. -/
def Request.setChild (v : Request) : xml.Node → Request
  | .element name attr children =>
    if name.Local = "parameters" then
      { v with Parameters := Parameters.unmarshal v.Parameters attr children }
    else v
  | _ => v

/-- What decoding into `Request` leaves when reading fails inside a child: a struct
field keeps what was decoded into it, a slice loses the entry being decoded, and nothing
else is set. -/
def Request.failChild (v : Request) : xml.Node → Request
  | .element name attr children =>
    if name.Local = "parameters" then
      { v with Parameters := Parameters.unmarshal v.Parameters attr children }
    else v
  | _ => v

/-- Decoding of an element into `Request`: the attributes, then the children, in
document order. -/
def Request.unmarshal (v : Request) (_attr : List xml.Attr)
    (children : List xml.Node) : Request :=
  xml.decodeChildren Request.setChild Request.failChild v children

/-- The anonymous struct type whose only field is `ID`, read from the attribute `id`:
the type of the foreign-key references (`Campus`, `Family`, `Creator`, the privacy
settings, ...). -/
structure IDRef where
  ID : String := ""
  deriving DecidableEq, Repr

/-- Attribute step of decoding into `IDRef`: an attribute named like a field tagged
`attr` sets it. -/
def IDRef.setAttr (v : IDRef) (a : xml.Attr) : IDRef :=
  if a.Name.Local = "id" then { v with ID := a.Value }
  else v

/-- Decoding of an element into `IDRef`: the attributes, then the children, in document
order. -/
def IDRef.unmarshal (v : IDRef) (attr : List xml.Attr)
    (_children : List xml.Node) : IDRef :=
  attr.foldl IDRef.setAttr v

/-- The anonymous struct type of the field
`CCBAPI.Response.Individuals.Individual.Addresses.Address.Country`. -/
structure Country where
  Code : String := ""
  deriving DecidableEq, Repr

/-- Attribute step of decoding into `Country`: an attribute named like a field tagged
`attr` sets it. -/
def Country.setAttr (v : Country) (a : xml.Attr) : Country :=
  if a.Name.Local = "code" then { v with Code := a.Value }
  else v

/-- Decoding of an element into `Country`: the attributes, then the children, in
document order. -/
def Country.unmarshal (v : Country) (attr : List xml.Attr)
    (_children : List xml.Node) : Country :=
  attr.foldl Country.setAttr v

/-- The anonymous struct element type of the slice
`CCBAPI.Response.Individuals.Individual.Addresses.Address`. -/
structure Address where
  Type_ : String := ""
  StreetAddress : String := ""
  City : String := ""
  State : String := ""
  Zip : String := ""
  Country : Country := {}
  Line1 : String := ""
  Line2 : String := ""
  Latitude : String := ""
  Longitude : String := ""
  deriving DecidableEq, Repr

/-- Attribute step of decoding into `Address`: an attribute named like a field tagged
`attr` sets it. -/
def Address.setAttr (v : Address) (a : xml.Attr) : Address :=
  if a.Name.Local = "type" then { v with Type_ := a.Value }
  else v

/-- Child step of decoding into `Address`: a child element goes to the field tagged with
its name, any other child is skipped. -/
def Address.setChild (v : Address) : xml.Node → Address
  | .element name attr children =>
    if name.Local = "street_address" then { v with StreetAddress := xml.charData children }
    else if name.Local = "city" then { v with City := xml.charData children }
    else if name.Local = "state" then { v with State := xml.charData children }
    else if name.Local = "zip" then { v with Zip := xml.charData children }
    else if name.Local = "country" then
      { v with Country := Country.unmarshal v.Country attr children }
    else if name.Local = "line_1" then { v with Line1 := xml.charData children }
    else if name.Local = "line_2" then { v with Line2 := xml.charData children }
    else if name.Local = "latitude" then { v with Latitude := xml.charData children }
    else if name.Local = "longitude" then { v with Longitude := xml.charData children }
    else v
  | _ => v

/-- What decoding into `Address` leaves when reading fails inside a child: a struct
field keeps what was decoded into it, a slice loses the entry being decoded, and nothing
else is set. -/
def Address.failChild (v : Address) : xml.Node → Address
  | .element name attr children =>
    if name.Local = "country" then { v with Country := Country.unmarshal v.Country attr children }
    else v
  | _ => v

/-- Decoding of an element into `Address`: the attributes, then the children, in
document order. -/
def Address.unmarshal (v : Address) (attr : List xml.Attr)
    (children : List xml.Node) : Address :=
  xml.decodeChildren Address.setChild Address.failChild (attr.foldl Address.setAttr v) children

/-- The anonymous struct type of the field
`CCBAPI.Response.Individuals.Individual.Addresses`. -/
structure Addresses where
  Address : Slice Address := none
  deriving DecidableEq, Repr

/-- Child step of decoding into `Addresses`: a child element goes to the field tagged
with its name, any other child is skipped. -/
def Addresses.setChild (v : Addresses) : xml.Node → Addresses
  | .element name attr children =>
    if name.Local = "address" then
      { v with Address := Slice.append v.Address (Address.unmarshal {} attr children) }
    else v
  | _ => v

/-- What decoding into `Addresses` leaves when reading fails inside a child: a struct
field keeps what was decoded into it, a slice loses the entry being decoded, and nothing
else is set. -/
def Addresses.failChild (v : Addresses) : xml.Node → Addresses
  | .element name _ _ =>
    if name.Local = "address" then { v with Address := Slice.appendUndone v.Address }
    else v
  | _ => v

/-- Decoding of an element into `Addresses`: the attributes, then the children, in
document order. -/
def Addresses.unmarshal (v : Addresses) (_attr : List xml.Attr)
    (children : List xml.Node) : Addresses :=
  xml.decodeChildren Addresses.setChild Addresses.failChild v children

/-- The anonymous struct element type of the slice
`CCBAPI.Response.Individuals.Individual.Phones.Phone`. -/
structure Phone where
  Type_ : String := ""
  deriving DecidableEq, Repr

/-- Attribute step of decoding into `Phone`: an attribute named like a field tagged
`attr` sets it. -/
def Phone.setAttr (v : Phone) (a : xml.Attr) : Phone :=
  if a.Name.Local = "type" then { v with Type_ := a.Value }
  else v

/-- Decoding of an element into `Phone`: the attributes, then the children, in document
order. -/
def Phone.unmarshal (v : Phone) (attr : List xml.Attr)
    (_children : List xml.Node) : Phone :=
  attr.foldl Phone.setAttr v

/-- The anonymous struct type of the field
`CCBAPI.Response.Individuals.Individual.Phones`. -/
structure Phones where
  Phone : Slice Phone := none
  deriving DecidableEq, Repr

/-- Child step of decoding into `Phones`: a child element goes to the field tagged with
its name, any other child is skipped. -/
def Phones.setChild (v : Phones) : xml.Node → Phones
  | .element name attr children =>
    if name.Local = "phone" then
      { v with Phone := Slice.append v.Phone (Phone.unmarshal {} attr children) }
    else v
  | _ => v

/-- What decoding into `Phones` leaves when reading fails inside a child: a struct field
keeps what was decoded into it, a slice loses the entry being decoded, and nothing else
is set. -/
def Phones.failChild (v : Phones) : xml.Node → Phones
  | .element name _ _ =>
    if name.Local = "phone" then { v with Phone := Slice.appendUndone v.Phone }
    else v
  | _ => v

/-- Decoding of an element into `Phones`: the attributes, then the children, in document
order. -/
def Phones.unmarshal (v : Phones) (_attr : List xml.Attr)
    (children : List xml.Node) : Phones :=
  xml.decodeChildren Phones.setChild Phones.failChild v children

/-- The anonymous struct type of the field
`CCBAPI.Response.Individuals.Individual.PrivacySettings`. -/
structure PrivacySettings where
  ProfileListed : String := ""
  MailingAddress : IDRef := {}
  HomeAddress : IDRef := {}
  HomePhone : IDRef := {}
  WorkPhone : IDRef := {}
  MobilePhone : IDRef := {}
  EmergencyPhone : IDRef := {}
  Birthday : IDRef := {}
  Anniversary : IDRef := {}
  Gender : IDRef := {}
  MaritalStatus : IDRef := {}
  UserDefinedFields : IDRef := {}
  Allergies : IDRef := {}
  deriving DecidableEq, Repr

/-- Child step of decoding into `PrivacySettings`: a child element goes to the field
tagged with its name, any other child is skipped. -/
def PrivacySettings.setChild (v : PrivacySettings) : xml.Node → PrivacySettings
  | .element name attr children =>
    if name.Local = "profile_listed" then { v with ProfileListed := xml.charData children }
    else if name.Local = "mailing_address" then
      { v with MailingAddress := IDRef.unmarshal v.MailingAddress attr children }
    else if name.Local = "home_address" then
      { v with HomeAddress := IDRef.unmarshal v.HomeAddress attr children }
    else if name.Local = "home_phone" then
      { v with HomePhone := IDRef.unmarshal v.HomePhone attr children }
    else if name.Local = "work_phone" then
      { v with WorkPhone := IDRef.unmarshal v.WorkPhone attr children }
    else if name.Local = "mobile_phone" then
      { v with MobilePhone := IDRef.unmarshal v.MobilePhone attr children }
    else if name.Local = "emergency_phone" then
      { v with EmergencyPhone := IDRef.unmarshal v.EmergencyPhone attr children }
    else if name.Local = "birthday" then
      { v with Birthday := IDRef.unmarshal v.Birthday attr children }
    else if name.Local = "anniversary" then
      { v with Anniversary := IDRef.unmarshal v.Anniversary attr children }
    else if name.Local = "gender" then { v with Gender := IDRef.unmarshal v.Gender attr children }
    else if name.Local = "marital_status" then
      { v with MaritalStatus := IDRef.unmarshal v.MaritalStatus attr children }
    else if name.Local = "user_defined_fields" then
      { v with UserDefinedFields := IDRef.unmarshal v.UserDefinedFields attr children }
    else if name.Local = "allergies" then
      { v with Allergies := IDRef.unmarshal v.Allergies attr children }
    else v
  | _ => v

/-- What decoding into `PrivacySettings` leaves when reading fails inside a child: a
struct field keeps what was decoded into it, a slice loses the entry being decoded, and
nothing else is set. -/
def PrivacySettings.failChild (v : PrivacySettings) : xml.Node → PrivacySettings
  | .element name attr children =>
    if name.Local = "mailing_address" then
      { v with MailingAddress := IDRef.unmarshal v.MailingAddress attr children }
    else if name.Local = "home_address" then
      { v with HomeAddress := IDRef.unmarshal v.HomeAddress attr children }
    else if name.Local = "home_phone" then
      { v with HomePhone := IDRef.unmarshal v.HomePhone attr children }
    else if name.Local = "work_phone" then
      { v with WorkPhone := IDRef.unmarshal v.WorkPhone attr children }
    else if name.Local = "mobile_phone" then
      { v with MobilePhone := IDRef.unmarshal v.MobilePhone attr children }
    else if name.Local = "emergency_phone" then
      { v with EmergencyPhone := IDRef.unmarshal v.EmergencyPhone attr children }
    else if name.Local = "birthday" then
      { v with Birthday := IDRef.unmarshal v.Birthday attr children }
    else if name.Local = "anniversary" then
      { v with Anniversary := IDRef.unmarshal v.Anniversary attr children }
    else if name.Local = "gender" then { v with Gender := IDRef.unmarshal v.Gender attr children }
    else if name.Local = "marital_status" then
      { v with MaritalStatus := IDRef.unmarshal v.MaritalStatus attr children }
    else if name.Local = "user_defined_fields" then
      { v with UserDefinedFields := IDRef.unmarshal v.UserDefinedFields attr children }
    else if name.Local = "allergies" then
      { v with Allergies := IDRef.unmarshal v.Allergies attr children }
    else v
  | _ => v

/-- Decoding of an element into `PrivacySettings`: the attributes, then the children, in
document order. -/
def PrivacySettings.unmarshal (v : PrivacySettings) (_attr : List xml.Attr)
    (children : List xml.Node) : PrivacySettings :=
  xml.decodeChildren PrivacySettings.setChild PrivacySettings.failChild v children

/-- The anonymous struct type of the field `CCBAPI.Response.Individuals.Individual`. -/
structure Individual where
  ID : String := ""
  SyncID : String := ""
  OtherID : String := ""
  GivingNumber : String := ""
  Campus : IDRef := {}
  Family : IDRef := {}
  FamilyImage : String := ""
  FamilyPosition : String := ""
  FamilyMembers : String := ""
  FirstName : String := ""
  LastName : String := ""
  MiddleName : String := ""
  LegalFirstName : String := ""
  FullName : String := ""
  Salutation : String := ""
  Suffix : String := ""
  Image : String := ""
  Email : String := ""
  Allergies : String := ""
  ConfirmedNoAllergies : String := ""
  Addresses : Addresses := {}
  Phones : Phones := {}
  MobileCarrier : IDRef := {}
  Gender : String := ""
  MaritalStatus : String := ""
  Birthday : String := ""
  Anniversary : String := ""
  Baptized : String := ""
  Deceased : String := ""
  MembershipType : IDRef := {}
  MembershipDate : String := ""
  MembershipEnd : String := ""
  ReceiveEmailFromChurch : String := ""
  DefaultNewGroupMessages : String := ""
  DefaultNewGroupComments : String := ""
  DefaultNewGroupDigest : String := ""
  DefaultNewGroupSms : String := ""
  PrivacySettings : PrivacySettings := {}
  Active : String := ""
  Creator : IDRef := {}
  Modifier : IDRef := {}
  Created : String := ""
  Modified : String := ""
  UserDefinedTextFields : String := ""
  UserDefinedDateFields : String := ""
  UserDefinedPulldownFields : String := ""
  deriving DecidableEq, Repr

/-- Attribute step of decoding into `Individual`: an attribute named like a field tagged
`attr` sets it. -/
def Individual.setAttr (v : Individual) (a : xml.Attr) : Individual :=
  if a.Name.Local = "id" then { v with ID := a.Value }
  else v

/-- Child step of decoding into `Individual`: a child element goes to the field tagged
with its name, any other child is skipped. -/
def Individual.setChild (v : Individual) : xml.Node → Individual
  | .element name attr children =>
    if name.Local = "sync_id" then { v with SyncID := xml.charData children }
    else if name.Local = "other_id" then { v with OtherID := xml.charData children }
    else if name.Local = "giving_number" then { v with GivingNumber := xml.charData children }
    else if name.Local = "campus" then { v with Campus := IDRef.unmarshal v.Campus attr children }
    else if name.Local = "family" then { v with Family := IDRef.unmarshal v.Family attr children }
    else if name.Local = "family_image" then { v with FamilyImage := xml.charData children }
    else if name.Local = "family_position" then { v with FamilyPosition := xml.charData children }
    else if name.Local = "family_members" then { v with FamilyMembers := xml.charData children }
    else if name.Local = "first_name" then { v with FirstName := xml.charData children }
    else if name.Local = "last_name" then { v with LastName := xml.charData children }
    else if name.Local = "middle_name" then { v with MiddleName := xml.charData children }
    else if name.Local = "legal_first_name" then { v with LegalFirstName := xml.charData children }
    else if name.Local = "full_name" then { v with FullName := xml.charData children }
    else if name.Local = "salutation" then { v with Salutation := xml.charData children }
    else if name.Local = "suffix" then { v with Suffix := xml.charData children }
    else if name.Local = "image" then { v with Image := xml.charData children }
    else if name.Local = "email" then { v with Email := xml.charData children }
    else if name.Local = "allergies" then { v with Allergies := xml.charData children }
    else if name.Local = "confirmed_no_allergies" then
      { v with ConfirmedNoAllergies := xml.charData children }
    else if name.Local = "addresses" then
      { v with Addresses := Addresses.unmarshal v.Addresses attr children }
    else if name.Local = "phones" then { v with Phones := Phones.unmarshal v.Phones attr children }
    else if name.Local = "mobile_carrier" then
      { v with MobileCarrier := IDRef.unmarshal v.MobileCarrier attr children }
    else if name.Local = "gender" then { v with Gender := xml.charData children }
    else if name.Local = "marital_status" then { v with MaritalStatus := xml.charData children }
    else if name.Local = "birthday" then { v with Birthday := xml.charData children }
    else if name.Local = "anniversary" then { v with Anniversary := xml.charData children }
    else if name.Local = "baptized" then { v with Baptized := xml.charData children }
    else if name.Local = "deceased" then { v with Deceased := xml.charData children }
    else if name.Local = "membership_type" then
      { v with MembershipType := IDRef.unmarshal v.MembershipType attr children }
    else if name.Local = "membership_date" then { v with MembershipDate := xml.charData children }
    else if name.Local = "membership_end" then { v with MembershipEnd := xml.charData children }
    else if name.Local = "receive_email_from_church" then
      { v with ReceiveEmailFromChurch := xml.charData children }
    else if name.Local = "default_new_group_messages" then
      { v with DefaultNewGroupMessages := xml.charData children }
    else if name.Local = "default_new_group_comments" then
      { v with DefaultNewGroupComments := xml.charData children }
    else if name.Local = "default_new_group_digest" then
      { v with DefaultNewGroupDigest := xml.charData children }
    else if name.Local = "default_new_group_sms" then
      { v with DefaultNewGroupSms := xml.charData children }
    else if name.Local = "privacy_settings" then
      { v with PrivacySettings := PrivacySettings.unmarshal v.PrivacySettings attr children }
    else if name.Local = "active" then { v with Active := xml.charData children }
    else if name.Local = "creator" then
      { v with Creator := IDRef.unmarshal v.Creator attr children }
    else if name.Local = "modifier" then
      { v with Modifier := IDRef.unmarshal v.Modifier attr children }
    else if name.Local = "created" then { v with Created := xml.charData children }
    else if name.Local = "modified" then { v with Modified := xml.charData children }
    else if name.Local = "user_defined_text_fields" then
      { v with UserDefinedTextFields := xml.charData children }
    else if name.Local = "user_defined_date_fields" then
      { v with UserDefinedDateFields := xml.charData children }
    else if name.Local = "user_defined_pulldown_fields" then
      { v with UserDefinedPulldownFields := xml.charData children }
    else v
  | _ => v

/-- What decoding into `Individual` leaves when reading fails inside a child: a struct
field keeps what was decoded into it, a slice loses the entry being decoded, and nothing
else is set. -/
def Individual.failChild (v : Individual) : xml.Node → Individual
  | .element name attr children =>
    if name.Local = "campus" then { v with Campus := IDRef.unmarshal v.Campus attr children }
    else if name.Local = "family" then { v with Family := IDRef.unmarshal v.Family attr children }
    else if name.Local = "addresses" then
      { v with Addresses := Addresses.unmarshal v.Addresses attr children }
    else if name.Local = "phones" then { v with Phones := Phones.unmarshal v.Phones attr children }
    else if name.Local = "mobile_carrier" then
      { v with MobileCarrier := IDRef.unmarshal v.MobileCarrier attr children }
    else if name.Local = "membership_type" then
      { v with MembershipType := IDRef.unmarshal v.MembershipType attr children }
    else if name.Local = "privacy_settings" then
      { v with PrivacySettings := PrivacySettings.unmarshal v.PrivacySettings attr children }
    else if name.Local = "creator" then
      { v with Creator := IDRef.unmarshal v.Creator attr children }
    else if name.Local = "modifier" then
      { v with Modifier := IDRef.unmarshal v.Modifier attr children }
    else v
  | _ => v

/-- Decoding of an element into `Individual`: the attributes, then the children, in
document order. -/
def Individual.unmarshal (v : Individual) (attr : List xml.Attr)
    (children : List xml.Node) : Individual :=
  xml.decodeChildren Individual.setChild Individual.failChild
    (attr.foldl Individual.setAttr v) children

/-- The anonymous struct type of the field `CCBAPI.Response.Individuals`. -/
structure Individuals where
  Count : String := ""
  Individual : Individual := {}
  deriving DecidableEq, Repr

/-- Attribute step of decoding into `Individuals`: an attribute named like a field
tagged `attr` sets it. -/
def Individuals.setAttr (v : Individuals) (a : xml.Attr) : Individuals :=
  if a.Name.Local = "count" then { v with Count := a.Value }
  else v

/-- Child step of decoding into `Individuals`: a child element goes to the field tagged
with its name, any other child is skipped. -/
def Individuals.setChild (v : Individuals) : xml.Node → Individuals
  | .element name attr children =>
    if name.Local = "individual" then
      { v with Individual := Individual.unmarshal v.Individual attr children }
    else v
  | _ => v

/-- What decoding into `Individuals` leaves when reading fails inside a child: a struct
field keeps what was decoded into it, a slice loses the entry being decoded, and nothing
else is set. -/
def Individuals.failChild (v : Individuals) : xml.Node → Individuals
  | .element name attr children =>
    if name.Local = "individual" then
      { v with Individual := Individual.unmarshal v.Individual attr children }
    else v
  | _ => v

/-- Decoding of an element into `Individuals`: the attributes, then the children, in
document order. -/
def Individuals.unmarshal (v : Individuals) (attr : List xml.Attr)
    (children : List xml.Node) : Individuals :=
  xml.decodeChildren Individuals.setChild Individuals.failChild
    (attr.foldl Individuals.setAttr v) children

/-- The anonymous struct type of the field `CCBAPI.Response`. -/
structure Response where
  Service : String := ""
  ServiceAction : String := ""
  Availability : String := ""
  Individuals : Individuals := {}
  deriving DecidableEq, Repr

/-- Child step of decoding into `Response`: a child element goes to the field tagged
with its name, any other child is skipped. -/
def Response.setChild (v : Response) : xml.Node → Response
  | .element name attr children =>
    if name.Local = "service" then { v with Service := xml.charData children }
    else if name.Local = "service_action" then { v with ServiceAction := xml.charData children }
    else if name.Local = "availability" then { v with Availability := xml.charData children }
    else if name.Local = "individuals" then
      { v with Individuals := Individuals.unmarshal v.Individuals attr children }
    else v
  | _ => v

/-- What decoding into `Response` leaves when reading fails inside a child: a struct
field keeps what was decoded into it, a slice loses the entry being decoded, and nothing
else is set. -/
def Response.failChild (v : Response) : xml.Node → Response
  | .element name attr children =>
    if name.Local = "individuals" then
      { v with Individuals := Individuals.unmarshal v.Individuals attr children }
    else v
  | _ => v

/-- Decoding of an element into `Response`: the attributes, then the children, in
document order. -/
def Response.unmarshal (v : Response) (_attr : List xml.Attr)
    (children : List xml.Node) : Response :=
  xml.decodeChildren Response.setChild Response.failChild v children

/-- The Go type `CCBAPI`, the record an individual search response is parsed into. -/
structure CCBAPI where
  XMLName : xml.Name := {}
  Request : Request := {}
  Response : Response := {}
  deriving DecidableEq, Repr

/-- Child step of decoding into `CCBAPI`: a child element goes to the field tagged with
its name, any other child is skipped. -/
def CCBAPI.setChild (v : CCBAPI) : xml.Node → CCBAPI
  | .element name attr children =>
    if name.Local = "request" then { v with Request := Request.unmarshal v.Request attr children }
    else if name.Local = "response" then
      { v with Response := Response.unmarshal v.Response attr children }
    else v
  | _ => v

/-- What decoding into `CCBAPI` leaves when reading fails inside a child: a struct field
keeps what was decoded into it, a slice loses the entry being decoded, and nothing else
is set. -/
def CCBAPI.failChild (v : CCBAPI) : xml.Node → CCBAPI
  | .element name attr children =>
    if name.Local = "request" then { v with Request := Request.unmarshal v.Request attr children }
    else if name.Local = "response" then
      { v with Response := Response.unmarshal v.Response attr children }
    else v
  | _ => v

/-- Decoding of an element into `CCBAPI`: the attributes, then the children, in document
order. -/
def CCBAPI.unmarshal (v : CCBAPI) (_attr : List xml.Attr)
    (children : List xml.Node) : CCBAPI :=
  xml.decodeChildren CCBAPI.setChild CCBAPI.failChild v children

/-- Go's `xml.Unmarshal(data, &v)` at the type `CCBAPI`: the first element of
the input must be named `ccb_api` (the tag of `XMLName`); its name is recorded
and its content decoded.  An error before the content is read leaves `v` as it
was; an error inside the content leaves what was decoded before it. -/
def xml.Unmarshal (data : List xml.Node) (v : CCBAPI) : CCBAPI × Option xml.Error :=
  match xml.firstElement data with
  | .error e => (v, some e)
  | .ok (name, attr, children) =>
    if name.Local ≠ "ccb_api" then (v, some (.unexpectedElement name.Local))
    else (CCBAPI.unmarshal { v with XMLName := name } attr children, xml.firstError? children)

/-! ## JSON -/

/-- JSON values, as far as the program writes them. -/
inductive JSON where
  | null
  | str (s : String)
  | arr (elems : List JSON)
  | obj (members : List (String × JSON))
  deriving Repr

/-- What `encoding/json` writes for one rune of a string (HTML escaping on, as
in `json.Marshal` and a new `Encoder`).  Backspace and form feed are written as
`\u0008` and `\u000c`, as by the encoders before Go 1.22. -/
def json.escape (c : Char) : List Char :=
  let n := c.toNat
  if n = 0x22 ∨ n = 0x5C then [Char.ofNat 0x5C, c]
  else if n = 0x0A then [Char.ofNat 0x5C, Char.ofNat 0x6E]
  else if n = 0x0D then [Char.ofNat 0x5C, Char.ofNat 0x72]
  else if n = 0x09 then [Char.ofNat 0x5C, Char.ofNat 0x74]
  else if n < 0x20 ∨ n = 0x3C ∨ n = 0x3E ∨ n = 0x26 then
    [Char.ofNat 0x5C, Char.ofNat 0x75, Char.ofNat 0x30, Char.ofNat 0x30,
      Nat.digitChar (n / 16), Nat.digitChar (n % 16)]
  else if n = 0x2028 ∨ n = 0x2029 then
    [Char.ofNat 0x5C, Char.ofNat 0x75, Char.ofNat 0x32, Char.ofNat 0x30, Char.ofNat 0x32,
      Nat.digitChar (n % 16)]
  else [c]

/-- The JSON string literal `encoding/json` writes for a Go string. -/
def json.quote (s : String) : String :=
  "\"" ++ String.mk (s.data.flatMap json.escape) ++ "\""

mutual
/-- The compact text `encoding/json` writes for a JSON value. -/
def JSON.render : JSON → String
  | .null => "null"
  | .str s => json.quote s
  | .arr elems => "[" ++ (JSON.renderElems elems).drop 1 ++ "]"
  | .obj members => "\x7b" ++ (JSON.renderMembers members).drop 1 ++ "\x7d"
/-- The elements of an array, each preceded by a comma. -/
def JSON.renderElems : List JSON → String
  | [] => ""
  | x :: rest => "," ++ x.render ++ JSON.renderElems rest
/-- The members of an object, each preceded by a comma. -/
def JSON.renderMembers : List (String × JSON) → String
  | [] => ""
  | (key, x) :: rest => "," ++ json.quote key ++ ":" ++ x.render ++ JSON.renderMembers rest
end

/-- The value of member `key` of a JSON object. -/
def JSON.get? (key : String) : JSON → Option JSON
  | .obj members => (members.find? (fun m => m.1 == key)).map (fun m => m.2)
  | _ => none

/-- The value reached from a JSON value by a path of member names. -/
def JSON.getPath? : List String → JSON → Option JSON
  | [], x => some x
  | key :: path, x => (x.get? key).bind (JSON.getPath? path)

/-- The member names of a JSON object. -/
def JSON.keys : JSON → List String
  | .obj members => members.map (fun m => m.1)
  | _ => []

mutual
/-- Whether some object inside a JSON value, at any depth, has member `key`. -/
def JSON.hasKey (key : String) : JSON → Bool
  | .null => false
  | .str _ => false
  | .arr elems => JSON.hasKeyElems key elems
  | .obj members => JSON.hasKeyMembers key members
/-- The same, for the elements of an array. -/
def JSON.hasKeyElems (key : String) : List JSON → Bool
  | [] => false
  | x :: rest => x.hasKey key || JSON.hasKeyElems key rest
/-- The same, for the members of an object. -/
def JSON.hasKeyMembers (key : String) : List (String × JSON) → Bool
  | [] => false
  | (k, x) :: rest => k == key || x.hasKey key || JSON.hasKeyMembers key rest
end

mutual
/-- Whether some object inside a JSON value, at any depth, has a member whose
value is the empty string. -/
def JSON.hasEmptyString : JSON → Bool
  | .null => false
  | .str _ => false
  | .arr elems => JSON.hasEmptyStringElems elems
  | .obj members => JSON.hasEmptyStringMembers members
/-- The same, for the elements of an array. -/
def JSON.hasEmptyStringElems : List JSON → Bool
  | [] => false
  | x :: rest => x.hasEmptyString || JSON.hasEmptyStringElems rest
/-- The same, for the members of an object. -/
def JSON.hasEmptyStringMembers : List (String × JSON) → Bool
  | [] => false
  | (_, .str s) :: rest => s == "" || JSON.hasEmptyStringMembers rest
  | (_, x) :: rest => x.hasEmptyString || JSON.hasEmptyStringMembers rest
end

/-- What the JSON encoding of a Go value is to hold, by the type of the value: a
string, an object with a member for every field of a struct, in order, or for a
slice `null` or an array of entries. -/
inductive Schema where
  | string
  | object (members : List (String × Schema))
  | sequence (entry : Schema)

mutual
/-- Whether a JSON value holds every member its schema names, and no other, at
every depth, the entries of arrays included. -/
def JSON.conforms : JSON → Schema → Bool
  | .str _, .string => true
  | .obj members, .object fields => JSON.conformsMembers members fields
  | .null, .sequence _ => true
  | .arr elems, .sequence entry => JSON.conformsElems elems entry
  | _, _ => false
/-- The same, for the members of an object against the fields of a struct. -/
def JSON.conformsMembers : List (String × JSON) → List (String × Schema) → Bool
  | [], [] => true
  | (key, x) :: rest, (field, schema) :: fields =>
    field == key && x.conforms schema && JSON.conformsMembers rest fields
  | _, _ => false
/-- The same, for the entries of an array. -/
def JSON.conformsElems : List JSON → Schema → Bool
  | [], _ => true
  | x :: rest, entry => x.conforms entry && JSON.conformsElems rest entry
end

/-- The JSON encoding of a slice: `null` for the nil slice, else an array. -/
def Slice.marshal {α : Type} (f : α → JSON) : Slice α → JSON
  | none => .null
  | some xs => .arr (xs.map f)

/-- The JSON encoding of an `xml.Name`. -/
def xml.Name.marshal (v : xml.Name) : JSON :=
  .obj [("Space", .str v.Space), ("Local", .str v.Local)]

/-- The fields of the Go type `xml.Name`. -/
def xml.Name.schema : Schema :=
  .object [("Space", .string), ("Local", .string)]

/-- The encoding `json.Marshal` of `Argument`: no `json` tags, so every field, under its
Go name. -/
def Argument.marshal (v : Argument) : JSON :=
  .obj [("Value", .str v.Value), ("Name", .str v.Name)]

/-- The encoding `json.Marshal` of `Parameters`: no `json` tags, so every field, under
its Go name. -/
def Parameters.marshal (v : Parameters) : JSON :=
  .obj [("Argument", Slice.marshal Argument.marshal v.Argument)]

/-- The encoding `json.Marshal` of `Request`: no `json` tags, so every field, under its
Go name. -/
def Request.marshal (v : Request) : JSON :=
  .obj [("Parameters", v.Parameters.marshal)]

/-- The encoding `json.Marshal` of `IDRef`: no `json` tags, so every field, under its Go
name. -/
def IDRef.marshal (v : IDRef) : JSON :=
  .obj [("ID", .str v.ID)]

/-- The encoding `json.Marshal` of `Country`: no `json` tags, so every field, under its
Go name. -/
def Country.marshal (v : Country) : JSON :=
  .obj [("Code", .str v.Code)]

/-- The encoding `json.Marshal` of `Address`: no `json` tags, so every field, under its
Go name. -/
def Address.marshal (v : Address) : JSON :=
  .obj [("Type", .str v.Type_), ("StreetAddress", .str v.StreetAddress), ("City", .str v.City),
    ("State", .str v.State), ("Zip", .str v.Zip), ("Country", v.Country.marshal),
    ("Line1", .str v.Line1), ("Line2", .str v.Line2), ("Latitude", .str v.Latitude),
    ("Longitude", .str v.Longitude)]

/-- The encoding `json.Marshal` of `Addresses`: no `json` tags, so every field, under
its Go name. -/
def Addresses.marshal (v : Addresses) : JSON :=
  .obj [("Address", Slice.marshal Address.marshal v.Address)]

/-- The encoding `json.Marshal` of `Phone`: no `json` tags, so every field, under its Go
name. -/
def Phone.marshal (v : Phone) : JSON :=
  .obj [("Type", .str v.Type_)]

/-- The encoding `json.Marshal` of `Phones`: no `json` tags, so every field, under its
Go name. -/
def Phones.marshal (v : Phones) : JSON :=
  .obj [("Phone", Slice.marshal Phone.marshal v.Phone)]

/-- The encoding `json.Marshal` of `PrivacySettings`: no `json` tags, so every field,
under its Go name. -/
def PrivacySettings.marshal (v : PrivacySettings) : JSON :=
  .obj [("ProfileListed", .str v.ProfileListed), ("MailingAddress", v.MailingAddress.marshal),
    ("HomeAddress", v.HomeAddress.marshal), ("HomePhone", v.HomePhone.marshal),
    ("WorkPhone", v.WorkPhone.marshal), ("MobilePhone", v.MobilePhone.marshal),
    ("EmergencyPhone", v.EmergencyPhone.marshal), ("Birthday", v.Birthday.marshal),
    ("Anniversary", v.Anniversary.marshal), ("Gender", v.Gender.marshal),
    ("MaritalStatus", v.MaritalStatus.marshal),
    ("UserDefinedFields", v.UserDefinedFields.marshal), ("Allergies", v.Allergies.marshal)]

/-- The encoding `json.Marshal` of `Individual`: no `json` tags, so every field, under
its Go name. -/
def Individual.marshal (v : Individual) : JSON :=
  .obj [("ID", .str v.ID), ("SyncID", .str v.SyncID), ("OtherID", .str v.OtherID),
    ("GivingNumber", .str v.GivingNumber), ("Campus", v.Campus.marshal),
    ("Family", v.Family.marshal), ("FamilyImage", .str v.FamilyImage),
    ("FamilyPosition", .str v.FamilyPosition), ("FamilyMembers", .str v.FamilyMembers),
    ("FirstName", .str v.FirstName), ("LastName", .str v.LastName),
    ("MiddleName", .str v.MiddleName), ("LegalFirstName", .str v.LegalFirstName),
    ("FullName", .str v.FullName), ("Salutation", .str v.Salutation), ("Suffix", .str v.Suffix),
    ("Image", .str v.Image), ("Email", .str v.Email), ("Allergies", .str v.Allergies),
    ("ConfirmedNoAllergies", .str v.ConfirmedNoAllergies), ("Addresses", v.Addresses.marshal),
    ("Phones", v.Phones.marshal), ("MobileCarrier", v.MobileCarrier.marshal),
    ("Gender", .str v.Gender), ("MaritalStatus", .str v.MaritalStatus),
    ("Birthday", .str v.Birthday), ("Anniversary", .str v.Anniversary),
    ("Baptized", .str v.Baptized), ("Deceased", .str v.Deceased),
    ("MembershipType", v.MembershipType.marshal), ("MembershipDate", .str v.MembershipDate),
    ("MembershipEnd", .str v.MembershipEnd),
    ("ReceiveEmailFromChurch", .str v.ReceiveEmailFromChurch),
    ("DefaultNewGroupMessages", .str v.DefaultNewGroupMessages),
    ("DefaultNewGroupComments", .str v.DefaultNewGroupComments),
    ("DefaultNewGroupDigest", .str v.DefaultNewGroupDigest),
    ("DefaultNewGroupSms", .str v.DefaultNewGroupSms),
    ("PrivacySettings", v.PrivacySettings.marshal), ("Active", .str v.Active),
    ("Creator", v.Creator.marshal), ("Modifier", v.Modifier.marshal),
    ("Created", .str v.Created), ("Modified", .str v.Modified),
    ("UserDefinedTextFields", .str v.UserDefinedTextFields),
    ("UserDefinedDateFields", .str v.UserDefinedDateFields),
    ("UserDefinedPulldownFields", .str v.UserDefinedPulldownFields)]

/-- The encoding `json.Marshal` of `Individuals`: no `json` tags, so every field, under
its Go name. -/
def Individuals.marshal (v : Individuals) : JSON :=
  .obj [("Count", .str v.Count), ("Individual", v.Individual.marshal)]

/-- The encoding `json.Marshal` of `Response`: no `json` tags, so every field, under its
Go name. -/
def Response.marshal (v : Response) : JSON :=
  .obj [("Service", .str v.Service), ("ServiceAction", .str v.ServiceAction),
    ("Availability", .str v.Availability), ("Individuals", v.Individuals.marshal)]

/-- The encoding `json.Marshal` of `CCBAPI`: no `json` tags, so every field, under its
Go name. -/
def CCBAPI.marshal (v : CCBAPI) : JSON :=
  .obj [("XMLName", v.XMLName.marshal), ("Request", v.Request.marshal),
    ("Response", v.Response.marshal)]
/-- The fields of the Go type `Argument`, as what its JSON encoding is to hold. -/
def Argument.schema : Schema :=
  .object [("Value", .string), ("Name", .string)]

/-- The fields of the Go type `Parameters`, as what its JSON encoding is to hold. -/
def Parameters.schema : Schema :=
  .object [("Argument", .sequence Argument.schema)]

/-- The fields of the Go type `Request`, as what its JSON encoding is to hold. -/
def Request.schema : Schema :=
  .object [("Parameters", Parameters.schema)]

/-- The fields of the Go type `IDRef`, as what its JSON encoding is to hold. -/
def IDRef.schema : Schema :=
  .object [("ID", .string)]

/-- The fields of the Go type `Country`, as what its JSON encoding is to hold. -/
def Country.schema : Schema :=
  .object [("Code", .string)]

/-- The fields of the Go type `Address`, as what its JSON encoding is to hold. -/
def Address.schema : Schema :=
  .object [("Type", .string), ("StreetAddress", .string), ("City", .string), ("State", .string),
    ("Zip", .string), ("Country", Country.schema), ("Line1", .string), ("Line2", .string),
    ("Latitude", .string), ("Longitude", .string)]

/-- The fields of the Go type `Addresses`, as what its JSON encoding is to hold. -/
def Addresses.schema : Schema :=
  .object [("Address", .sequence Address.schema)]

/-- The fields of the Go type `Phone`, as what its JSON encoding is to hold. -/
def Phone.schema : Schema :=
  .object [("Type", .string)]

/-- The fields of the Go type `Phones`, as what its JSON encoding is to hold. -/
def Phones.schema : Schema :=
  .object [("Phone", .sequence Phone.schema)]

/-- The fields of the Go type `PrivacySettings`, as what its JSON encoding is to hold. -/
def PrivacySettings.schema : Schema :=
  .object [("ProfileListed", .string), ("MailingAddress", IDRef.schema),
    ("HomeAddress", IDRef.schema), ("HomePhone", IDRef.schema), ("WorkPhone", IDRef.schema),
    ("MobilePhone", IDRef.schema), ("EmergencyPhone", IDRef.schema), ("Birthday", IDRef.schema),
    ("Anniversary", IDRef.schema), ("Gender", IDRef.schema), ("MaritalStatus", IDRef.schema),
    ("UserDefinedFields", IDRef.schema), ("Allergies", IDRef.schema)]

/-- The fields of the Go type `Individual`, as what its JSON encoding is to hold. -/
def Individual.schema : Schema :=
  .object [("ID", .string), ("SyncID", .string), ("OtherID", .string), ("GivingNumber", .string),
    ("Campus", IDRef.schema), ("Family", IDRef.schema), ("FamilyImage", .string),
    ("FamilyPosition", .string), ("FamilyMembers", .string), ("FirstName", .string),
    ("LastName", .string), ("MiddleName", .string), ("LegalFirstName", .string),
    ("FullName", .string), ("Salutation", .string), ("Suffix", .string), ("Image", .string),
    ("Email", .string), ("Allergies", .string), ("ConfirmedNoAllergies", .string),
    ("Addresses", Addresses.schema), ("Phones", Phones.schema), ("MobileCarrier", IDRef.schema),
    ("Gender", .string), ("MaritalStatus", .string), ("Birthday", .string),
    ("Anniversary", .string), ("Baptized", .string), ("Deceased", .string),
    ("MembershipType", IDRef.schema), ("MembershipDate", .string), ("MembershipEnd", .string),
    ("ReceiveEmailFromChurch", .string), ("DefaultNewGroupMessages", .string),
    ("DefaultNewGroupComments", .string), ("DefaultNewGroupDigest", .string),
    ("DefaultNewGroupSms", .string), ("PrivacySettings", PrivacySettings.schema),
    ("Active", .string), ("Creator", IDRef.schema), ("Modifier", IDRef.schema),
    ("Created", .string), ("Modified", .string), ("UserDefinedTextFields", .string),
    ("UserDefinedDateFields", .string), ("UserDefinedPulldownFields", .string)]

/-- The fields of the Go type `Individuals`, as what its JSON encoding is to hold. -/
def Individuals.schema : Schema :=
  .object [("Count", .string), ("Individual", Individual.schema)]

/-- The fields of the Go type `Response`, as what its JSON encoding is to hold. -/
def Response.schema : Schema :=
  .object [("Service", .string), ("ServiceAction", .string), ("Availability", .string),
    ("Individuals", Individuals.schema)]

/-- The fields of the Go type `CCBAPI`, as what its JSON encoding is to hold. -/
def CCBAPI.schema : Schema :=
  .object [("XMLName", xml.Name.schema), ("Request", Request.schema),
    ("Response", Response.schema)]

/-! ## The service, the endpoint and the response encoder -/

/-- The remote search service as `WhoIs` sees it. -/
structure Remote where
  /-- Whether `http.NewRequest` accepts the URL (it returns a nil request and
  an error otherwise). -/
  NewRequest : String → Bool
  /-- The body read from the response of `client.Do` to a request for the URL;
  `none` when `client.Do` returns a nil response and an error. -/
  Do : String → Option (List xml.Node)

/-- The value of `jsonResponse` in `WhoIs`, as a JSON value: the response body
is decoded into a fresh `CCBAPI` (an error of `xml.Unmarshal` is only printed)
and the record is encoded by `json.Marshal`. -/
def WhoIs.jsonResponse (respBody : List xml.Node) : JSON :=
  let data := (xml.Unmarshal respBody {}).1
  data.marshal

/-- What a call of `WhoIs` does: the URLs it sent a request to, and how it ends. -/
structure Outcome where
  calls : List String
  result : Result (String × Option GoError)

/-- The method `ccbService.WhoIs`.  The errors of `http.NewRequest` and
`client.Do` are printed and execution goes on, into the nil dereferences
`req.SetBasicAuth` and `resp.Body`.  The request body, the XML of the zero
record, and the lines printed and logged have no part in the outcome. -/
def WhoIs (remote : Remote) (name : String) : Outcome :=
  if name = "" then
    ⟨[], .ok ("No name provided.", some ErrEmpty)⟩
  else
    match WhoIs.urlNameSearch name with
    | .panic p => ⟨[], .panic p⟩
    | .ok urlNameSearch =>
      if remote.NewRequest urlNameSearch = false then
        ⟨[], .panic .nilDereference⟩
      else
        match remote.Do urlNameSearch with
        | none => ⟨[urlNameSearch], .panic .nilDereference⟩
        | some respBody =>
          ⟨[urlNameSearch], .ok ((WhoIs.jsonResponse respBody).render, none)⟩

/-- The Go interface `CCBService`: any implementation of `WhoIs`. -/
abbrev CCBService := String → Result (String × Option GoError)

/-- The implementation `ccbService{}` of `CCBService`. -/
def ccbService (remote : Remote) : CCBService :=
  fun name => (WhoIs remote name).result

/-- The Go type `CCBPersonRequest`. -/
structure CCBPersonRequest where
  Name : String := ""
  deriving DecidableEq, Repr

/-- The Go type `CCBPersonResponse`. -/
structure CCBPersonResponse where
  Name : String := ""
  Error : String := ""
  deriving DecidableEq, Repr

/-- The JSON encoding of a `CCBPersonResponse`: both fields are tagged
`omitempty`, so an empty one is left out. -/
def CCBPersonResponse.marshal (v : CCBPersonResponse) : JSON :=
  .obj ((if v.Name = "" then [] else [("name", .str v.Name)])
    ++ (if v.Error = "" then [] else [("error", .str v.Error)]))

/-- The dynamic type of the `request interface{}` an endpoint receives. -/
inductive AnyRequest where
  | ccbPersonRequest (req : CCBPersonRequest)
  | other
  deriving DecidableEq, Repr

/-- The endpoint `makeWhoIsEndpoint(svc)`: the response and the error it returns. -/
def makeWhoIsEndpoint (svc : CCBService) (request : AnyRequest) :
    Result (CCBPersonResponse × Option GoError) :=
  match request with
  | .other => .panic .typeAssertion
  | .ccbPersonRequest req => do
    let (v, err) ← svc req.Name
    match err with
    | some err => pure (⟨"", err.Error⟩, none)
    | none => pure (⟨v, ""⟩, none)

/-- The function `encodeResponse`: the text `json.NewEncoder(w).Encode(response)`
writes, the encoding followed by a newline. -/
def encodeResponse (response : CCBPersonResponse) : String :=
  response.marshal.render ++ "\n"

/-- What serving a decoded `/WhoIs` request does. -/
structure Served where
  calls : List String
  body : Result String

/-- The handler `WhoIsHandler` of `main` after `decodeWhoIsRequest`: the
endpoint is run on the request and its response is encoded; an error returned
by the endpoint would be written as its description. -/
def WhoIsHandler (remote : Remote) (request : CCBPersonRequest) : Served where
  calls := (WhoIs remote request.Name).calls
  body := do
    let (response, err) ← makeWhoIsEndpoint (ccbService remote) (.ccbPersonRequest request)
    match err with
    | some err => pure err.Error
    | none => pure (encodeResponse response)

/-- The remote service that answers every request with an empty body. -/
def emptyRemote : Remote := ⟨fun _ => true, fun _ => some []⟩

/-! ## Selecting parts of the input and of the output -/

/-- Whether a node is an element with the given local name. -/
def xml.Node.isNamed (name : String) : xml.Node → Bool
  | .element n _ _ => n.Local == name
  | _ => false

/-- The elements with the given local name among some nodes, in document order. -/
def xml.named (name : String) (nodes : List xml.Node) : List xml.Node :=
  nodes.filter (xml.Node.isNamed name)

/-- The content of an element; other nodes have none. -/
def xml.Node.children : xml.Node → List xml.Node
  | .element _ _ children => children
  | _ => []

/-- The attributes of an element; other nodes have none. -/
def xml.Node.attrs : xml.Node → List xml.Attr
  | .element _ attr _ => attr
  | _ => []

/-- The character data directly inside an element. -/
def xml.Node.text (c : xml.Node) : String := xml.charData c.children

/-- The elements reached from some elements by a path of element names: the
children with the first name, their children with the second, and so on, all of
them, in document order. -/
def xml.reach : List String → List xml.Node → List xml.Node
  | [], elements => elements
  | name :: path, elements =>
    xml.reach path (xml.named name (elements.flatMap xml.Node.children))

/-- A decoding function applied to the attributes and children of a node. -/
def xml.Node.into {α : Type} (unmarshal : α → List xml.Attr → List xml.Node → α) (v : α) :
    xml.Node → α
  | .element _ attr children => unmarshal v attr children
  | _ => v

/-- Several elements decoded into the same value, one after the other, as the
decoder does with the elements that go to the same struct field. -/
def xml.decodeAll {α : Type} (unmarshal : α → List xml.Attr → List xml.Node → α) (v : α)
    (elements : List xml.Node) : α :=
  elements.foldl (fun acc e => e.into unmarshal acc) v

/-- Nodes that are all read to their end. -/
def xml.ok (nodes : List xml.Node) : Prop := ∀ c ∈ nodes, c.fails = false

/-- A string field of a record: the path of element names from the element
decoded into the record to the element that carries the field, the attribute
that holds it (`none` when it is the character data of the element), and the
path of member names to it in the JSON encoding of the record. -/
structure Leaf where
  path : List String
  attr : Option String
  json : List String
  deriving DecidableEq, Repr

/-- The values the input holds for a string field, in document order, seen from
the elements decoded into the record. -/
def Leaf.values (leaf : Leaf) (elements : List xml.Node) : List String :=
  match leaf.attr with
  | none => (xml.reach leaf.path elements).map xml.Node.text
  | some name =>
    (((xml.reach leaf.path elements).flatMap xml.Node.attrs).filter
      fun a => a.Name.Local == name).map fun a => a.Value

/-- The last value the input holds for a string field, the empty string when
it holds none. -/
def Leaf.value (leaf : Leaf) (elements : List xml.Node) : String :=
  (leaf.values elements).getLast?.getD ""

/-- A sequence of a record: the path of element names to the elements that make
its entries, the path of member names to it in the JSON encoding, and the
string fields of an entry. -/
structure Sequence where
  path : List String
  json : List String
  leaves : List Leaf

/-- The length of a JSON array; `none` for a value that is not an array. -/
def JSON.arrayLength? : JSON → Option Nat
  | .arr elems => some elems.length
  | _ => none

/-- The path of the individual in the JSON encoding of a `CCBAPI`. -/
def individualPath : List String := ["Response", "Individuals", "Individual"]

/-- An element in no namespace, with attributes given as name and value. -/
def xml.el (name : String) (attr : List (String × String)) (children : List xml.Node) :
    xml.Node :=
  .element ⟨"", name⟩ (attr.map fun a => ⟨⟨"", a.1⟩, a.2⟩) children

/-- A response that carries one individual with the given content. -/
def responseWith (individual : List xml.Node) : List xml.Node :=
  [xml.el "ccb_api" []
    [xml.el "response" []
      [xml.el "service" [] [.charData "individual_search"],
        xml.el "individuals" [("count", "1")] [xml.el "individual" [("id", "48")] individual]]]]

/-- The individual Jane Doe, with two addresses and one privacy-flag reference id. -/
def janeDoe : List xml.Node :=
  responseWith
    [xml.el "first_name" [] [.charData "Jane"],
      xml.el "last_name" [] [.charData "Doe"],
      xml.el "addresses" []
        [xml.el "address" [("type", "mailing")] [xml.el "city" [] [.charData "Miami"]],
          xml.el "address" [("type", "home")] [xml.el "city" [] [.charData "Doral"]]],
      xml.el "privacy_settings" [] [xml.el "mailing_address" [("id", "2")] []]]

/-- An `address` element with the given type and city. -/
def addressOf (type city : String) : xml.Node :=
  xml.el "address" [("type", type)] [xml.el "city" [] [.charData city]]

/-- A remote service that answers every request with the response `janeDoe`. -/
def janeRemote : Remote := ⟨fun _ => true, fun _ => some janeDoe⟩

/-- The privacy flags of an individual: the fields of `PrivacySettings` that hold a reference id. -/
inductive PrivacyFlag where
  | MailingAddress
  | HomeAddress
  | HomePhone
  | WorkPhone
  | MobilePhone
  | EmergencyPhone
  | Birthday
  | Anniversary
  | Gender
  | MaritalStatus
  | UserDefinedFields
  | Allergies
  deriving DecidableEq, Repr

/-- The XML element of a privacy flag. -/
def PrivacyFlag.tag : PrivacyFlag → String
  | .MailingAddress => "mailing_address"
  | .HomeAddress => "home_address"
  | .HomePhone => "home_phone"
  | .WorkPhone => "work_phone"
  | .MobilePhone => "mobile_phone"
  | .EmergencyPhone => "emergency_phone"
  | .Birthday => "birthday"
  | .Anniversary => "anniversary"
  | .Gender => "gender"
  | .MaritalStatus => "marital_status"
  | .UserDefinedFields => "user_defined_fields"
  | .Allergies => "allergies"

/-- The Go field of a privacy flag, which is its key in the JSON output. -/
def PrivacyFlag.key : PrivacyFlag → String
  | .MailingAddress => "MailingAddress"
  | .HomeAddress => "HomeAddress"
  | .HomePhone => "HomePhone"
  | .WorkPhone => "WorkPhone"
  | .MobilePhone => "MobilePhone"
  | .EmergencyPhone => "EmergencyPhone"
  | .Birthday => "Birthday"
  | .Anniversary => "Anniversary"
  | .Gender => "Gender"
  | .MaritalStatus => "MaritalStatus"
  | .UserDefinedFields => "UserDefinedFields"
  | .Allergies => "Allergies"

/-- The string fields of the Go type `CCBAPI` outside its sequences: where each is read
from in the element decoded, and where it stands in the JSON encoding. -/
def CCBAPI.leaves : List Leaf :=
  [⟨["response", "service"], none, ["Response", "Service"]⟩,
    ⟨["response", "service_action"], none, ["Response", "ServiceAction"]⟩,
    ⟨["response", "availability"], none, ["Response", "Availability"]⟩,
    ⟨["response", "individuals"], some "count", ["Response", "Individuals", "Count"]⟩,
    ⟨["response", "individuals", "individual"], some "id",
      ["Response", "Individuals", "Individual", "ID"]⟩,
    ⟨["response", "individuals", "individual", "sync_id"], none,
      ["Response", "Individuals", "Individual", "SyncID"]⟩,
    ⟨["response", "individuals", "individual", "other_id"], none,
      ["Response", "Individuals", "Individual", "OtherID"]⟩,
    ⟨["response", "individuals", "individual", "giving_number"], none,
      ["Response", "Individuals", "Individual", "GivingNumber"]⟩,
    ⟨["response", "individuals", "individual", "campus"], some "id",
      ["Response", "Individuals", "Individual", "Campus", "ID"]⟩,
    ⟨["response", "individuals", "individual", "family"], some "id",
      ["Response", "Individuals", "Individual", "Family", "ID"]⟩,
    ⟨["response", "individuals", "individual", "family_image"], none,
      ["Response", "Individuals", "Individual", "FamilyImage"]⟩,
    ⟨["response", "individuals", "individual", "family_position"], none,
      ["Response", "Individuals", "Individual", "FamilyPosition"]⟩,
    ⟨["response", "individuals", "individual", "family_members"], none,
      ["Response", "Individuals", "Individual", "FamilyMembers"]⟩,
    ⟨["response", "individuals", "individual", "first_name"], none,
      ["Response", "Individuals", "Individual", "FirstName"]⟩,
    ⟨["response", "individuals", "individual", "last_name"], none,
      ["Response", "Individuals", "Individual", "LastName"]⟩,
    ⟨["response", "individuals", "individual", "middle_name"], none,
      ["Response", "Individuals", "Individual", "MiddleName"]⟩,
    ⟨["response", "individuals", "individual", "legal_first_name"], none,
      ["Response", "Individuals", "Individual", "LegalFirstName"]⟩,
    ⟨["response", "individuals", "individual", "full_name"], none,
      ["Response", "Individuals", "Individual", "FullName"]⟩,
    ⟨["response", "individuals", "individual", "salutation"], none,
      ["Response", "Individuals", "Individual", "Salutation"]⟩,
    ⟨["response", "individuals", "individual", "suffix"], none,
      ["Response", "Individuals", "Individual", "Suffix"]⟩,
    ⟨["response", "individuals", "individual", "image"], none,
      ["Response", "Individuals", "Individual", "Image"]⟩,
    ⟨["response", "individuals", "individual", "email"], none,
      ["Response", "Individuals", "Individual", "Email"]⟩,
    ⟨["response", "individuals", "individual", "allergies"], none,
      ["Response", "Individuals", "Individual", "Allergies"]⟩,
    ⟨["response", "individuals", "individual", "confirmed_no_allergies"], none,
      ["Response", "Individuals", "Individual", "ConfirmedNoAllergies"]⟩,
    ⟨["response", "individuals", "individual", "mobile_carrier"], some "id",
      ["Response", "Individuals", "Individual", "MobileCarrier", "ID"]⟩,
    ⟨["response", "individuals", "individual", "gender"], none,
      ["Response", "Individuals", "Individual", "Gender"]⟩,
    ⟨["response", "individuals", "individual", "marital_status"], none,
      ["Response", "Individuals", "Individual", "MaritalStatus"]⟩,
    ⟨["response", "individuals", "individual", "birthday"], none,
      ["Response", "Individuals", "Individual", "Birthday"]⟩,
    ⟨["response", "individuals", "individual", "anniversary"], none,
      ["Response", "Individuals", "Individual", "Anniversary"]⟩,
    ⟨["response", "individuals", "individual", "baptized"], none,
      ["Response", "Individuals", "Individual", "Baptized"]⟩,
    ⟨["response", "individuals", "individual", "deceased"], none,
      ["Response", "Individuals", "Individual", "Deceased"]⟩,
    ⟨["response", "individuals", "individual", "membership_type"], some "id",
      ["Response", "Individuals", "Individual", "MembershipType", "ID"]⟩,
    ⟨["response", "individuals", "individual", "membership_date"], none,
      ["Response", "Individuals", "Individual", "MembershipDate"]⟩,
    ⟨["response", "individuals", "individual", "membership_end"], none,
      ["Response", "Individuals", "Individual", "MembershipEnd"]⟩,
    ⟨["response", "individuals", "individual", "receive_email_from_church"], none,
      ["Response", "Individuals", "Individual", "ReceiveEmailFromChurch"]⟩,
    ⟨["response", "individuals", "individual", "default_new_group_messages"], none,
      ["Response", "Individuals", "Individual", "DefaultNewGroupMessages"]⟩,
    ⟨["response", "individuals", "individual", "default_new_group_comments"], none,
      ["Response", "Individuals", "Individual", "DefaultNewGroupComments"]⟩,
    ⟨["response", "individuals", "individual", "default_new_group_digest"], none,
      ["Response", "Individuals", "Individual", "DefaultNewGroupDigest"]⟩,
    ⟨["response", "individuals", "individual", "default_new_group_sms"], none,
      ["Response", "Individuals", "Individual", "DefaultNewGroupSms"]⟩,
    ⟨["response", "individuals", "individual", "privacy_settings", "profile_listed"], none,
      ["Response", "Individuals", "Individual", "PrivacySettings", "ProfileListed"]⟩,
    ⟨["response", "individuals", "individual", "privacy_settings", "mailing_address"],
      some "id", ["Response", "Individuals", "Individual", "PrivacySettings", "MailingAddress", "ID"]⟩,
    ⟨["response", "individuals", "individual", "privacy_settings", "home_address"], some "id",
      ["Response", "Individuals", "Individual", "PrivacySettings", "HomeAddress", "ID"]⟩,
    ⟨["response", "individuals", "individual", "privacy_settings", "home_phone"], some "id",
      ["Response", "Individuals", "Individual", "PrivacySettings", "HomePhone", "ID"]⟩,
    ⟨["response", "individuals", "individual", "privacy_settings", "work_phone"], some "id",
      ["Response", "Individuals", "Individual", "PrivacySettings", "WorkPhone", "ID"]⟩,
    ⟨["response", "individuals", "individual", "privacy_settings", "mobile_phone"], some "id",
      ["Response", "Individuals", "Individual", "PrivacySettings", "MobilePhone", "ID"]⟩,
    ⟨["response", "individuals", "individual", "privacy_settings", "emergency_phone"],
      some "id", ["Response", "Individuals", "Individual", "PrivacySettings", "EmergencyPhone", "ID"]⟩,
    ⟨["response", "individuals", "individual", "privacy_settings", "birthday"], some "id",
      ["Response", "Individuals", "Individual", "PrivacySettings", "Birthday", "ID"]⟩,
    ⟨["response", "individuals", "individual", "privacy_settings", "anniversary"], some "id",
      ["Response", "Individuals", "Individual", "PrivacySettings", "Anniversary", "ID"]⟩,
    ⟨["response", "individuals", "individual", "privacy_settings", "gender"], some "id",
      ["Response", "Individuals", "Individual", "PrivacySettings", "Gender", "ID"]⟩,
    ⟨["response", "individuals", "individual", "privacy_settings", "marital_status"], some "id",
      ["Response", "Individuals", "Individual", "PrivacySettings", "MaritalStatus", "ID"]⟩,
    ⟨["response", "individuals", "individual", "privacy_settings", "user_defined_fields"],
      some "id", ["Response", "Individuals", "Individual", "PrivacySettings", "UserDefinedFields", "ID"]⟩,
    ⟨["response", "individuals", "individual", "privacy_settings", "allergies"], some "id",
      ["Response", "Individuals", "Individual", "PrivacySettings", "Allergies", "ID"]⟩,
    ⟨["response", "individuals", "individual", "active"], none,
      ["Response", "Individuals", "Individual", "Active"]⟩,
    ⟨["response", "individuals", "individual", "creator"], some "id",
      ["Response", "Individuals", "Individual", "Creator", "ID"]⟩,
    ⟨["response", "individuals", "individual", "modifier"], some "id",
      ["Response", "Individuals", "Individual", "Modifier", "ID"]⟩,
    ⟨["response", "individuals", "individual", "created"], none,
      ["Response", "Individuals", "Individual", "Created"]⟩,
    ⟨["response", "individuals", "individual", "modified"], none,
      ["Response", "Individuals", "Individual", "Modified"]⟩,
    ⟨["response", "individuals", "individual", "user_defined_text_fields"], none,
      ["Response", "Individuals", "Individual", "UserDefinedTextFields"]⟩,
    ⟨["response", "individuals", "individual", "user_defined_date_fields"], none,
      ["Response", "Individuals", "Individual", "UserDefinedDateFields"]⟩,
    ⟨["response", "individuals", "individual", "user_defined_pulldown_fields"], none,
      ["Response", "Individuals", "Individual", "UserDefinedPulldownFields"]⟩]

/-- The string fields of the Go type `Argument` outside its sequences: where each is
read from in the element decoded, and where it stands in the JSON encoding. -/
def Argument.leaves : List Leaf :=
  [⟨[], some "value", ["Value"]⟩,
    ⟨[], some "name", ["Name"]⟩]

/-- The string fields of the Go type `Address` outside its sequences: where each is read
from in the element decoded, and where it stands in the JSON encoding. -/
def Address.leaves : List Leaf :=
  [⟨[], some "type", ["Type"]⟩,
    ⟨["street_address"], none, ["StreetAddress"]⟩,
    ⟨["city"], none, ["City"]⟩,
    ⟨["state"], none, ["State"]⟩,
    ⟨["zip"], none, ["Zip"]⟩,
    ⟨["country"], some "code", ["Country", "Code"]⟩,
    ⟨["line_1"], none, ["Line1"]⟩,
    ⟨["line_2"], none, ["Line2"]⟩,
    ⟨["latitude"], none, ["Latitude"]⟩,
    ⟨["longitude"], none, ["Longitude"]⟩]

/-- The string fields of the Go type `Phone` outside its sequences: where each is read
from in the element decoded, and where it stands in the JSON encoding. -/
def Phone.leaves : List Leaf :=
  [⟨[], some "type", ["Type"]⟩]

/-- The sequences of the Go type `CCBAPI`: the elements that make the entries, the place
in the JSON encoding, and the string fields of an entry. -/
def CCBAPI.sequences : List Sequence :=
  [⟨["request", "parameters", "argument"],
      ["Request", "Parameters", "Argument"], Argument.leaves⟩,
    ⟨["response", "individuals", "individual", "addresses", "address"],
      ["Response", "Individuals", "Individual", "Addresses", "Address"], Address.leaves⟩,
    ⟨["response", "individuals", "individual", "phones", "phone"],
      ["Response", "Individuals", "Individual", "Phones", "Phone"], Phone.leaves⟩]

/-! # Theorems -/

/-! ## Properties of `strings.Fields` -/

theorem fieldsLoop_some_ne_nil (l : List Char) (field : List Char) :
    strings.fieldsLoop l (some field) ≠ [] := by
  induction l generalizing field with
  | nil => simp [strings.fieldsLoop]
  | cons r rest ih =>
    unfold strings.fieldsLoop
    split
    · simp
    · exact ih _

theorem fieldsLoop_all_space (l : List Char) (h : ∀ r ∈ l, unicode.IsSpace r = true) :
    strings.fieldsLoop l none = [] := by
  induction l with
  | nil => rfl
  | cons r rest ih =>
    have hr : unicode.IsSpace r = true := h r (List.mem_cons_self _ _)
    have hrest : ∀ x ∈ rest, unicode.IsSpace x = true :=
      fun x hx => h x (List.mem_cons_of_mem _ hx)
    simp [strings.fieldsLoop, hr, ih hrest]

theorem fieldsLoop_non_space (l : List Char) (h : ∃ r ∈ l, unicode.IsSpace r = false) :
    strings.fieldsLoop l none ≠ [] := by
  induction l with
  | nil => simp at h
  | cons r rest ih =>
    unfold strings.fieldsLoop
    by_cases hr : unicode.IsSpace r = true
    · simp only [hr, if_true]
      apply ih
      obtain ⟨x, hx, hxs⟩ := h
      rcases List.mem_cons.mp hx with rfl | hx
      · simp [hr] at hxs
      · exact ⟨x, hx, hxs⟩
    · simp only [hr]
      exact fieldsLoop_some_ne_nil _ _

theorem fields_all_space (name : String) (h : ∀ r ∈ name.data, unicode.IsSpace r = true) :
    strings.Fields name = [] := by
  simp [strings.Fields, fieldsLoop_all_space name.data h]

theorem fields_non_space (name : String) (h : ∃ r ∈ name.data, unicode.IsSpace r = false) :
    strings.Fields name ≠ [] := by
  simp [strings.Fields, fieldsLoop_non_space name.data h]

theorem fields_ne_nil_name_ne_empty (name : String) (h : strings.Fields name ≠ []) :
    name ≠ "" := by
  rintro rfl
  exact h rfl

/-! ## The request builder -/

theorem urlNameSearch_two (name first last : String)
    (h : strings.Fields name = [first, last]) :
    WhoIs.urlNameSearch name
      = .ok (searchURL ++ "&first_name=" ++ first ++ "&last_name=" ++ last) := by
  simp [WhoIs.urlNameSearch, h, index]
  rfl

theorem urlNameSearch_other (name first : String) (rest : List String)
    (h : strings.Fields name = first :: rest) (hn : rest.length ≠ 1) :
    WhoIs.urlNameSearch name = .ok (searchURL ++ "&first_name=" ++ first) := by
  simp [WhoIs.urlNameSearch, h, index, hn]
  rfl

theorem whoIs_calls (remote : Remote) (name url : String) (hne : name ≠ "")
    (h : WhoIs.urlNameSearch name = .ok url) :
    (WhoIs remote name).calls = if remote.NewRequest url = true then [url] else [] := by
  unfold WhoIs
  simp only [hne, if_false, h]
  cases hreq : remote.NewRequest url
  · simp
  · cases remote.Do url <;> simp

/-- Claim C1, what the code does instead: for every name that is not empty and
consists only of white space, `WhoIs` does not return `ErrEmpty`.  The guard
`name == ""` lets the name through, `strings.Fields` gives no token, and the
access `fullName[0]` panics with an index out of range; no request is sent. -/
theorem whoIs_whitespace_only_panics (remote : Remote) (name : String) (hne : name ≠ "")
    (hws : ∀ r ∈ name.data, unicode.IsSpace r = true) :
    (WhoIs remote name).result = .panic (.indexOutOfRange 0 0)
      ∧ (WhoIs remote name).calls = [] := by
  have hurl : WhoIs.urlNameSearch name = .panic (.indexOutOfRange 0 0) := by
    simp [WhoIs.urlNameSearch, fields_all_space name hws, index]
    rfl
  unfold WhoIs
  simp [hne, hurl]

/-- The name of a single space makes `WhoIs` panic. -/
theorem whoIs_whitespace_only_panics_witness :
    (WhoIs emptyRemote " ").result = .panic (.indexOutOfRange 0 0)
      ∧ (WhoIs emptyRemote " ").calls = [] :=
  whoIs_whitespace_only_panics emptyRemote " " (by decide) (by decide)

/-- Claim C2: for every name that `strings.Fields` splits into exactly the two
tokens `First` and `Last`, the URL `WhoIs` builds is the search URL followed by
`&first_name=First&last_name=Last`, and it is the only URL a request is sent to
(none is sent when `http.NewRequest` rejects the URL). -/
theorem whoIs_two_tokens_url (remote : Remote) (name First Last : String)
    (h : strings.Fields name = [First, Last]) :
    WhoIs.urlNameSearch name
        = .ok (searchURL ++ "&first_name=" ++ First ++ "&last_name=" ++ Last)
      ∧ (WhoIs remote name).calls
        = if remote.NewRequest
              (searchURL ++ "&first_name=" ++ First ++ "&last_name=" ++ Last) = true
          then [searchURL ++ "&first_name=" ++ First ++ "&last_name=" ++ Last] else [] := by
  have hurl := urlNameSearch_two name First Last h
  have hne : name ≠ "" := fields_ne_nil_name_ne_empty name (by simp [h])
  exact ⟨hurl, whoIs_calls remote name _ hne hurl⟩

/-- The URL built for a name with the two tokens `Jane` and `Doe`. -/
theorem whoIs_two_tokens_url_witness :
    WhoIs.urlNameSearch " Jane\tDoe "
        = .ok ("https://vouschurch.ccbchurch.com/api.php?srv=individual_search"
            ++ "&first_name=Jane&last_name=Doe")
      ∧ (WhoIs emptyRemote " Jane\tDoe ").calls
        = ["https://vouschurch.ccbchurch.com/api.php?srv=individual_search"
            ++ "&first_name=Jane&last_name=Doe"] :=
  whoIs_two_tokens_url emptyRemote " Jane\tDoe " "Jane" "Doe" (by decide)

/-- Claim C3: for every name with one token, or with three or more, the URL
`WhoIs` builds is the search URL followed by `&first_name=` and the first
token, with nothing appended for the later tokens; so any other such name with
the same first token builds the same URL and sends the same requests. -/
theorem whoIs_other_token_count_url (remote : Remote) (name first : String)
    (rest : List String) (h : strings.Fields name = first :: rest) (hn : rest.length ≠ 1) :
    WhoIs.urlNameSearch name = .ok (searchURL ++ "&first_name=" ++ first)
      ∧ (WhoIs remote name).calls
        = (if remote.NewRequest (searchURL ++ "&first_name=" ++ first) = true
          then [searchURL ++ "&first_name=" ++ first] else [])
      ∧ ∀ (name' : String) (rest' : List String),
          strings.Fields name' = first :: rest' → rest'.length ≠ 1 →
            WhoIs.urlNameSearch name' = WhoIs.urlNameSearch name
              ∧ (WhoIs remote name').calls = (WhoIs remote name).calls := by
  have hurl := urlNameSearch_other name first rest h hn
  have hne : name ≠ "" := fields_ne_nil_name_ne_empty name (by simp [h])
  refine ⟨hurl, whoIs_calls remote name _ hne hurl, ?_⟩
  intro name' rest' h' hn'
  have hurl' := urlNameSearch_other name' first rest' h' hn'
  have hne' : name' ≠ "" := fields_ne_nil_name_ne_empty name' (by simp [h'])
  exact ⟨by rw [hurl, hurl'],
    by rw [whoIs_calls remote name _ hne hurl, whoIs_calls remote name' _ hne' hurl']⟩

/-- The names `Jane Q Doe` and `Jane` build the same URL. -/
theorem whoIs_other_token_count_url_witness :
    WhoIs.urlNameSearch "Jane Q Doe"
        = .ok "https://vouschurch.ccbchurch.com/api.php?srv=individual_search&first_name=Jane"
      ∧ WhoIs.urlNameSearch "Jane" = WhoIs.urlNameSearch "Jane Q Doe" :=
  ⟨(whoIs_other_token_count_url emptyRemote "Jane Q Doe" "Jane"
      ["Q", "Doe"] (by decide) (by decide)).1,
   ((whoIs_other_token_count_url emptyRemote "Jane Q Doe" "Jane"
      ["Q", "Doe"] (by decide) (by decide)).2.2 "Jane" [] (by decide) (by decide)).1⟩

/-- Claim C10: for every name with at least one rune that is not white space,
`strings.Fields` gives at least one token, so `fullName[0]` is in range, and so
is `fullName[1]` when there are two tokens; the request builder ends without a
panic, with a URL that starts with the search URL. -/
theorem whoIs_index_safe (name : String)
    (h : ∃ r ∈ name.data, unicode.IsSpace r = false) :
    strings.Fields name ≠ []
      ∧ (∃ first, index (strings.Fields name) 0 = .ok first)
      ∧ ((strings.Fields name).length = 2 → ∃ last, index (strings.Fields name) 1 = .ok last)
      ∧ ∃ query, WhoIs.urlNameSearch name = .ok (searchURL ++ query) := by
  have hne := fields_non_space name h
  obtain ⟨first, rest, hf⟩ := List.exists_cons_of_ne_nil hne
  refine ⟨hne, ⟨first, by simp [hf, index]⟩, ?_, ?_⟩
  · intro hlen
    rw [hf] at hlen
    obtain ⟨last, rfl⟩ := List.length_eq_one.mp (Nat.succ.inj hlen)
    exact ⟨last, by simp [hf, index]⟩
  · by_cases hlen : rest.length = 1
    · obtain ⟨last, rfl⟩ := List.length_eq_one.mp hlen
      exact ⟨"&first_name=" ++ first ++ "&last_name=" ++ last,
        by rw [urlNameSearch_two name first last hf]; simp [String.append_assoc]⟩
    · exact ⟨"&first_name=" ++ first,
        by rw [urlNameSearch_other name first rest hf hlen]; simp [String.append_assoc]⟩

/-- The request builder is safe on the name `Jane`. -/
theorem whoIs_index_safe_witness :
    strings.Fields "Jane" ≠ []
      ∧ (∃ first, index (strings.Fields "Jane") 0 = .ok first)
      ∧ ((strings.Fields "Jane").length = 2 → ∃ last, index (strings.Fields "Jane") 1 = .ok last)
      ∧ ∃ query, WhoIs.urlNameSearch "Jane" = .ok (searchURL ++ query) :=
  whoIs_index_safe "Jane" ⟨'J', by decide, by decide⟩

/-- Claim C4: for every service and every request name, the endpoint wraps a
result `(v, nil)` of `svc.WhoIs` as the response with `Name = v` and an empty
`Error`, wraps a result `(v, err)` as the response with an empty `Name` and
`Error = err.Error()`, dropping `v`, and never returns an error of its own. -/
theorem makeWhoIsEndpoint_response (svc : CCBService) (n : String) :
    (∀ v, svc n = .ok (v, none) →
        makeWhoIsEndpoint svc (.ccbPersonRequest ⟨n⟩) = .ok (⟨v, ""⟩, none))
      ∧ (∀ v err, svc n = .ok (v, some err) →
        makeWhoIsEndpoint svc (.ccbPersonRequest ⟨n⟩) = .ok (⟨"", err.Error⟩, none))
      ∧ (∀ response err, makeWhoIsEndpoint svc (.ccbPersonRequest ⟨n⟩) = .ok (response, err) →
        err = none) := by
  refine ⟨?_, ?_, ?_⟩
  · intro v h
    simp [makeWhoIsEndpoint, h, bind, Result.bind, pure]
  · intro v err h
    simp [makeWhoIsEndpoint, h, bind, Result.bind, pure]
  · intro response err h
    simp only [makeWhoIsEndpoint, bind, Result.bind, pure] at h
    cases hs : svc n with
    | panic p => simp [hs] at h
    | ok val =>
      obtain ⟨v, e⟩ := val
      cases e <;> simp [hs] at h <;> exact h.2.symm

/-- The endpoint on a service that succeeds and on one that fails. -/
theorem makeWhoIsEndpoint_response_witness :
    makeWhoIsEndpoint (fun _ => .ok ("Jane", none)) (.ccbPersonRequest ⟨"Jane Doe"⟩)
        = .ok (⟨"Jane", ""⟩, none)
      ∧ makeWhoIsEndpoint (fun _ => .ok ("No name provided.", some ErrEmpty))
          (.ccbPersonRequest ⟨""⟩) = .ok (⟨"", ErrEmpty.Error⟩, none) :=
  ⟨(makeWhoIsEndpoint_response (fun _ => .ok ("Jane", none)) "Jane Doe").1 "Jane" rfl,
   (makeWhoIsEndpoint_response (fun _ => .ok ("No name provided.", some ErrEmpty)) "").2.1
      "No name provided." ErrEmpty rfl⟩

/-- Claim C5: for the request whose name is the empty string, `WhoIs` returns
`ErrEmpty` without sending a request, the endpoint answers with an empty `Name`
and the error description, and `encodeResponse` writes the JSON object whose
only key is `error`, with value `empty string`. -/
theorem whoIsHandler_empty_name (remote : Remote) :
    (WhoIs remote "").result = .ok ("No name provided.", some ErrEmpty)
      ∧ (WhoIs remote "").calls = []
      ∧ makeWhoIsEndpoint (ccbService remote) (.ccbPersonRequest ⟨""⟩)
          = .ok (⟨"", "empty string"⟩, none)
      ∧ CCBPersonResponse.marshal ⟨"", "empty string"⟩ = .obj [("error", .str "empty string")]
      ∧ (WhoIsHandler remote ⟨""⟩).calls = []
      ∧ (WhoIsHandler remote ⟨""⟩).body = .ok "\x7b\"error\":\"empty string\"\x7d\n" :=
  ⟨rfl, rfl, rfl, rfl, rfl, by rfl⟩

theorem render_obj_ne_empty (members : List (String × JSON)) :
    (JSON.obj members).render ≠ "" := by
  intro h
  have hlen := congrArg String.length h
  simp only [JSON.render, String.length_append] at hlen
  have hbrace : "\x7b".length = 1 := rfl
  rw [hbrace] at hlen
  have hzero : "".length = 0 := rfl
  omega

theorem whoIs_ok_value (remote : Remote) (name v : String)
    (h : (WhoIs remote name).result = .ok (v, none)) : v ≠ "" := by
  unfold WhoIs at h
  split at h
  · simp at h
  · split at h
    · simp at h
    · split at h
      · simp at h
      · split at h
        · simp at h
        · simp only [Result.ok.injEq, Prod.mk.injEq, and_true] at h
          rw [← h]
          exact render_obj_ne_empty _

/-- Claim C6, amended: for every lookup in which `WhoIs` returns the string `v`
with no error, the encoded response body is the JSON object with the single key
`name` holding `v`; the key `error` is left out, its field being empty and
tagged `omitempty`. -/
theorem whoIsHandler_success_body (remote : Remote) (name v : String)
    (h : (WhoIs remote name).result = .ok (v, none)) :
    makeWhoIsEndpoint (ccbService remote) (.ccbPersonRequest ⟨name⟩) = .ok (⟨v, ""⟩, none)
      ∧ CCBPersonResponse.marshal ⟨v, ""⟩ = .obj [("name", .str v)]
      ∧ (CCBPersonResponse.marshal ⟨v, ""⟩).get? "error" = none
      ∧ (WhoIsHandler remote ⟨name⟩).body
          = .ok ((JSON.obj [("name", .str v)]).render ++ "\n") := by
  have hv := whoIs_ok_value remote name v h
  have he : makeWhoIsEndpoint (ccbService remote) (.ccbPersonRequest ⟨name⟩)
      = .ok (⟨v, ""⟩, none) := by
    simp [makeWhoIsEndpoint, ccbService, h, bind, Result.bind, pure]
  have hm : CCBPersonResponse.marshal ⟨v, ""⟩ = .obj [("name", .str v)] := by
    simp [CCBPersonResponse.marshal, hv]
  refine ⟨he, hm, ?_, ?_⟩
  · rw [hm]; rfl
  · simp [WhoIsHandler, he, bind, Result.bind, pure, encodeResponse, hm]

/-- The response body of a successful lookup of `Jane`. -/
theorem whoIsHandler_success_body_witness :
    makeWhoIsEndpoint (ccbService emptyRemote) (.ccbPersonRequest ⟨"Jane"⟩)
        = .ok (⟨(WhoIs.jsonResponse []).render, ""⟩, none)
      ∧ CCBPersonResponse.marshal ⟨(WhoIs.jsonResponse []).render, ""⟩
        = .obj [("name", .str (WhoIs.jsonResponse []).render)]
      ∧ (CCBPersonResponse.marshal ⟨(WhoIs.jsonResponse []).render, ""⟩).get? "error" = none
      ∧ (WhoIsHandler emptyRemote ⟨"Jane"⟩).body
          = .ok ((JSON.obj [("name", .str (WhoIs.jsonResponse []).render)]).render ++ "\n") :=
  whoIsHandler_success_body emptyRemote "Jane" (WhoIs.jsonResponse []).render (by rfl)

/-- Claim C6 fails as stated: in a successful lookup of `Jane Doe` the encoded
response has the key `name` only, and no key `error` holding the empty string. -/
theorem whoIsHandler_success_no_error_key :
    (WhoIs janeRemote "Jane Doe").result = .ok ((WhoIs.jsonResponse janeDoe).render, none)
      ∧ makeWhoIsEndpoint (ccbService janeRemote) (.ccbPersonRequest ⟨"Jane Doe"⟩)
        = .ok (⟨(WhoIs.jsonResponse janeDoe).render, ""⟩, none)
      ∧ (CCBPersonResponse.marshal ⟨(WhoIs.jsonResponse janeDoe).render, ""⟩).keys = ["name"]
      ∧ ¬ ((CCBPersonResponse.marshal ⟨(WhoIs.jsonResponse janeDoe).render, ""⟩).get? "error"
          = some (.str "")) := by
  have hv : (WhoIs.jsonResponse janeDoe).render ≠ "" := render_obj_ne_empty _
  refine ⟨by rfl, by rfl, ?_, ?_⟩
  · simp [CCBPersonResponse.marshal, hv, JSON.keys]
  · simp [CCBPersonResponse.marshal, hv, JSON.get?]

theorem whoIs_returns_jsonResponse (remote : Remote) (name url : String)
    (respBody : List xml.Node) (hne : name ≠ "") (hurl : WhoIs.urlNameSearch name = .ok url)
    (hreq : remote.NewRequest url = true) (hdo : remote.Do url = some respBody) :
    (WhoIs remote name).result = .ok ((WhoIs.jsonResponse respBody).render, none) := by
  unfold WhoIs
  simp [hne, hurl, hreq, hdo]

/-! ## Decoding: what a fold over the children leaves in one field -/

theorem foldl_observe {σ β ο : Type} (step : σ → β → σ) (obs : σ → ο) (p : β → Bool)
    (upd : ο → β → ο)
    (h : ∀ v c, obs (step v c) = if p c = true then upd (obs v) c else obs v)
    (cs : List β) (v : σ) :
    obs (cs.foldl step v) = (cs.filter p).foldl upd (obs v) := by
  induction cs generalizing v with
  | nil => rfl
  | cons c cs ih =>
    rw [List.foldl_cons, ih, h]
    by_cases hp : p c = true
    · simp [List.filter_cons, hp]
    · simp [List.filter_cons, hp]

theorem foldl_preserve {σ β ο : Type} (step : σ → β → σ) (obs : σ → ο)
    (h : ∀ v c, obs (step v c) = obs v) (cs : List β) (v : σ) :
    obs (cs.foldl step v) = obs v := by
  induction cs generalizing v with
  | nil => rfl
  | cons c cs ih => rw [List.foldl_cons, ih, h]

theorem foldl_keep {σ β : Type} (cs : List β) (v : σ) :
    cs.foldl (fun v _ => v) v = v := by
  induction cs with
  | nil => rfl
  | cons c cs ih => exact ih

theorem foldl_set_last {β ο : Type} (g : β → ο) (cs : List β) (z : ο) :
    cs.foldl (fun _ c => g c) z = ((cs.map g).getLast?).getD z := by
  induction cs generalizing z with
  | nil => rfl
  | cons c cs ih =>
    rw [List.foldl_cons, ih]
    cases cs with
    | nil => rfl
    | cons c' cs =>
      simp only [List.map_cons, List.getLast?_cons_cons]
      cases h : (g c' :: cs.map g).getLast? with
      | none => simp at h
      | some x => rfl

theorem foldl_append_slice {α β : Type} (g : β → α) (cs : List β) (s : Slice α) :
    cs.foldl (fun s c => Slice.append s (g c)) s = Slice.appendAll s (cs.map g) := by
  induction cs generalizing s with
  | nil => rfl
  | cons c cs ih =>
    rw [List.foldl_cons, ih]
    cases cs with
    | nil => simp [Slice.append, Slice.appendAll]
    | cons c' cs => simp [Slice.append, Slice.appendAll]

/-! ## Input that is read to its end -/

theorem firstError?_eq_none {cs : List xml.Node} (h : xml.firstError? cs = none) :
    xml.ok cs := by
  induction cs with
  | nil => intro c hc; simp at hc
  | cons c cs ih =>
    unfold xml.firstError? at h
    cases hc : c.error? with
    | some e => simp [hc] at h
    | none =>
      simp only [hc] at h
      intro x hx
      rcases List.mem_cons.mp hx with rfl | hx
      · simp [xml.Node.fails, hc]
      · exact ih h x hx

theorem ok_firstError? {cs : List xml.Node} (h : xml.ok cs) : xml.firstError? cs = none := by
  induction cs with
  | nil => rfl
  | cons c cs ih =>
    have hc := h c (List.mem_cons_self _ _)
    have hc' : c.error? = none := by
      cases hce : c.error? with
      | none => rfl
      | some e => simp [xml.Node.fails, hce] at hc
    unfold xml.firstError?
    simp only [hc']
    exact ih fun x hx => h x (List.mem_cons_of_mem _ hx)

theorem ok_children {e : xml.Node} (he : e.fails = false) : xml.ok e.children := by
  cases e with
  | element n a cs =>
    apply firstError?_eq_none
    simpa [xml.Node.fails, xml.Node.error?] using he
  | charData d => intro c hc; simp [xml.Node.children] at hc
  | procInst t ver enc => intro c hc; simp [xml.Node.children] at hc
  | readError => intro c hc; simp [xml.Node.children] at hc

theorem ok_flatMap_children {L : List xml.Node} (h : xml.ok L) :
    xml.ok (L.flatMap xml.Node.children) := by
  intro c hc
  obtain ⟨e, he, hce⟩ := List.mem_flatMap.mp hc
  exact ok_children (h e he) c hce

theorem ok_reach (path : List String) (L : List xml.Node) (h : xml.ok L) :
    xml.ok (xml.reach path L) := by
  induction path generalizing L with
  | nil => exact h
  | cons name path ih =>
    apply ih
    intro c hc
    exact ok_flatMap_children h c (List.mem_of_mem_filter hc)

theorem ok_singleton {e : xml.Node} (he : e.fails = false) : xml.ok [e] := by
  intro c hc
  rw [List.mem_singleton.mp hc]
  exact he

theorem decodeChildren_ok {α : Type} (setChild failChild : α → xml.Node → α) (v : α)
    (cs : List xml.Node) (h : xml.ok cs) :
    xml.decodeChildren setChild failChild v cs = cs.foldl setChild v := by
  induction cs generalizing v with
  | nil => rfl
  | cons c cs ih =>
    have hc := h c (List.mem_cons_self _ _)
    simp only [xml.decodeChildren, hc, List.foldl_cons]
    exact ih _ fun x hx => h x (List.mem_cons_of_mem _ hx)

theorem all_child {α ο : Type} (unmarshal : α → List xml.Attr → List xml.Node → α)
    (setChild : α → xml.Node → α) (setAttr : α → xml.Attr → α)
    (hinto : ∀ (v : α) (e : xml.Node), e.fails = false →
      e.into unmarshal v = e.children.foldl setChild (e.attrs.foldl setAttr v))
    (obs : α → ο) (p : xml.Node → Bool) (upd : ο → xml.Node → ο)
    (hc : ∀ v c, obs (setChild v c) = if p c = true then upd (obs v) c else obs v)
    (ha : ∀ v a, obs (setAttr v a) = obs v)
    (L : List xml.Node) (hok : xml.ok L) (v : α) :
    obs (xml.decodeAll unmarshal v L)
      = ((L.flatMap xml.Node.children).filter p).foldl upd (obs v) := by
  unfold xml.decodeAll
  induction L generalizing v with
  | nil => rfl
  | cons e L ih =>
    have he := hok e (List.mem_cons_self _ _)
    rw [List.foldl_cons, ih (fun x hx => hok x (List.mem_cons_of_mem _ hx)), hinto v e he,
      foldl_observe setChild obs p upd hc, foldl_preserve setAttr obs ha]
    simp [List.flatMap_cons, List.filter_append, List.foldl_append]

theorem all_attr {α ο : Type} (unmarshal : α → List xml.Attr → List xml.Node → α)
    (setChild : α → xml.Node → α) (setAttr : α → xml.Attr → α)
    (hinto : ∀ (v : α) (e : xml.Node), e.fails = false →
      e.into unmarshal v = e.children.foldl setChild (e.attrs.foldl setAttr v))
    (obs : α → ο) (p : xml.Attr → Bool) (upd : ο → xml.Attr → ο)
    (hc : ∀ v c, obs (setChild v c) = obs v)
    (ha : ∀ v a, obs (setAttr v a) = if p a = true then upd (obs v) a else obs v)
    (L : List xml.Node) (hok : xml.ok L) (v : α) :
    obs (xml.decodeAll unmarshal v L)
      = ((L.flatMap xml.Node.attrs).filter p).foldl upd (obs v) := by
  unfold xml.decodeAll
  induction L generalizing v with
  | nil => rfl
  | cons e L ih =>
    have he := hok e (List.mem_cons_self _ _)
    rw [List.foldl_cons, ih (fun x hx => hok x (List.mem_cons_of_mem _ hx)), hinto v e he,
      foldl_preserve setChild obs hc, foldl_observe setAttr obs p upd ha]
    simp [List.flatMap_cons, List.filter_append, List.foldl_append]

theorem into_ok_Argument (v : Argument) (e : xml.Node) (he : e.fails = false) :
    e.into Argument.unmarshal v = e.children.foldl (fun v _ => v) (e.attrs.foldl Argument.setAttr v) := by
  cases e with
  | element n a cs =>
    simp only [xml.Node.into, xml.Node.children, xml.Node.attrs, Argument.unmarshal]
    rw [foldl_keep]
  | charData d => rfl
  | procInst t ver enc => rfl
  | readError => rfl

theorem setAttr_Argument_Value (v : Argument) (a : xml.Attr) :
    (Argument.setAttr v a).Value
      = if (a.Name.Local == "value") = true then a.Value else v.Value := by
  simp only [Argument.setAttr, beq_iff_eq]
  by_cases hn : a.Name.Local = "value"
  · simp [hn]
  · simp only [apply_ite Argument.Value, hn, if_false, ite_self]

theorem all_Argument_Value (v : Argument) (L : List xml.Node) (hok : xml.ok L) :
    (xml.decodeAll Argument.unmarshal v L).Value
      = (((L.flatMap xml.Node.attrs).filter fun a => a.Name.Local == "value").map
          fun a => a.Value).getLast?.getD v.Value :=
  (all_attr Argument.unmarshal (fun v _ => v) Argument.setAttr into_ok_Argument (fun v => v.Value)
    (fun a => a.Name.Local == "value") (fun _ a => a.Value) (fun _ _ => rfl) setAttr_Argument_Value L hok v).trans
    (foldl_set_last _ _ _)

theorem setAttr_Argument_Name (v : Argument) (a : xml.Attr) :
    (Argument.setAttr v a).Name
      = if (a.Name.Local == "name") = true then a.Value else v.Name := by
  simp only [Argument.setAttr, beq_iff_eq]
  by_cases hn : a.Name.Local = "name"
  · simp [hn]
  · simp only [apply_ite Argument.Name, hn, if_false, ite_self]

theorem all_Argument_Name (v : Argument) (L : List xml.Node) (hok : xml.ok L) :
    (xml.decodeAll Argument.unmarshal v L).Name
      = (((L.flatMap xml.Node.attrs).filter fun a => a.Name.Local == "name").map
          fun a => a.Value).getLast?.getD v.Name :=
  (all_attr Argument.unmarshal (fun v _ => v) Argument.setAttr into_ok_Argument (fun v => v.Name)
    (fun a => a.Name.Local == "name") (fun _ a => a.Value) (fun _ _ => rfl) setAttr_Argument_Name L hok v).trans
    (foldl_set_last _ _ _)

theorem into_ok_Parameters (v : Parameters) (e : xml.Node) (he : e.fails = false) :
    e.into Parameters.unmarshal v = e.children.foldl Parameters.setChild (e.attrs.foldl (fun v _ => v) v) := by
  cases e with
  | element n a cs =>
    simp only [xml.Node.into, xml.Node.children, xml.Node.attrs, Parameters.unmarshal]
    rw [decodeChildren_ok _ _ _ _ (show xml.ok cs from ok_children he), foldl_keep]
  | charData d => rfl
  | procInst t ver enc => rfl
  | readError => rfl

theorem setChild_Parameters_Argument (v : Parameters) (c : xml.Node) :
    (Parameters.setChild v c).Argument
      = if c.isNamed "argument" = true then Slice.append v.Argument (c.into Argument.unmarshal {}) else v.Argument := by
  cases c with
  | element n a cs =>
    simp only [Parameters.setChild, xml.Node.isNamed, xml.Node.into, xml.Node.text,
      xml.Node.children, beq_iff_eq]
    by_cases hn : n.Local = "argument"
    · simp [hn]
    · simp only [apply_ite Parameters.Argument, hn, if_false, ite_self]
  | charData d => rfl
  | procInst t ver enc => rfl
  | readError => rfl

theorem all_Parameters_Argument (v : Parameters) (L : List xml.Node) (hok : xml.ok L) :
    (xml.decodeAll Parameters.unmarshal v L).Argument
      = Slice.appendAll v.Argument
          ((xml.reach ["argument"] L).map fun c => c.into Argument.unmarshal {}) :=
  (all_child Parameters.unmarshal Parameters.setChild (fun v _ => v) into_ok_Parameters (fun v => v.Argument)
    (xml.Node.isNamed "argument") (fun s c => Slice.append s (c.into Argument.unmarshal {})) setChild_Parameters_Argument (fun _ _ => rfl)
    L hok v).trans (foldl_append_slice (fun c : xml.Node => c.into Argument.unmarshal {}) _ _)

theorem into_ok_Request (v : Request) (e : xml.Node) (he : e.fails = false) :
    e.into Request.unmarshal v = e.children.foldl Request.setChild (e.attrs.foldl (fun v _ => v) v) := by
  cases e with
  | element n a cs =>
    simp only [xml.Node.into, xml.Node.children, xml.Node.attrs, Request.unmarshal]
    rw [decodeChildren_ok _ _ _ _ (show xml.ok cs from ok_children he), foldl_keep]
  | charData d => rfl
  | procInst t ver enc => rfl
  | readError => rfl

theorem setChild_Request_Parameters (v : Request) (c : xml.Node) :
    (Request.setChild v c).Parameters
      = if c.isNamed "parameters" = true then c.into Parameters.unmarshal v.Parameters else v.Parameters := by
  cases c with
  | element n a cs =>
    simp only [Request.setChild, xml.Node.isNamed, xml.Node.into, xml.Node.text,
      xml.Node.children, beq_iff_eq]
    by_cases hn : n.Local = "parameters"
    · simp [hn]
    · simp only [apply_ite Request.Parameters, hn, if_false, ite_self]
  | charData d => rfl
  | procInst t ver enc => rfl
  | readError => rfl

theorem all_Request_Parameters (v : Request) (L : List xml.Node) (hok : xml.ok L) :
    (xml.decodeAll Request.unmarshal v L).Parameters
      = xml.decodeAll Parameters.unmarshal v.Parameters (xml.reach ["parameters"] L) :=
  all_child Request.unmarshal Request.setChild (fun v _ => v) into_ok_Request (fun v => v.Parameters)
    (xml.Node.isNamed "parameters") (fun acc c => c.into Parameters.unmarshal acc) setChild_Request_Parameters (fun _ _ => rfl) L hok v

theorem into_ok_IDRef (v : IDRef) (e : xml.Node) (he : e.fails = false) :
    e.into IDRef.unmarshal v = e.children.foldl (fun v _ => v) (e.attrs.foldl IDRef.setAttr v) := by
  cases e with
  | element n a cs =>
    simp only [xml.Node.into, xml.Node.children, xml.Node.attrs, IDRef.unmarshal]
    rw [foldl_keep]
  | charData d => rfl
  | procInst t ver enc => rfl
  | readError => rfl

theorem setAttr_IDRef_ID (v : IDRef) (a : xml.Attr) :
    (IDRef.setAttr v a).ID
      = if (a.Name.Local == "id") = true then a.Value else v.ID := by
  simp only [IDRef.setAttr, beq_iff_eq]
  split_ifs <;> rfl

theorem all_IDRef_ID (v : IDRef) (L : List xml.Node) (hok : xml.ok L) :
    (xml.decodeAll IDRef.unmarshal v L).ID
      = (((L.flatMap xml.Node.attrs).filter fun a => a.Name.Local == "id").map
          fun a => a.Value).getLast?.getD v.ID :=
  (all_attr IDRef.unmarshal (fun v _ => v) IDRef.setAttr into_ok_IDRef (fun v => v.ID)
    (fun a => a.Name.Local == "id") (fun _ a => a.Value) (fun _ _ => rfl) setAttr_IDRef_ID L hok v).trans
    (foldl_set_last _ _ _)

theorem into_ok_Country (v : Country) (e : xml.Node) (he : e.fails = false) :
    e.into Country.unmarshal v = e.children.foldl (fun v _ => v) (e.attrs.foldl Country.setAttr v) := by
  cases e with
  | element n a cs =>
    simp only [xml.Node.into, xml.Node.children, xml.Node.attrs, Country.unmarshal]
    rw [foldl_keep]
  | charData d => rfl
  | procInst t ver enc => rfl
  | readError => rfl

theorem setAttr_Country_Code (v : Country) (a : xml.Attr) :
    (Country.setAttr v a).Code
      = if (a.Name.Local == "code") = true then a.Value else v.Code := by
  simp only [Country.setAttr, beq_iff_eq]
  split_ifs <;> rfl

theorem all_Country_Code (v : Country) (L : List xml.Node) (hok : xml.ok L) :
    (xml.decodeAll Country.unmarshal v L).Code
      = (((L.flatMap xml.Node.attrs).filter fun a => a.Name.Local == "code").map
          fun a => a.Value).getLast?.getD v.Code :=
  (all_attr Country.unmarshal (fun v _ => v) Country.setAttr into_ok_Country (fun v => v.Code)
    (fun a => a.Name.Local == "code") (fun _ a => a.Value) (fun _ _ => rfl) setAttr_Country_Code L hok v).trans
    (foldl_set_last _ _ _)

theorem into_ok_Address (v : Address) (e : xml.Node) (he : e.fails = false) :
    e.into Address.unmarshal v = e.children.foldl Address.setChild (e.attrs.foldl Address.setAttr v) := by
  cases e with
  | element n a cs =>
    simp only [xml.Node.into, xml.Node.children, xml.Node.attrs, Address.unmarshal]
    rw [decodeChildren_ok _ _ _ _ (show xml.ok cs from ok_children he)]
  | charData d => rfl
  | procInst t ver enc => rfl
  | readError => rfl

theorem setAttr_Address_Type_ (v : Address) (a : xml.Attr) :
    (Address.setAttr v a).Type_
      = if (a.Name.Local == "type") = true then a.Value else v.Type_ := by
  simp only [Address.setAttr, beq_iff_eq]
  split_ifs <;> rfl

theorem setChild_Address_Type_ (v : Address) (c : xml.Node) :
    (Address.setChild v c).Type_ = v.Type_ := by
  cases c <;> simp only [Address.setChild, apply_ite Address.Type_, ite_self]

theorem all_Address_Type_ (v : Address) (L : List xml.Node) (hok : xml.ok L) :
    (xml.decodeAll Address.unmarshal v L).Type_
      = (((L.flatMap xml.Node.attrs).filter fun a => a.Name.Local == "type").map
          fun a => a.Value).getLast?.getD v.Type_ :=
  (all_attr Address.unmarshal Address.setChild Address.setAttr into_ok_Address (fun v => v.Type_)
    (fun a => a.Name.Local == "type") (fun _ a => a.Value) setChild_Address_Type_ setAttr_Address_Type_ L hok v).trans
    (foldl_set_last _ _ _)

theorem setAttr_Address_StreetAddress (v : Address) (a : xml.Attr) :
    (Address.setAttr v a).StreetAddress = v.StreetAddress := by
  simp only [Address.setAttr, apply_ite Address.StreetAddress, ite_self]

theorem setChild_Address_StreetAddress (v : Address) (c : xml.Node) :
    (Address.setChild v c).StreetAddress
      = if c.isNamed "street_address" = true then c.text else v.StreetAddress := by
  cases c with
  | element n a cs =>
    simp only [Address.setChild, xml.Node.isNamed, xml.Node.into, xml.Node.text,
      xml.Node.children, beq_iff_eq]
    by_cases hn : n.Local = "street_address"
    · simp [hn]
    · simp only [apply_ite Address.StreetAddress, hn, if_false, ite_self]
  | charData d => rfl
  | procInst t ver enc => rfl
  | readError => rfl

theorem all_Address_StreetAddress (v : Address) (L : List xml.Node) (hok : xml.ok L) :
    (xml.decodeAll Address.unmarshal v L).StreetAddress
      = ((xml.reach ["street_address"] L).map xml.Node.text).getLast?.getD v.StreetAddress :=
  (all_child Address.unmarshal Address.setChild Address.setAttr into_ok_Address (fun v => v.StreetAddress)
    (xml.Node.isNamed "street_address") (fun _ c => c.text) setChild_Address_StreetAddress setAttr_Address_StreetAddress L hok v).trans
    (foldl_set_last _ _ _)

theorem setAttr_Address_City (v : Address) (a : xml.Attr) :
    (Address.setAttr v a).City = v.City := by
  simp only [Address.setAttr, apply_ite Address.City, ite_self]

theorem setChild_Address_City (v : Address) (c : xml.Node) :
    (Address.setChild v c).City
      = if c.isNamed "city" = true then c.text else v.City := by
  cases c with
  | element n a cs =>
    simp only [Address.setChild, xml.Node.isNamed, xml.Node.into, xml.Node.text,
      xml.Node.children, beq_iff_eq]
    by_cases hn : n.Local = "city"
    · simp [hn]
    · simp only [apply_ite Address.City, hn, if_false, ite_self]
  | charData d => rfl
  | procInst t ver enc => rfl
  | readError => rfl

theorem all_Address_City (v : Address) (L : List xml.Node) (hok : xml.ok L) :
    (xml.decodeAll Address.unmarshal v L).City
      = ((xml.reach ["city"] L).map xml.Node.text).getLast?.getD v.City :=
  (all_child Address.unmarshal Address.setChild Address.setAttr into_ok_Address (fun v => v.City)
    (xml.Node.isNamed "city") (fun _ c => c.text) setChild_Address_City setAttr_Address_City L hok v).trans
    (foldl_set_last _ _ _)

theorem setAttr_Address_State (v : Address) (a : xml.Attr) :
    (Address.setAttr v a).State = v.State := by
  simp only [Address.setAttr, apply_ite Address.State, ite_self]

theorem setChild_Address_State (v : Address) (c : xml.Node) :
    (Address.setChild v c).State
      = if c.isNamed "state" = true then c.text else v.State := by
  cases c with
  | element n a cs =>
    simp only [Address.setChild, xml.Node.isNamed, xml.Node.into, xml.Node.text,
      xml.Node.children, beq_iff_eq]
    by_cases hn : n.Local = "state"
    · simp [hn]
    · simp only [apply_ite Address.State, hn, if_false, ite_self]
  | charData d => rfl
  | procInst t ver enc => rfl
  | readError => rfl

theorem all_Address_State (v : Address) (L : List xml.Node) (hok : xml.ok L) :
    (xml.decodeAll Address.unmarshal v L).State
      = ((xml.reach ["state"] L).map xml.Node.text).getLast?.getD v.State :=
  (all_child Address.unmarshal Address.setChild Address.setAttr into_ok_Address (fun v => v.State)
    (xml.Node.isNamed "state") (fun _ c => c.text) setChild_Address_State setAttr_Address_State L hok v).trans
    (foldl_set_last _ _ _)

theorem setAttr_Address_Zip (v : Address) (a : xml.Attr) :
    (Address.setAttr v a).Zip = v.Zip := by
  simp only [Address.setAttr, apply_ite Address.Zip, ite_self]

theorem setChild_Address_Zip (v : Address) (c : xml.Node) :
    (Address.setChild v c).Zip
      = if c.isNamed "zip" = true then c.text else v.Zip := by
  cases c with
  | element n a cs =>
    simp only [Address.setChild, xml.Node.isNamed, xml.Node.into, xml.Node.text,
      xml.Node.children, beq_iff_eq]
    by_cases hn : n.Local = "zip"
    · simp [hn]
    · simp only [apply_ite Address.Zip, hn, if_false, ite_self]
  | charData d => rfl
  | procInst t ver enc => rfl
  | readError => rfl

theorem all_Address_Zip (v : Address) (L : List xml.Node) (hok : xml.ok L) :
    (xml.decodeAll Address.unmarshal v L).Zip
      = ((xml.reach ["zip"] L).map xml.Node.text).getLast?.getD v.Zip :=
  (all_child Address.unmarshal Address.setChild Address.setAttr into_ok_Address (fun v => v.Zip)
    (xml.Node.isNamed "zip") (fun _ c => c.text) setChild_Address_Zip setAttr_Address_Zip L hok v).trans
    (foldl_set_last _ _ _)

theorem setAttr_Address_Country (v : Address) (a : xml.Attr) :
    (Address.setAttr v a).Country = v.Country := by
  simp only [Address.setAttr, apply_ite Address.Country, ite_self]

theorem setChild_Address_Country (v : Address) (c : xml.Node) :
    (Address.setChild v c).Country
      = if c.isNamed "country" = true then c.into Country.unmarshal v.Country else v.Country := by
  cases c with
  | element n a cs =>
    simp only [Address.setChild, xml.Node.isNamed, xml.Node.into, xml.Node.text,
      xml.Node.children, beq_iff_eq]
    by_cases hn : n.Local = "country"
    · simp [hn]
    · simp only [apply_ite Address.Country, hn, if_false, ite_self]
  | charData d => rfl
  | procInst t ver enc => rfl
  | readError => rfl

theorem all_Address_Country (v : Address) (L : List xml.Node) (hok : xml.ok L) :
    (xml.decodeAll Address.unmarshal v L).Country
      = xml.decodeAll Country.unmarshal v.Country (xml.reach ["country"] L) :=
  all_child Address.unmarshal Address.setChild Address.setAttr into_ok_Address (fun v => v.Country)
    (xml.Node.isNamed "country") (fun acc c => c.into Country.unmarshal acc) setChild_Address_Country setAttr_Address_Country L hok v

theorem setAttr_Address_Line1 (v : Address) (a : xml.Attr) :
    (Address.setAttr v a).Line1 = v.Line1 := by
  simp only [Address.setAttr, apply_ite Address.Line1, ite_self]

theorem setChild_Address_Line1 (v : Address) (c : xml.Node) :
    (Address.setChild v c).Line1
      = if c.isNamed "line_1" = true then c.text else v.Line1 := by
  cases c with
  | element n a cs =>
    simp only [Address.setChild, xml.Node.isNamed, xml.Node.into, xml.Node.text,
      xml.Node.children, beq_iff_eq]
    by_cases hn : n.Local = "line_1"
    · simp [hn]
    · simp only [apply_ite Address.Line1, hn, if_false, ite_self]
  | charData d => rfl
  | procInst t ver enc => rfl
  | readError => rfl

theorem all_Address_Line1 (v : Address) (L : List xml.Node) (hok : xml.ok L) :
    (xml.decodeAll Address.unmarshal v L).Line1
      = ((xml.reach ["line_1"] L).map xml.Node.text).getLast?.getD v.Line1 :=
  (all_child Address.unmarshal Address.setChild Address.setAttr into_ok_Address (fun v => v.Line1)
    (xml.Node.isNamed "line_1") (fun _ c => c.text) setChild_Address_Line1 setAttr_Address_Line1 L hok v).trans
    (foldl_set_last _ _ _)

theorem setAttr_Address_Line2 (v : Address) (a : xml.Attr) :
    (Address.setAttr v a).Line2 = v.Line2 := by
  simp only [Address.setAttr, apply_ite Address.Line2, ite_self]

theorem setChild_Address_Line2 (v : Address) (c : xml.Node) :
    (Address.setChild v c).Line2
      = if c.isNamed "line_2" = true then c.text else v.Line2 := by
  cases c with
  | element n a cs =>
    simp only [Address.setChild, xml.Node.isNamed, xml.Node.into, xml.Node.text,
      xml.Node.children, beq_iff_eq]
    by_cases hn : n.Local = "line_2"
    · simp [hn]
    · simp only [apply_ite Address.Line2, hn, if_false, ite_self]
  | charData d => rfl
  | procInst t ver enc => rfl
  | readError => rfl

theorem all_Address_Line2 (v : Address) (L : List xml.Node) (hok : xml.ok L) :
    (xml.decodeAll Address.unmarshal v L).Line2
      = ((xml.reach ["line_2"] L).map xml.Node.text).getLast?.getD v.Line2 :=
  (all_child Address.unmarshal Address.setChild Address.setAttr into_ok_Address (fun v => v.Line2)
    (xml.Node.isNamed "line_2") (fun _ c => c.text) setChild_Address_Line2 setAttr_Address_Line2 L hok v).trans
    (foldl_set_last _ _ _)

theorem setAttr_Address_Latitude (v : Address) (a : xml.Attr) :
    (Address.setAttr v a).Latitude = v.Latitude := by
  simp only [Address.setAttr, apply_ite Address.Latitude, ite_self]

theorem setChild_Address_Latitude (v : Address) (c : xml.Node) :
    (Address.setChild v c).Latitude
      = if c.isNamed "latitude" = true then c.text else v.Latitude := by
  cases c with
  | element n a cs =>
    simp only [Address.setChild, xml.Node.isNamed, xml.Node.into, xml.Node.text,
      xml.Node.children, beq_iff_eq]
    by_cases hn : n.Local = "latitude"
    · simp [hn]
    · simp only [apply_ite Address.Latitude, hn, if_false, ite_self]
  | charData d => rfl
  | procInst t ver enc => rfl
  | readError => rfl

theorem all_Address_Latitude (v : Address) (L : List xml.Node) (hok : xml.ok L) :
    (xml.decodeAll Address.unmarshal v L).Latitude
      = ((xml.reach ["latitude"] L).map xml.Node.text).getLast?.getD v.Latitude :=
  (all_child Address.unmarshal Address.setChild Address.setAttr into_ok_Address (fun v => v.Latitude)
    (xml.Node.isNamed "latitude") (fun _ c => c.text) setChild_Address_Latitude setAttr_Address_Latitude L hok v).trans
    (foldl_set_last _ _ _)

theorem setAttr_Address_Longitude (v : Address) (a : xml.Attr) :
    (Address.setAttr v a).Longitude = v.Longitude := by
  simp only [Address.setAttr, apply_ite Address.Longitude, ite_self]

theorem setChild_Address_Longitude (v : Address) (c : xml.Node) :
    (Address.setChild v c).Longitude
      = if c.isNamed "longitude" = true then c.text else v.Longitude := by
  cases c with
  | element n a cs =>
    simp only [Address.setChild, xml.Node.isNamed, xml.Node.into, xml.Node.text,
      xml.Node.children, beq_iff_eq]
    by_cases hn : n.Local = "longitude"
    · simp [hn]
    · simp only [apply_ite Address.Longitude, hn, if_false, ite_self]
  | charData d => rfl
  | procInst t ver enc => rfl
  | readError => rfl

theorem all_Address_Longitude (v : Address) (L : List xml.Node) (hok : xml.ok L) :
    (xml.decodeAll Address.unmarshal v L).Longitude
      = ((xml.reach ["longitude"] L).map xml.Node.text).getLast?.getD v.Longitude :=
  (all_child Address.unmarshal Address.setChild Address.setAttr into_ok_Address (fun v => v.Longitude)
    (xml.Node.isNamed "longitude") (fun _ c => c.text) setChild_Address_Longitude setAttr_Address_Longitude L hok v).trans
    (foldl_set_last _ _ _)

theorem into_ok_Addresses (v : Addresses) (e : xml.Node) (he : e.fails = false) :
    e.into Addresses.unmarshal v = e.children.foldl Addresses.setChild (e.attrs.foldl (fun v _ => v) v) := by
  cases e with
  | element n a cs =>
    simp only [xml.Node.into, xml.Node.children, xml.Node.attrs, Addresses.unmarshal]
    rw [decodeChildren_ok _ _ _ _ (show xml.ok cs from ok_children he), foldl_keep]
  | charData d => rfl
  | procInst t ver enc => rfl
  | readError => rfl

theorem setChild_Addresses_Address (v : Addresses) (c : xml.Node) :
    (Addresses.setChild v c).Address
      = if c.isNamed "address" = true then Slice.append v.Address (c.into Address.unmarshal {}) else v.Address := by
  cases c with
  | element n a cs =>
    simp only [Addresses.setChild, xml.Node.isNamed, xml.Node.into, xml.Node.text,
      xml.Node.children, beq_iff_eq]
    by_cases hn : n.Local = "address"
    · simp [hn]
    · simp only [apply_ite Addresses.Address, hn, if_false, ite_self]
  | charData d => rfl
  | procInst t ver enc => rfl
  | readError => rfl

theorem all_Addresses_Address (v : Addresses) (L : List xml.Node) (hok : xml.ok L) :
    (xml.decodeAll Addresses.unmarshal v L).Address
      = Slice.appendAll v.Address
          ((xml.reach ["address"] L).map fun c => c.into Address.unmarshal {}) :=
  (all_child Addresses.unmarshal Addresses.setChild (fun v _ => v) into_ok_Addresses (fun v => v.Address)
    (xml.Node.isNamed "address") (fun s c => Slice.append s (c.into Address.unmarshal {})) setChild_Addresses_Address (fun _ _ => rfl)
    L hok v).trans (foldl_append_slice (fun c : xml.Node => c.into Address.unmarshal {}) _ _)

theorem into_ok_Phone (v : Phone) (e : xml.Node) (he : e.fails = false) :
    e.into Phone.unmarshal v = e.children.foldl (fun v _ => v) (e.attrs.foldl Phone.setAttr v) := by
  cases e with
  | element n a cs =>
    simp only [xml.Node.into, xml.Node.children, xml.Node.attrs, Phone.unmarshal]
    rw [foldl_keep]
  | charData d => rfl
  | procInst t ver enc => rfl
  | readError => rfl

theorem setAttr_Phone_Type_ (v : Phone) (a : xml.Attr) :
    (Phone.setAttr v a).Type_
      = if (a.Name.Local == "type") = true then a.Value else v.Type_ := by
  simp only [Phone.setAttr, beq_iff_eq]
  split_ifs <;> rfl

theorem all_Phone_Type_ (v : Phone) (L : List xml.Node) (hok : xml.ok L) :
    (xml.decodeAll Phone.unmarshal v L).Type_
      = (((L.flatMap xml.Node.attrs).filter fun a => a.Name.Local == "type").map
          fun a => a.Value).getLast?.getD v.Type_ :=
  (all_attr Phone.unmarshal (fun v _ => v) Phone.setAttr into_ok_Phone (fun v => v.Type_)
    (fun a => a.Name.Local == "type") (fun _ a => a.Value) (fun _ _ => rfl) setAttr_Phone_Type_ L hok v).trans
    (foldl_set_last _ _ _)

theorem into_ok_Phones (v : Phones) (e : xml.Node) (he : e.fails = false) :
    e.into Phones.unmarshal v = e.children.foldl Phones.setChild (e.attrs.foldl (fun v _ => v) v) := by
  cases e with
  | element n a cs =>
    simp only [xml.Node.into, xml.Node.children, xml.Node.attrs, Phones.unmarshal]
    rw [decodeChildren_ok _ _ _ _ (show xml.ok cs from ok_children he), foldl_keep]
  | charData d => rfl
  | procInst t ver enc => rfl
  | readError => rfl

theorem setChild_Phones_Phone (v : Phones) (c : xml.Node) :
    (Phones.setChild v c).Phone
      = if c.isNamed "phone" = true then Slice.append v.Phone (c.into Phone.unmarshal {}) else v.Phone := by
  cases c with
  | element n a cs =>
    simp only [Phones.setChild, xml.Node.isNamed, xml.Node.into, xml.Node.text,
      xml.Node.children, beq_iff_eq]
    by_cases hn : n.Local = "phone"
    · simp [hn]
    · simp only [apply_ite Phones.Phone, hn, if_false, ite_self]
  | charData d => rfl
  | procInst t ver enc => rfl
  | readError => rfl

theorem all_Phones_Phone (v : Phones) (L : List xml.Node) (hok : xml.ok L) :
    (xml.decodeAll Phones.unmarshal v L).Phone
      = Slice.appendAll v.Phone
          ((xml.reach ["phone"] L).map fun c => c.into Phone.unmarshal {}) :=
  (all_child Phones.unmarshal Phones.setChild (fun v _ => v) into_ok_Phones (fun v => v.Phone)
    (xml.Node.isNamed "phone") (fun s c => Slice.append s (c.into Phone.unmarshal {})) setChild_Phones_Phone (fun _ _ => rfl)
    L hok v).trans (foldl_append_slice (fun c : xml.Node => c.into Phone.unmarshal {}) _ _)

theorem into_ok_PrivacySettings (v : PrivacySettings) (e : xml.Node) (he : e.fails = false) :
    e.into PrivacySettings.unmarshal v = e.children.foldl PrivacySettings.setChild (e.attrs.foldl (fun v _ => v) v) := by
  cases e with
  | element n a cs =>
    simp only [xml.Node.into, xml.Node.children, xml.Node.attrs, PrivacySettings.unmarshal]
    rw [decodeChildren_ok _ _ _ _ (show xml.ok cs from ok_children he), foldl_keep]
  | charData d => rfl
  | procInst t ver enc => rfl
  | readError => rfl

theorem setChild_PrivacySettings_ProfileListed (v : PrivacySettings) (c : xml.Node) :
    (PrivacySettings.setChild v c).ProfileListed
      = if c.isNamed "profile_listed" = true then c.text else v.ProfileListed := by
  cases c with
  | element n a cs =>
    simp only [PrivacySettings.setChild, xml.Node.isNamed, xml.Node.into, xml.Node.text,
      xml.Node.children, beq_iff_eq]
    by_cases hn : n.Local = "profile_listed"
    · simp [hn]
    · simp only [apply_ite PrivacySettings.ProfileListed, hn, if_false, ite_self]
  | charData d => rfl
  | procInst t ver enc => rfl
  | readError => rfl

theorem all_PrivacySettings_ProfileListed (v : PrivacySettings) (L : List xml.Node) (hok : xml.ok L) :
    (xml.decodeAll PrivacySettings.unmarshal v L).ProfileListed
      = ((xml.reach ["profile_listed"] L).map xml.Node.text).getLast?.getD v.ProfileListed :=
  (all_child PrivacySettings.unmarshal PrivacySettings.setChild (fun v _ => v) into_ok_PrivacySettings (fun v => v.ProfileListed)
    (xml.Node.isNamed "profile_listed") (fun _ c => c.text) setChild_PrivacySettings_ProfileListed (fun _ _ => rfl) L hok v).trans
    (foldl_set_last _ _ _)

theorem setChild_PrivacySettings_MailingAddress (v : PrivacySettings) (c : xml.Node) :
    (PrivacySettings.setChild v c).MailingAddress
      = if c.isNamed "mailing_address" = true then c.into IDRef.unmarshal v.MailingAddress else v.MailingAddress := by
  cases c with
  | element n a cs =>
    simp only [PrivacySettings.setChild, xml.Node.isNamed, xml.Node.into, xml.Node.text,
      xml.Node.children, beq_iff_eq]
    by_cases hn : n.Local = "mailing_address"
    · simp [hn]
    · simp only [apply_ite PrivacySettings.MailingAddress, hn, if_false, ite_self]
  | charData d => rfl
  | procInst t ver enc => rfl
  | readError => rfl

theorem all_PrivacySettings_MailingAddress (v : PrivacySettings) (L : List xml.Node) (hok : xml.ok L) :
    (xml.decodeAll PrivacySettings.unmarshal v L).MailingAddress
      = xml.decodeAll IDRef.unmarshal v.MailingAddress (xml.reach ["mailing_address"] L) :=
  all_child PrivacySettings.unmarshal PrivacySettings.setChild (fun v _ => v) into_ok_PrivacySettings (fun v => v.MailingAddress)
    (xml.Node.isNamed "mailing_address") (fun acc c => c.into IDRef.unmarshal acc) setChild_PrivacySettings_MailingAddress (fun _ _ => rfl) L hok v

theorem setChild_PrivacySettings_HomeAddress (v : PrivacySettings) (c : xml.Node) :
    (PrivacySettings.setChild v c).HomeAddress
      = if c.isNamed "home_address" = true then c.into IDRef.unmarshal v.HomeAddress else v.HomeAddress := by
  cases c with
  | element n a cs =>
    simp only [PrivacySettings.setChild, xml.Node.isNamed, xml.Node.into, xml.Node.text,
      xml.Node.children, beq_iff_eq]
    by_cases hn : n.Local = "home_address"
    · simp [hn]
    · simp only [apply_ite PrivacySettings.HomeAddress, hn, if_false, ite_self]
  | charData d => rfl
  | procInst t ver enc => rfl
  | readError => rfl

theorem all_PrivacySettings_HomeAddress (v : PrivacySettings) (L : List xml.Node) (hok : xml.ok L) :
    (xml.decodeAll PrivacySettings.unmarshal v L).HomeAddress
      = xml.decodeAll IDRef.unmarshal v.HomeAddress (xml.reach ["home_address"] L) :=
  all_child PrivacySettings.unmarshal PrivacySettings.setChild (fun v _ => v) into_ok_PrivacySettings (fun v => v.HomeAddress)
    (xml.Node.isNamed "home_address") (fun acc c => c.into IDRef.unmarshal acc) setChild_PrivacySettings_HomeAddress (fun _ _ => rfl) L hok v

theorem setChild_PrivacySettings_HomePhone (v : PrivacySettings) (c : xml.Node) :
    (PrivacySettings.setChild v c).HomePhone
      = if c.isNamed "home_phone" = true then c.into IDRef.unmarshal v.HomePhone else v.HomePhone := by
  cases c with
  | element n a cs =>
    simp only [PrivacySettings.setChild, xml.Node.isNamed, xml.Node.into, xml.Node.text,
      xml.Node.children, beq_iff_eq]
    by_cases hn : n.Local = "home_phone"
    · simp [hn]
    · simp only [apply_ite PrivacySettings.HomePhone, hn, if_false, ite_self]
  | charData d => rfl
  | procInst t ver enc => rfl
  | readError => rfl

theorem all_PrivacySettings_HomePhone (v : PrivacySettings) (L : List xml.Node) (hok : xml.ok L) :
    (xml.decodeAll PrivacySettings.unmarshal v L).HomePhone
      = xml.decodeAll IDRef.unmarshal v.HomePhone (xml.reach ["home_phone"] L) :=
  all_child PrivacySettings.unmarshal PrivacySettings.setChild (fun v _ => v) into_ok_PrivacySettings (fun v => v.HomePhone)
    (xml.Node.isNamed "home_phone") (fun acc c => c.into IDRef.unmarshal acc) setChild_PrivacySettings_HomePhone (fun _ _ => rfl) L hok v

theorem setChild_PrivacySettings_WorkPhone (v : PrivacySettings) (c : xml.Node) :
    (PrivacySettings.setChild v c).WorkPhone
      = if c.isNamed "work_phone" = true then c.into IDRef.unmarshal v.WorkPhone else v.WorkPhone := by
  cases c with
  | element n a cs =>
    simp only [PrivacySettings.setChild, xml.Node.isNamed, xml.Node.into, xml.Node.text,
      xml.Node.children, beq_iff_eq]
    by_cases hn : n.Local = "work_phone"
    · simp [hn]
    · simp only [apply_ite PrivacySettings.WorkPhone, hn, if_false, ite_self]
  | charData d => rfl
  | procInst t ver enc => rfl
  | readError => rfl

theorem all_PrivacySettings_WorkPhone (v : PrivacySettings) (L : List xml.Node) (hok : xml.ok L) :
    (xml.decodeAll PrivacySettings.unmarshal v L).WorkPhone
      = xml.decodeAll IDRef.unmarshal v.WorkPhone (xml.reach ["work_phone"] L) :=
  all_child PrivacySettings.unmarshal PrivacySettings.setChild (fun v _ => v) into_ok_PrivacySettings (fun v => v.WorkPhone)
    (xml.Node.isNamed "work_phone") (fun acc c => c.into IDRef.unmarshal acc) setChild_PrivacySettings_WorkPhone (fun _ _ => rfl) L hok v

theorem setChild_PrivacySettings_MobilePhone (v : PrivacySettings) (c : xml.Node) :
    (PrivacySettings.setChild v c).MobilePhone
      = if c.isNamed "mobile_phone" = true then c.into IDRef.unmarshal v.MobilePhone else v.MobilePhone := by
  cases c with
  | element n a cs =>
    simp only [PrivacySettings.setChild, xml.Node.isNamed, xml.Node.into, xml.Node.text,
      xml.Node.children, beq_iff_eq]
    by_cases hn : n.Local = "mobile_phone"
    · simp [hn]
    · simp only [apply_ite PrivacySettings.MobilePhone, hn, if_false, ite_self]
  | charData d => rfl
  | procInst t ver enc => rfl
  | readError => rfl

theorem all_PrivacySettings_MobilePhone (v : PrivacySettings) (L : List xml.Node) (hok : xml.ok L) :
    (xml.decodeAll PrivacySettings.unmarshal v L).MobilePhone
      = xml.decodeAll IDRef.unmarshal v.MobilePhone (xml.reach ["mobile_phone"] L) :=
  all_child PrivacySettings.unmarshal PrivacySettings.setChild (fun v _ => v) into_ok_PrivacySettings (fun v => v.MobilePhone)
    (xml.Node.isNamed "mobile_phone") (fun acc c => c.into IDRef.unmarshal acc) setChild_PrivacySettings_MobilePhone (fun _ _ => rfl) L hok v

theorem setChild_PrivacySettings_EmergencyPhone (v : PrivacySettings) (c : xml.Node) :
    (PrivacySettings.setChild v c).EmergencyPhone
      = if c.isNamed "emergency_phone" = true then c.into IDRef.unmarshal v.EmergencyPhone else v.EmergencyPhone := by
  cases c with
  | element n a cs =>
    simp only [PrivacySettings.setChild, xml.Node.isNamed, xml.Node.into, xml.Node.text,
      xml.Node.children, beq_iff_eq]
    by_cases hn : n.Local = "emergency_phone"
    · simp [hn]
    · simp only [apply_ite PrivacySettings.EmergencyPhone, hn, if_false, ite_self]
  | charData d => rfl
  | procInst t ver enc => rfl
  | readError => rfl

theorem all_PrivacySettings_EmergencyPhone (v : PrivacySettings) (L : List xml.Node) (hok : xml.ok L) :
    (xml.decodeAll PrivacySettings.unmarshal v L).EmergencyPhone
      = xml.decodeAll IDRef.unmarshal v.EmergencyPhone (xml.reach ["emergency_phone"] L) :=
  all_child PrivacySettings.unmarshal PrivacySettings.setChild (fun v _ => v) into_ok_PrivacySettings (fun v => v.EmergencyPhone)
    (xml.Node.isNamed "emergency_phone") (fun acc c => c.into IDRef.unmarshal acc) setChild_PrivacySettings_EmergencyPhone (fun _ _ => rfl) L hok v

theorem setChild_PrivacySettings_Birthday (v : PrivacySettings) (c : xml.Node) :
    (PrivacySettings.setChild v c).Birthday
      = if c.isNamed "birthday" = true then c.into IDRef.unmarshal v.Birthday else v.Birthday := by
  cases c with
  | element n a cs =>
    simp only [PrivacySettings.setChild, xml.Node.isNamed, xml.Node.into, xml.Node.text,
      xml.Node.children, beq_iff_eq]
    by_cases hn : n.Local = "birthday"
    · simp [hn]
    · simp only [apply_ite PrivacySettings.Birthday, hn, if_false, ite_self]
  | charData d => rfl
  | procInst t ver enc => rfl
  | readError => rfl

theorem all_PrivacySettings_Birthday (v : PrivacySettings) (L : List xml.Node) (hok : xml.ok L) :
    (xml.decodeAll PrivacySettings.unmarshal v L).Birthday
      = xml.decodeAll IDRef.unmarshal v.Birthday (xml.reach ["birthday"] L) :=
  all_child PrivacySettings.unmarshal PrivacySettings.setChild (fun v _ => v) into_ok_PrivacySettings (fun v => v.Birthday)
    (xml.Node.isNamed "birthday") (fun acc c => c.into IDRef.unmarshal acc) setChild_PrivacySettings_Birthday (fun _ _ => rfl) L hok v

theorem setChild_PrivacySettings_Anniversary (v : PrivacySettings) (c : xml.Node) :
    (PrivacySettings.setChild v c).Anniversary
      = if c.isNamed "anniversary" = true then c.into IDRef.unmarshal v.Anniversary else v.Anniversary := by
  cases c with
  | element n a cs =>
    simp only [PrivacySettings.setChild, xml.Node.isNamed, xml.Node.into, xml.Node.text,
      xml.Node.children, beq_iff_eq]
    by_cases hn : n.Local = "anniversary"
    · simp [hn]
    · simp only [apply_ite PrivacySettings.Anniversary, hn, if_false, ite_self]
  | charData d => rfl
  | procInst t ver enc => rfl
  | readError => rfl

theorem all_PrivacySettings_Anniversary (v : PrivacySettings) (L : List xml.Node) (hok : xml.ok L) :
    (xml.decodeAll PrivacySettings.unmarshal v L).Anniversary
      = xml.decodeAll IDRef.unmarshal v.Anniversary (xml.reach ["anniversary"] L) :=
  all_child PrivacySettings.unmarshal PrivacySettings.setChild (fun v _ => v) into_ok_PrivacySettings (fun v => v.Anniversary)
    (xml.Node.isNamed "anniversary") (fun acc c => c.into IDRef.unmarshal acc) setChild_PrivacySettings_Anniversary (fun _ _ => rfl) L hok v

theorem setChild_PrivacySettings_Gender (v : PrivacySettings) (c : xml.Node) :
    (PrivacySettings.setChild v c).Gender
      = if c.isNamed "gender" = true then c.into IDRef.unmarshal v.Gender else v.Gender := by
  cases c with
  | element n a cs =>
    simp only [PrivacySettings.setChild, xml.Node.isNamed, xml.Node.into, xml.Node.text,
      xml.Node.children, beq_iff_eq]
    by_cases hn : n.Local = "gender"
    · simp [hn]
    · simp only [apply_ite PrivacySettings.Gender, hn, if_false, ite_self]
  | charData d => rfl
  | procInst t ver enc => rfl
  | readError => rfl

theorem all_PrivacySettings_Gender (v : PrivacySettings) (L : List xml.Node) (hok : xml.ok L) :
    (xml.decodeAll PrivacySettings.unmarshal v L).Gender
      = xml.decodeAll IDRef.unmarshal v.Gender (xml.reach ["gender"] L) :=
  all_child PrivacySettings.unmarshal PrivacySettings.setChild (fun v _ => v) into_ok_PrivacySettings (fun v => v.Gender)
    (xml.Node.isNamed "gender") (fun acc c => c.into IDRef.unmarshal acc) setChild_PrivacySettings_Gender (fun _ _ => rfl) L hok v

theorem setChild_PrivacySettings_MaritalStatus (v : PrivacySettings) (c : xml.Node) :
    (PrivacySettings.setChild v c).MaritalStatus
      = if c.isNamed "marital_status" = true then c.into IDRef.unmarshal v.MaritalStatus else v.MaritalStatus := by
  cases c with
  | element n a cs =>
    simp only [PrivacySettings.setChild, xml.Node.isNamed, xml.Node.into, xml.Node.text,
      xml.Node.children, beq_iff_eq]
    by_cases hn : n.Local = "marital_status"
    · simp [hn]
    · simp only [apply_ite PrivacySettings.MaritalStatus, hn, if_false, ite_self]
  | charData d => rfl
  | procInst t ver enc => rfl
  | readError => rfl

theorem all_PrivacySettings_MaritalStatus (v : PrivacySettings) (L : List xml.Node) (hok : xml.ok L) :
    (xml.decodeAll PrivacySettings.unmarshal v L).MaritalStatus
      = xml.decodeAll IDRef.unmarshal v.MaritalStatus (xml.reach ["marital_status"] L) :=
  all_child PrivacySettings.unmarshal PrivacySettings.setChild (fun v _ => v) into_ok_PrivacySettings (fun v => v.MaritalStatus)
    (xml.Node.isNamed "marital_status") (fun acc c => c.into IDRef.unmarshal acc) setChild_PrivacySettings_MaritalStatus (fun _ _ => rfl) L hok v

theorem setChild_PrivacySettings_UserDefinedFields (v : PrivacySettings) (c : xml.Node) :
    (PrivacySettings.setChild v c).UserDefinedFields
      = if c.isNamed "user_defined_fields" = true then c.into IDRef.unmarshal v.UserDefinedFields else v.UserDefinedFields := by
  cases c with
  | element n a cs =>
    simp only [PrivacySettings.setChild, xml.Node.isNamed, xml.Node.into, xml.Node.text,
      xml.Node.children, beq_iff_eq]
    by_cases hn : n.Local = "user_defined_fields"
    · simp [hn]
    · simp only [apply_ite PrivacySettings.UserDefinedFields, hn, if_false, ite_self]
  | charData d => rfl
  | procInst t ver enc => rfl
  | readError => rfl

theorem all_PrivacySettings_UserDefinedFields (v : PrivacySettings) (L : List xml.Node) (hok : xml.ok L) :
    (xml.decodeAll PrivacySettings.unmarshal v L).UserDefinedFields
      = xml.decodeAll IDRef.unmarshal v.UserDefinedFields (xml.reach ["user_defined_fields"] L) :=
  all_child PrivacySettings.unmarshal PrivacySettings.setChild (fun v _ => v) into_ok_PrivacySettings (fun v => v.UserDefinedFields)
    (xml.Node.isNamed "user_defined_fields") (fun acc c => c.into IDRef.unmarshal acc) setChild_PrivacySettings_UserDefinedFields (fun _ _ => rfl) L hok v

theorem setChild_PrivacySettings_Allergies (v : PrivacySettings) (c : xml.Node) :
    (PrivacySettings.setChild v c).Allergies
      = if c.isNamed "allergies" = true then c.into IDRef.unmarshal v.Allergies else v.Allergies := by
  cases c with
  | element n a cs =>
    simp only [PrivacySettings.setChild, xml.Node.isNamed, xml.Node.into, xml.Node.text,
      xml.Node.children, beq_iff_eq]
    by_cases hn : n.Local = "allergies"
    · simp [hn]
    · simp only [apply_ite PrivacySettings.Allergies, hn, if_false, ite_self]
  | charData d => rfl
  | procInst t ver enc => rfl
  | readError => rfl

theorem all_PrivacySettings_Allergies (v : PrivacySettings) (L : List xml.Node) (hok : xml.ok L) :
    (xml.decodeAll PrivacySettings.unmarshal v L).Allergies
      = xml.decodeAll IDRef.unmarshal v.Allergies (xml.reach ["allergies"] L) :=
  all_child PrivacySettings.unmarshal PrivacySettings.setChild (fun v _ => v) into_ok_PrivacySettings (fun v => v.Allergies)
    (xml.Node.isNamed "allergies") (fun acc c => c.into IDRef.unmarshal acc) setChild_PrivacySettings_Allergies (fun _ _ => rfl) L hok v

theorem into_ok_Individual (v : Individual) (e : xml.Node) (he : e.fails = false) :
    e.into Individual.unmarshal v = e.children.foldl Individual.setChild (e.attrs.foldl Individual.setAttr v) := by
  cases e with
  | element n a cs =>
    simp only [xml.Node.into, xml.Node.children, xml.Node.attrs, Individual.unmarshal]
    rw [decodeChildren_ok _ _ _ _ (show xml.ok cs from ok_children he)]
  | charData d => rfl
  | procInst t ver enc => rfl
  | readError => rfl

theorem setAttr_Individual_ID (v : Individual) (a : xml.Attr) :
    (Individual.setAttr v a).ID
      = if (a.Name.Local == "id") = true then a.Value else v.ID := by
  simp only [Individual.setAttr, beq_iff_eq]
  split_ifs <;> rfl

theorem setChild_Individual_ID (v : Individual) (c : xml.Node) :
    (Individual.setChild v c).ID = v.ID := by
  cases c <;> simp only [Individual.setChild, apply_ite Individual.ID, ite_self]

theorem all_Individual_ID (v : Individual) (L : List xml.Node) (hok : xml.ok L) :
    (xml.decodeAll Individual.unmarshal v L).ID
      = (((L.flatMap xml.Node.attrs).filter fun a => a.Name.Local == "id").map
          fun a => a.Value).getLast?.getD v.ID :=
  (all_attr Individual.unmarshal Individual.setChild Individual.setAttr into_ok_Individual (fun v => v.ID)
    (fun a => a.Name.Local == "id") (fun _ a => a.Value) setChild_Individual_ID setAttr_Individual_ID L hok v).trans
    (foldl_set_last _ _ _)

theorem setAttr_Individual_SyncID (v : Individual) (a : xml.Attr) :
    (Individual.setAttr v a).SyncID = v.SyncID := by
  simp only [Individual.setAttr, apply_ite Individual.SyncID, ite_self]

theorem setChild_Individual_SyncID (v : Individual) (c : xml.Node) :
    (Individual.setChild v c).SyncID
      = if c.isNamed "sync_id" = true then c.text else v.SyncID := by
  cases c with
  | element n a cs =>
    simp only [Individual.setChild, xml.Node.isNamed, xml.Node.into, xml.Node.text,
      xml.Node.children, beq_iff_eq]
    by_cases hn : n.Local = "sync_id"
    · simp [hn]
    · simp only [apply_ite Individual.SyncID, hn, if_false, ite_self]
  | charData d => rfl
  | procInst t ver enc => rfl
  | readError => rfl

theorem all_Individual_SyncID (v : Individual) (L : List xml.Node) (hok : xml.ok L) :
    (xml.decodeAll Individual.unmarshal v L).SyncID
      = ((xml.reach ["sync_id"] L).map xml.Node.text).getLast?.getD v.SyncID :=
  (all_child Individual.unmarshal Individual.setChild Individual.setAttr into_ok_Individual (fun v => v.SyncID)
    (xml.Node.isNamed "sync_id") (fun _ c => c.text) setChild_Individual_SyncID setAttr_Individual_SyncID L hok v).trans
    (foldl_set_last _ _ _)

theorem setAttr_Individual_OtherID (v : Individual) (a : xml.Attr) :
    (Individual.setAttr v a).OtherID = v.OtherID := by
  simp only [Individual.setAttr, apply_ite Individual.OtherID, ite_self]

theorem setChild_Individual_OtherID (v : Individual) (c : xml.Node) :
    (Individual.setChild v c).OtherID
      = if c.isNamed "other_id" = true then c.text else v.OtherID := by
  cases c with
  | element n a cs =>
    simp only [Individual.setChild, xml.Node.isNamed, xml.Node.into, xml.Node.text,
      xml.Node.children, beq_iff_eq]
    by_cases hn : n.Local = "other_id"
    · simp [hn]
    · simp only [apply_ite Individual.OtherID, hn, if_false, ite_self]
  | charData d => rfl
  | procInst t ver enc => rfl
  | readError => rfl

theorem all_Individual_OtherID (v : Individual) (L : List xml.Node) (hok : xml.ok L) :
    (xml.decodeAll Individual.unmarshal v L).OtherID
      = ((xml.reach ["other_id"] L).map xml.Node.text).getLast?.getD v.OtherID :=
  (all_child Individual.unmarshal Individual.setChild Individual.setAttr into_ok_Individual (fun v => v.OtherID)
    (xml.Node.isNamed "other_id") (fun _ c => c.text) setChild_Individual_OtherID setAttr_Individual_OtherID L hok v).trans
    (foldl_set_last _ _ _)

theorem setAttr_Individual_GivingNumber (v : Individual) (a : xml.Attr) :
    (Individual.setAttr v a).GivingNumber = v.GivingNumber := by
  simp only [Individual.setAttr, apply_ite Individual.GivingNumber, ite_self]

theorem setChild_Individual_GivingNumber (v : Individual) (c : xml.Node) :
    (Individual.setChild v c).GivingNumber
      = if c.isNamed "giving_number" = true then c.text else v.GivingNumber := by
  cases c with
  | element n a cs =>
    simp only [Individual.setChild, xml.Node.isNamed, xml.Node.into, xml.Node.text,
      xml.Node.children, beq_iff_eq]
    by_cases hn : n.Local = "giving_number"
    · simp [hn]
    · simp only [apply_ite Individual.GivingNumber, hn, if_false, ite_self]
  | charData d => rfl
  | procInst t ver enc => rfl
  | readError => rfl

theorem all_Individual_GivingNumber (v : Individual) (L : List xml.Node) (hok : xml.ok L) :
    (xml.decodeAll Individual.unmarshal v L).GivingNumber
      = ((xml.reach ["giving_number"] L).map xml.Node.text).getLast?.getD v.GivingNumber :=
  (all_child Individual.unmarshal Individual.setChild Individual.setAttr into_ok_Individual (fun v => v.GivingNumber)
    (xml.Node.isNamed "giving_number") (fun _ c => c.text) setChild_Individual_GivingNumber setAttr_Individual_GivingNumber L hok v).trans
    (foldl_set_last _ _ _)

theorem setAttr_Individual_Campus (v : Individual) (a : xml.Attr) :
    (Individual.setAttr v a).Campus = v.Campus := by
  simp only [Individual.setAttr, apply_ite Individual.Campus, ite_self]

theorem setChild_Individual_Campus (v : Individual) (c : xml.Node) :
    (Individual.setChild v c).Campus
      = if c.isNamed "campus" = true then c.into IDRef.unmarshal v.Campus else v.Campus := by
  cases c with
  | element n a cs =>
    simp only [Individual.setChild, xml.Node.isNamed, xml.Node.into, xml.Node.text,
      xml.Node.children, beq_iff_eq]
    by_cases hn : n.Local = "campus"
    · simp [hn]
    · simp only [apply_ite Individual.Campus, hn, if_false, ite_self]
  | charData d => rfl
  | procInst t ver enc => rfl
  | readError => rfl

theorem all_Individual_Campus (v : Individual) (L : List xml.Node) (hok : xml.ok L) :
    (xml.decodeAll Individual.unmarshal v L).Campus
      = xml.decodeAll IDRef.unmarshal v.Campus (xml.reach ["campus"] L) :=
  all_child Individual.unmarshal Individual.setChild Individual.setAttr into_ok_Individual (fun v => v.Campus)
    (xml.Node.isNamed "campus") (fun acc c => c.into IDRef.unmarshal acc) setChild_Individual_Campus setAttr_Individual_Campus L hok v

theorem setAttr_Individual_Family (v : Individual) (a : xml.Attr) :
    (Individual.setAttr v a).Family = v.Family := by
  simp only [Individual.setAttr, apply_ite Individual.Family, ite_self]

theorem setChild_Individual_Family (v : Individual) (c : xml.Node) :
    (Individual.setChild v c).Family
      = if c.isNamed "family" = true then c.into IDRef.unmarshal v.Family else v.Family := by
  cases c with
  | element n a cs =>
    simp only [Individual.setChild, xml.Node.isNamed, xml.Node.into, xml.Node.text,
      xml.Node.children, beq_iff_eq]
    by_cases hn : n.Local = "family"
    · simp [hn]
    · simp only [apply_ite Individual.Family, hn, if_false, ite_self]
  | charData d => rfl
  | procInst t ver enc => rfl
  | readError => rfl

theorem all_Individual_Family (v : Individual) (L : List xml.Node) (hok : xml.ok L) :
    (xml.decodeAll Individual.unmarshal v L).Family
      = xml.decodeAll IDRef.unmarshal v.Family (xml.reach ["family"] L) :=
  all_child Individual.unmarshal Individual.setChild Individual.setAttr into_ok_Individual (fun v => v.Family)
    (xml.Node.isNamed "family") (fun acc c => c.into IDRef.unmarshal acc) setChild_Individual_Family setAttr_Individual_Family L hok v

theorem setAttr_Individual_FamilyImage (v : Individual) (a : xml.Attr) :
    (Individual.setAttr v a).FamilyImage = v.FamilyImage := by
  simp only [Individual.setAttr, apply_ite Individual.FamilyImage, ite_self]

theorem setChild_Individual_FamilyImage (v : Individual) (c : xml.Node) :
    (Individual.setChild v c).FamilyImage
      = if c.isNamed "family_image" = true then c.text else v.FamilyImage := by
  cases c with
  | element n a cs =>
    simp only [Individual.setChild, xml.Node.isNamed, xml.Node.into, xml.Node.text,
      xml.Node.children, beq_iff_eq]
    by_cases hn : n.Local = "family_image"
    · simp [hn]
    · simp only [apply_ite Individual.FamilyImage, hn, if_false, ite_self]
  | charData d => rfl
  | procInst t ver enc => rfl
  | readError => rfl

theorem all_Individual_FamilyImage (v : Individual) (L : List xml.Node) (hok : xml.ok L) :
    (xml.decodeAll Individual.unmarshal v L).FamilyImage
      = ((xml.reach ["family_image"] L).map xml.Node.text).getLast?.getD v.FamilyImage :=
  (all_child Individual.unmarshal Individual.setChild Individual.setAttr into_ok_Individual (fun v => v.FamilyImage)
    (xml.Node.isNamed "family_image") (fun _ c => c.text) setChild_Individual_FamilyImage setAttr_Individual_FamilyImage L hok v).trans
    (foldl_set_last _ _ _)

theorem setAttr_Individual_FamilyPosition (v : Individual) (a : xml.Attr) :
    (Individual.setAttr v a).FamilyPosition = v.FamilyPosition := by
  simp only [Individual.setAttr, apply_ite Individual.FamilyPosition, ite_self]

theorem setChild_Individual_FamilyPosition (v : Individual) (c : xml.Node) :
    (Individual.setChild v c).FamilyPosition
      = if c.isNamed "family_position" = true then c.text else v.FamilyPosition := by
  cases c with
  | element n a cs =>
    simp only [Individual.setChild, xml.Node.isNamed, xml.Node.into, xml.Node.text,
      xml.Node.children, beq_iff_eq]
    by_cases hn : n.Local = "family_position"
    · simp [hn]
    · simp only [apply_ite Individual.FamilyPosition, hn, if_false, ite_self]
  | charData d => rfl
  | procInst t ver enc => rfl
  | readError => rfl

theorem all_Individual_FamilyPosition (v : Individual) (L : List xml.Node) (hok : xml.ok L) :
    (xml.decodeAll Individual.unmarshal v L).FamilyPosition
      = ((xml.reach ["family_position"] L).map xml.Node.text).getLast?.getD v.FamilyPosition :=
  (all_child Individual.unmarshal Individual.setChild Individual.setAttr into_ok_Individual (fun v => v.FamilyPosition)
    (xml.Node.isNamed "family_position") (fun _ c => c.text) setChild_Individual_FamilyPosition setAttr_Individual_FamilyPosition L hok v).trans
    (foldl_set_last _ _ _)

theorem setAttr_Individual_FamilyMembers (v : Individual) (a : xml.Attr) :
    (Individual.setAttr v a).FamilyMembers = v.FamilyMembers := by
  simp only [Individual.setAttr, apply_ite Individual.FamilyMembers, ite_self]

theorem setChild_Individual_FamilyMembers (v : Individual) (c : xml.Node) :
    (Individual.setChild v c).FamilyMembers
      = if c.isNamed "family_members" = true then c.text else v.FamilyMembers := by
  cases c with
  | element n a cs =>
    simp only [Individual.setChild, xml.Node.isNamed, xml.Node.into, xml.Node.text,
      xml.Node.children, beq_iff_eq]
    by_cases hn : n.Local = "family_members"
    · simp [hn]
    · simp only [apply_ite Individual.FamilyMembers, hn, if_false, ite_self]
  | charData d => rfl
  | procInst t ver enc => rfl
  | readError => rfl

theorem all_Individual_FamilyMembers (v : Individual) (L : List xml.Node) (hok : xml.ok L) :
    (xml.decodeAll Individual.unmarshal v L).FamilyMembers
      = ((xml.reach ["family_members"] L).map xml.Node.text).getLast?.getD v.FamilyMembers :=
  (all_child Individual.unmarshal Individual.setChild Individual.setAttr into_ok_Individual (fun v => v.FamilyMembers)
    (xml.Node.isNamed "family_members") (fun _ c => c.text) setChild_Individual_FamilyMembers setAttr_Individual_FamilyMembers L hok v).trans
    (foldl_set_last _ _ _)

theorem setAttr_Individual_FirstName (v : Individual) (a : xml.Attr) :
    (Individual.setAttr v a).FirstName = v.FirstName := by
  simp only [Individual.setAttr, apply_ite Individual.FirstName, ite_self]

theorem setChild_Individual_FirstName (v : Individual) (c : xml.Node) :
    (Individual.setChild v c).FirstName
      = if c.isNamed "first_name" = true then c.text else v.FirstName := by
  cases c with
  | element n a cs =>
    simp only [Individual.setChild, xml.Node.isNamed, xml.Node.into, xml.Node.text,
      xml.Node.children, beq_iff_eq]
    by_cases hn : n.Local = "first_name"
    · simp [hn]
    · simp only [apply_ite Individual.FirstName, hn, if_false, ite_self]
  | charData d => rfl
  | procInst t ver enc => rfl
  | readError => rfl

theorem all_Individual_FirstName (v : Individual) (L : List xml.Node) (hok : xml.ok L) :
    (xml.decodeAll Individual.unmarshal v L).FirstName
      = ((xml.reach ["first_name"] L).map xml.Node.text).getLast?.getD v.FirstName :=
  (all_child Individual.unmarshal Individual.setChild Individual.setAttr into_ok_Individual (fun v => v.FirstName)
    (xml.Node.isNamed "first_name") (fun _ c => c.text) setChild_Individual_FirstName setAttr_Individual_FirstName L hok v).trans
    (foldl_set_last _ _ _)

theorem setAttr_Individual_LastName (v : Individual) (a : xml.Attr) :
    (Individual.setAttr v a).LastName = v.LastName := by
  simp only [Individual.setAttr, apply_ite Individual.LastName, ite_self]

theorem setChild_Individual_LastName (v : Individual) (c : xml.Node) :
    (Individual.setChild v c).LastName
      = if c.isNamed "last_name" = true then c.text else v.LastName := by
  cases c with
  | element n a cs =>
    simp only [Individual.setChild, xml.Node.isNamed, xml.Node.into, xml.Node.text,
      xml.Node.children, beq_iff_eq]
    by_cases hn : n.Local = "last_name"
    · simp [hn]
    · simp only [apply_ite Individual.LastName, hn, if_false, ite_self]
  | charData d => rfl
  | procInst t ver enc => rfl
  | readError => rfl

theorem all_Individual_LastName (v : Individual) (L : List xml.Node) (hok : xml.ok L) :
    (xml.decodeAll Individual.unmarshal v L).LastName
      = ((xml.reach ["last_name"] L).map xml.Node.text).getLast?.getD v.LastName :=
  (all_child Individual.unmarshal Individual.setChild Individual.setAttr into_ok_Individual (fun v => v.LastName)
    (xml.Node.isNamed "last_name") (fun _ c => c.text) setChild_Individual_LastName setAttr_Individual_LastName L hok v).trans
    (foldl_set_last _ _ _)

theorem setAttr_Individual_MiddleName (v : Individual) (a : xml.Attr) :
    (Individual.setAttr v a).MiddleName = v.MiddleName := by
  simp only [Individual.setAttr, apply_ite Individual.MiddleName, ite_self]

theorem setChild_Individual_MiddleName (v : Individual) (c : xml.Node) :
    (Individual.setChild v c).MiddleName
      = if c.isNamed "middle_name" = true then c.text else v.MiddleName := by
  cases c with
  | element n a cs =>
    simp only [Individual.setChild, xml.Node.isNamed, xml.Node.into, xml.Node.text,
      xml.Node.children, beq_iff_eq]
    by_cases hn : n.Local = "middle_name"
    · simp [hn]
    · simp only [apply_ite Individual.MiddleName, hn, if_false, ite_self]
  | charData d => rfl
  | procInst t ver enc => rfl
  | readError => rfl

theorem all_Individual_MiddleName (v : Individual) (L : List xml.Node) (hok : xml.ok L) :
    (xml.decodeAll Individual.unmarshal v L).MiddleName
      = ((xml.reach ["middle_name"] L).map xml.Node.text).getLast?.getD v.MiddleName :=
  (all_child Individual.unmarshal Individual.setChild Individual.setAttr into_ok_Individual (fun v => v.MiddleName)
    (xml.Node.isNamed "middle_name") (fun _ c => c.text) setChild_Individual_MiddleName setAttr_Individual_MiddleName L hok v).trans
    (foldl_set_last _ _ _)

theorem setAttr_Individual_LegalFirstName (v : Individual) (a : xml.Attr) :
    (Individual.setAttr v a).LegalFirstName = v.LegalFirstName := by
  simp only [Individual.setAttr, apply_ite Individual.LegalFirstName, ite_self]

theorem setChild_Individual_LegalFirstName (v : Individual) (c : xml.Node) :
    (Individual.setChild v c).LegalFirstName
      = if c.isNamed "legal_first_name" = true then c.text else v.LegalFirstName := by
  cases c with
  | element n a cs =>
    simp only [Individual.setChild, xml.Node.isNamed, xml.Node.into, xml.Node.text,
      xml.Node.children, beq_iff_eq]
    by_cases hn : n.Local = "legal_first_name"
    · simp [hn]
    · simp only [apply_ite Individual.LegalFirstName, hn, if_false, ite_self]
  | charData d => rfl
  | procInst t ver enc => rfl
  | readError => rfl

theorem all_Individual_LegalFirstName (v : Individual) (L : List xml.Node) (hok : xml.ok L) :
    (xml.decodeAll Individual.unmarshal v L).LegalFirstName
      = ((xml.reach ["legal_first_name"] L).map xml.Node.text).getLast?.getD v.LegalFirstName :=
  (all_child Individual.unmarshal Individual.setChild Individual.setAttr into_ok_Individual (fun v => v.LegalFirstName)
    (xml.Node.isNamed "legal_first_name") (fun _ c => c.text) setChild_Individual_LegalFirstName setAttr_Individual_LegalFirstName L hok v).trans
    (foldl_set_last _ _ _)

theorem setAttr_Individual_FullName (v : Individual) (a : xml.Attr) :
    (Individual.setAttr v a).FullName = v.FullName := by
  simp only [Individual.setAttr, apply_ite Individual.FullName, ite_self]

theorem setChild_Individual_FullName (v : Individual) (c : xml.Node) :
    (Individual.setChild v c).FullName
      = if c.isNamed "full_name" = true then c.text else v.FullName := by
  cases c with
  | element n a cs =>
    simp only [Individual.setChild, xml.Node.isNamed, xml.Node.into, xml.Node.text,
      xml.Node.children, beq_iff_eq]
    by_cases hn : n.Local = "full_name"
    · simp [hn]
    · simp only [apply_ite Individual.FullName, hn, if_false, ite_self]
  | charData d => rfl
  | procInst t ver enc => rfl
  | readError => rfl

theorem all_Individual_FullName (v : Individual) (L : List xml.Node) (hok : xml.ok L) :
    (xml.decodeAll Individual.unmarshal v L).FullName
      = ((xml.reach ["full_name"] L).map xml.Node.text).getLast?.getD v.FullName :=
  (all_child Individual.unmarshal Individual.setChild Individual.setAttr into_ok_Individual (fun v => v.FullName)
    (xml.Node.isNamed "full_name") (fun _ c => c.text) setChild_Individual_FullName setAttr_Individual_FullName L hok v).trans
    (foldl_set_last _ _ _)

theorem setAttr_Individual_Salutation (v : Individual) (a : xml.Attr) :
    (Individual.setAttr v a).Salutation = v.Salutation := by
  simp only [Individual.setAttr, apply_ite Individual.Salutation, ite_self]

theorem setChild_Individual_Salutation (v : Individual) (c : xml.Node) :
    (Individual.setChild v c).Salutation
      = if c.isNamed "salutation" = true then c.text else v.Salutation := by
  cases c with
  | element n a cs =>
    simp only [Individual.setChild, xml.Node.isNamed, xml.Node.into, xml.Node.text,
      xml.Node.children, beq_iff_eq]
    by_cases hn : n.Local = "salutation"
    · simp [hn]
    · simp only [apply_ite Individual.Salutation, hn, if_false, ite_self]
  | charData d => rfl
  | procInst t ver enc => rfl
  | readError => rfl

theorem all_Individual_Salutation (v : Individual) (L : List xml.Node) (hok : xml.ok L) :
    (xml.decodeAll Individual.unmarshal v L).Salutation
      = ((xml.reach ["salutation"] L).map xml.Node.text).getLast?.getD v.Salutation :=
  (all_child Individual.unmarshal Individual.setChild Individual.setAttr into_ok_Individual (fun v => v.Salutation)
    (xml.Node.isNamed "salutation") (fun _ c => c.text) setChild_Individual_Salutation setAttr_Individual_Salutation L hok v).trans
    (foldl_set_last _ _ _)

theorem setAttr_Individual_Suffix (v : Individual) (a : xml.Attr) :
    (Individual.setAttr v a).Suffix = v.Suffix := by
  simp only [Individual.setAttr, apply_ite Individual.Suffix, ite_self]

theorem setChild_Individual_Suffix (v : Individual) (c : xml.Node) :
    (Individual.setChild v c).Suffix
      = if c.isNamed "suffix" = true then c.text else v.Suffix := by
  cases c with
  | element n a cs =>
    simp only [Individual.setChild, xml.Node.isNamed, xml.Node.into, xml.Node.text,
      xml.Node.children, beq_iff_eq]
    by_cases hn : n.Local = "suffix"
    · simp [hn]
    · simp only [apply_ite Individual.Suffix, hn, if_false, ite_self]
  | charData d => rfl
  | procInst t ver enc => rfl
  | readError => rfl

theorem all_Individual_Suffix (v : Individual) (L : List xml.Node) (hok : xml.ok L) :
    (xml.decodeAll Individual.unmarshal v L).Suffix
      = ((xml.reach ["suffix"] L).map xml.Node.text).getLast?.getD v.Suffix :=
  (all_child Individual.unmarshal Individual.setChild Individual.setAttr into_ok_Individual (fun v => v.Suffix)
    (xml.Node.isNamed "suffix") (fun _ c => c.text) setChild_Individual_Suffix setAttr_Individual_Suffix L hok v).trans
    (foldl_set_last _ _ _)

theorem setAttr_Individual_Image (v : Individual) (a : xml.Attr) :
    (Individual.setAttr v a).Image = v.Image := by
  simp only [Individual.setAttr, apply_ite Individual.Image, ite_self]

theorem setChild_Individual_Image (v : Individual) (c : xml.Node) :
    (Individual.setChild v c).Image
      = if c.isNamed "image" = true then c.text else v.Image := by
  cases c with
  | element n a cs =>
    simp only [Individual.setChild, xml.Node.isNamed, xml.Node.into, xml.Node.text,
      xml.Node.children, beq_iff_eq]
    by_cases hn : n.Local = "image"
    · simp [hn]
    · simp only [apply_ite Individual.Image, hn, if_false, ite_self]
  | charData d => rfl
  | procInst t ver enc => rfl
  | readError => rfl

theorem all_Individual_Image (v : Individual) (L : List xml.Node) (hok : xml.ok L) :
    (xml.decodeAll Individual.unmarshal v L).Image
      = ((xml.reach ["image"] L).map xml.Node.text).getLast?.getD v.Image :=
  (all_child Individual.unmarshal Individual.setChild Individual.setAttr into_ok_Individual (fun v => v.Image)
    (xml.Node.isNamed "image") (fun _ c => c.text) setChild_Individual_Image setAttr_Individual_Image L hok v).trans
    (foldl_set_last _ _ _)

theorem setAttr_Individual_Email (v : Individual) (a : xml.Attr) :
    (Individual.setAttr v a).Email = v.Email := by
  simp only [Individual.setAttr, apply_ite Individual.Email, ite_self]

theorem setChild_Individual_Email (v : Individual) (c : xml.Node) :
    (Individual.setChild v c).Email
      = if c.isNamed "email" = true then c.text else v.Email := by
  cases c with
  | element n a cs =>
    simp only [Individual.setChild, xml.Node.isNamed, xml.Node.into, xml.Node.text,
      xml.Node.children, beq_iff_eq]
    by_cases hn : n.Local = "email"
    · simp [hn]
    · simp only [apply_ite Individual.Email, hn, if_false, ite_self]
  | charData d => rfl
  | procInst t ver enc => rfl
  | readError => rfl

theorem all_Individual_Email (v : Individual) (L : List xml.Node) (hok : xml.ok L) :
    (xml.decodeAll Individual.unmarshal v L).Email
      = ((xml.reach ["email"] L).map xml.Node.text).getLast?.getD v.Email :=
  (all_child Individual.unmarshal Individual.setChild Individual.setAttr into_ok_Individual (fun v => v.Email)
    (xml.Node.isNamed "email") (fun _ c => c.text) setChild_Individual_Email setAttr_Individual_Email L hok v).trans
    (foldl_set_last _ _ _)

theorem setAttr_Individual_Allergies (v : Individual) (a : xml.Attr) :
    (Individual.setAttr v a).Allergies = v.Allergies := by
  simp only [Individual.setAttr, apply_ite Individual.Allergies, ite_self]

theorem setChild_Individual_Allergies (v : Individual) (c : xml.Node) :
    (Individual.setChild v c).Allergies
      = if c.isNamed "allergies" = true then c.text else v.Allergies := by
  cases c with
  | element n a cs =>
    simp only [Individual.setChild, xml.Node.isNamed, xml.Node.into, xml.Node.text,
      xml.Node.children, beq_iff_eq]
    by_cases hn : n.Local = "allergies"
    · simp [hn]
    · simp only [apply_ite Individual.Allergies, hn, if_false, ite_self]
  | charData d => rfl
  | procInst t ver enc => rfl
  | readError => rfl

theorem all_Individual_Allergies (v : Individual) (L : List xml.Node) (hok : xml.ok L) :
    (xml.decodeAll Individual.unmarshal v L).Allergies
      = ((xml.reach ["allergies"] L).map xml.Node.text).getLast?.getD v.Allergies :=
  (all_child Individual.unmarshal Individual.setChild Individual.setAttr into_ok_Individual (fun v => v.Allergies)
    (xml.Node.isNamed "allergies") (fun _ c => c.text) setChild_Individual_Allergies setAttr_Individual_Allergies L hok v).trans
    (foldl_set_last _ _ _)

theorem setAttr_Individual_ConfirmedNoAllergies (v : Individual) (a : xml.Attr) :
    (Individual.setAttr v a).ConfirmedNoAllergies = v.ConfirmedNoAllergies := by
  simp only [Individual.setAttr, apply_ite Individual.ConfirmedNoAllergies, ite_self]

theorem setChild_Individual_ConfirmedNoAllergies (v : Individual) (c : xml.Node) :
    (Individual.setChild v c).ConfirmedNoAllergies
      = if c.isNamed "confirmed_no_allergies" = true then c.text else v.ConfirmedNoAllergies := by
  cases c with
  | element n a cs =>
    simp only [Individual.setChild, xml.Node.isNamed, xml.Node.into, xml.Node.text,
      xml.Node.children, beq_iff_eq]
    by_cases hn : n.Local = "confirmed_no_allergies"
    · simp [hn]
    · simp only [apply_ite Individual.ConfirmedNoAllergies, hn, if_false, ite_self]
  | charData d => rfl
  | procInst t ver enc => rfl
  | readError => rfl

theorem all_Individual_ConfirmedNoAllergies (v : Individual) (L : List xml.Node) (hok : xml.ok L) :
    (xml.decodeAll Individual.unmarshal v L).ConfirmedNoAllergies
      = ((xml.reach ["confirmed_no_allergies"] L).map xml.Node.text).getLast?.getD v.ConfirmedNoAllergies :=
  (all_child Individual.unmarshal Individual.setChild Individual.setAttr into_ok_Individual (fun v => v.ConfirmedNoAllergies)
    (xml.Node.isNamed "confirmed_no_allergies") (fun _ c => c.text) setChild_Individual_ConfirmedNoAllergies setAttr_Individual_ConfirmedNoAllergies L hok v).trans
    (foldl_set_last _ _ _)

theorem setAttr_Individual_Addresses (v : Individual) (a : xml.Attr) :
    (Individual.setAttr v a).Addresses = v.Addresses := by
  simp only [Individual.setAttr, apply_ite Individual.Addresses, ite_self]

theorem setChild_Individual_Addresses (v : Individual) (c : xml.Node) :
    (Individual.setChild v c).Addresses
      = if c.isNamed "addresses" = true then c.into Addresses.unmarshal v.Addresses else v.Addresses := by
  cases c with
  | element n a cs =>
    simp only [Individual.setChild, xml.Node.isNamed, xml.Node.into, xml.Node.text,
      xml.Node.children, beq_iff_eq]
    by_cases hn : n.Local = "addresses"
    · simp [hn]
    · simp only [apply_ite Individual.Addresses, hn, if_false, ite_self]
  | charData d => rfl
  | procInst t ver enc => rfl
  | readError => rfl

theorem all_Individual_Addresses (v : Individual) (L : List xml.Node) (hok : xml.ok L) :
    (xml.decodeAll Individual.unmarshal v L).Addresses
      = xml.decodeAll Addresses.unmarshal v.Addresses (xml.reach ["addresses"] L) :=
  all_child Individual.unmarshal Individual.setChild Individual.setAttr into_ok_Individual (fun v => v.Addresses)
    (xml.Node.isNamed "addresses") (fun acc c => c.into Addresses.unmarshal acc) setChild_Individual_Addresses setAttr_Individual_Addresses L hok v

theorem setAttr_Individual_Phones (v : Individual) (a : xml.Attr) :
    (Individual.setAttr v a).Phones = v.Phones := by
  simp only [Individual.setAttr, apply_ite Individual.Phones, ite_self]

theorem setChild_Individual_Phones (v : Individual) (c : xml.Node) :
    (Individual.setChild v c).Phones
      = if c.isNamed "phones" = true then c.into Phones.unmarshal v.Phones else v.Phones := by
  cases c with
  | element n a cs =>
    simp only [Individual.setChild, xml.Node.isNamed, xml.Node.into, xml.Node.text,
      xml.Node.children, beq_iff_eq]
    by_cases hn : n.Local = "phones"
    · simp [hn]
    · simp only [apply_ite Individual.Phones, hn, if_false, ite_self]
  | charData d => rfl
  | procInst t ver enc => rfl
  | readError => rfl

theorem all_Individual_Phones (v : Individual) (L : List xml.Node) (hok : xml.ok L) :
    (xml.decodeAll Individual.unmarshal v L).Phones
      = xml.decodeAll Phones.unmarshal v.Phones (xml.reach ["phones"] L) :=
  all_child Individual.unmarshal Individual.setChild Individual.setAttr into_ok_Individual (fun v => v.Phones)
    (xml.Node.isNamed "phones") (fun acc c => c.into Phones.unmarshal acc) setChild_Individual_Phones setAttr_Individual_Phones L hok v

theorem setAttr_Individual_MobileCarrier (v : Individual) (a : xml.Attr) :
    (Individual.setAttr v a).MobileCarrier = v.MobileCarrier := by
  simp only [Individual.setAttr, apply_ite Individual.MobileCarrier, ite_self]

theorem setChild_Individual_MobileCarrier (v : Individual) (c : xml.Node) :
    (Individual.setChild v c).MobileCarrier
      = if c.isNamed "mobile_carrier" = true then c.into IDRef.unmarshal v.MobileCarrier else v.MobileCarrier := by
  cases c with
  | element n a cs =>
    simp only [Individual.setChild, xml.Node.isNamed, xml.Node.into, xml.Node.text,
      xml.Node.children, beq_iff_eq]
    by_cases hn : n.Local = "mobile_carrier"
    · simp [hn]
    · simp only [apply_ite Individual.MobileCarrier, hn, if_false, ite_self]
  | charData d => rfl
  | procInst t ver enc => rfl
  | readError => rfl

theorem all_Individual_MobileCarrier (v : Individual) (L : List xml.Node) (hok : xml.ok L) :
    (xml.decodeAll Individual.unmarshal v L).MobileCarrier
      = xml.decodeAll IDRef.unmarshal v.MobileCarrier (xml.reach ["mobile_carrier"] L) :=
  all_child Individual.unmarshal Individual.setChild Individual.setAttr into_ok_Individual (fun v => v.MobileCarrier)
    (xml.Node.isNamed "mobile_carrier") (fun acc c => c.into IDRef.unmarshal acc) setChild_Individual_MobileCarrier setAttr_Individual_MobileCarrier L hok v

theorem setAttr_Individual_Gender (v : Individual) (a : xml.Attr) :
    (Individual.setAttr v a).Gender = v.Gender := by
  simp only [Individual.setAttr, apply_ite Individual.Gender, ite_self]

theorem setChild_Individual_Gender (v : Individual) (c : xml.Node) :
    (Individual.setChild v c).Gender
      = if c.isNamed "gender" = true then c.text else v.Gender := by
  cases c with
  | element n a cs =>
    simp only [Individual.setChild, xml.Node.isNamed, xml.Node.into, xml.Node.text,
      xml.Node.children, beq_iff_eq]
    by_cases hn : n.Local = "gender"
    · simp [hn]
    · simp only [apply_ite Individual.Gender, hn, if_false, ite_self]
  | charData d => rfl
  | procInst t ver enc => rfl
  | readError => rfl

theorem all_Individual_Gender (v : Individual) (L : List xml.Node) (hok : xml.ok L) :
    (xml.decodeAll Individual.unmarshal v L).Gender
      = ((xml.reach ["gender"] L).map xml.Node.text).getLast?.getD v.Gender :=
  (all_child Individual.unmarshal Individual.setChild Individual.setAttr into_ok_Individual (fun v => v.Gender)
    (xml.Node.isNamed "gender") (fun _ c => c.text) setChild_Individual_Gender setAttr_Individual_Gender L hok v).trans
    (foldl_set_last _ _ _)

theorem setAttr_Individual_MaritalStatus (v : Individual) (a : xml.Attr) :
    (Individual.setAttr v a).MaritalStatus = v.MaritalStatus := by
  simp only [Individual.setAttr, apply_ite Individual.MaritalStatus, ite_self]

theorem setChild_Individual_MaritalStatus (v : Individual) (c : xml.Node) :
    (Individual.setChild v c).MaritalStatus
      = if c.isNamed "marital_status" = true then c.text else v.MaritalStatus := by
  cases c with
  | element n a cs =>
    simp only [Individual.setChild, xml.Node.isNamed, xml.Node.into, xml.Node.text,
      xml.Node.children, beq_iff_eq]
    by_cases hn : n.Local = "marital_status"
    · simp [hn]
    · simp only [apply_ite Individual.MaritalStatus, hn, if_false, ite_self]
  | charData d => rfl
  | procInst t ver enc => rfl
  | readError => rfl

theorem all_Individual_MaritalStatus (v : Individual) (L : List xml.Node) (hok : xml.ok L) :
    (xml.decodeAll Individual.unmarshal v L).MaritalStatus
      = ((xml.reach ["marital_status"] L).map xml.Node.text).getLast?.getD v.MaritalStatus :=
  (all_child Individual.unmarshal Individual.setChild Individual.setAttr into_ok_Individual (fun v => v.MaritalStatus)
    (xml.Node.isNamed "marital_status") (fun _ c => c.text) setChild_Individual_MaritalStatus setAttr_Individual_MaritalStatus L hok v).trans
    (foldl_set_last _ _ _)

theorem setAttr_Individual_Birthday (v : Individual) (a : xml.Attr) :
    (Individual.setAttr v a).Birthday = v.Birthday := by
  simp only [Individual.setAttr, apply_ite Individual.Birthday, ite_self]

theorem setChild_Individual_Birthday (v : Individual) (c : xml.Node) :
    (Individual.setChild v c).Birthday
      = if c.isNamed "birthday" = true then c.text else v.Birthday := by
  cases c with
  | element n a cs =>
    simp only [Individual.setChild, xml.Node.isNamed, xml.Node.into, xml.Node.text,
      xml.Node.children, beq_iff_eq]
    by_cases hn : n.Local = "birthday"
    · simp [hn]
    · simp only [apply_ite Individual.Birthday, hn, if_false, ite_self]
  | charData d => rfl
  | procInst t ver enc => rfl
  | readError => rfl

theorem all_Individual_Birthday (v : Individual) (L : List xml.Node) (hok : xml.ok L) :
    (xml.decodeAll Individual.unmarshal v L).Birthday
      = ((xml.reach ["birthday"] L).map xml.Node.text).getLast?.getD v.Birthday :=
  (all_child Individual.unmarshal Individual.setChild Individual.setAttr into_ok_Individual (fun v => v.Birthday)
    (xml.Node.isNamed "birthday") (fun _ c => c.text) setChild_Individual_Birthday setAttr_Individual_Birthday L hok v).trans
    (foldl_set_last _ _ _)

theorem setAttr_Individual_Anniversary (v : Individual) (a : xml.Attr) :
    (Individual.setAttr v a).Anniversary = v.Anniversary := by
  simp only [Individual.setAttr, apply_ite Individual.Anniversary, ite_self]

theorem setChild_Individual_Anniversary (v : Individual) (c : xml.Node) :
    (Individual.setChild v c).Anniversary
      = if c.isNamed "anniversary" = true then c.text else v.Anniversary := by
  cases c with
  | element n a cs =>
    simp only [Individual.setChild, xml.Node.isNamed, xml.Node.into, xml.Node.text,
      xml.Node.children, beq_iff_eq]
    by_cases hn : n.Local = "anniversary"
    · simp [hn]
    · simp only [apply_ite Individual.Anniversary, hn, if_false, ite_self]
  | charData d => rfl
  | procInst t ver enc => rfl
  | readError => rfl

theorem all_Individual_Anniversary (v : Individual) (L : List xml.Node) (hok : xml.ok L) :
    (xml.decodeAll Individual.unmarshal v L).Anniversary
      = ((xml.reach ["anniversary"] L).map xml.Node.text).getLast?.getD v.Anniversary :=
  (all_child Individual.unmarshal Individual.setChild Individual.setAttr into_ok_Individual (fun v => v.Anniversary)
    (xml.Node.isNamed "anniversary") (fun _ c => c.text) setChild_Individual_Anniversary setAttr_Individual_Anniversary L hok v).trans
    (foldl_set_last _ _ _)

theorem setAttr_Individual_Baptized (v : Individual) (a : xml.Attr) :
    (Individual.setAttr v a).Baptized = v.Baptized := by
  simp only [Individual.setAttr, apply_ite Individual.Baptized, ite_self]

theorem setChild_Individual_Baptized (v : Individual) (c : xml.Node) :
    (Individual.setChild v c).Baptized
      = if c.isNamed "baptized" = true then c.text else v.Baptized := by
  cases c with
  | element n a cs =>
    simp only [Individual.setChild, xml.Node.isNamed, xml.Node.into, xml.Node.text,
      xml.Node.children, beq_iff_eq]
    by_cases hn : n.Local = "baptized"
    · simp [hn]
    · simp only [apply_ite Individual.Baptized, hn, if_false, ite_self]
  | charData d => rfl
  | procInst t ver enc => rfl
  | readError => rfl

theorem all_Individual_Baptized (v : Individual) (L : List xml.Node) (hok : xml.ok L) :
    (xml.decodeAll Individual.unmarshal v L).Baptized
      = ((xml.reach ["baptized"] L).map xml.Node.text).getLast?.getD v.Baptized :=
  (all_child Individual.unmarshal Individual.setChild Individual.setAttr into_ok_Individual (fun v => v.Baptized)
    (xml.Node.isNamed "baptized") (fun _ c => c.text) setChild_Individual_Baptized setAttr_Individual_Baptized L hok v).trans
    (foldl_set_last _ _ _)

theorem setAttr_Individual_Deceased (v : Individual) (a : xml.Attr) :
    (Individual.setAttr v a).Deceased = v.Deceased := by
  simp only [Individual.setAttr, apply_ite Individual.Deceased, ite_self]

theorem setChild_Individual_Deceased (v : Individual) (c : xml.Node) :
    (Individual.setChild v c).Deceased
      = if c.isNamed "deceased" = true then c.text else v.Deceased := by
  cases c with
  | element n a cs =>
    simp only [Individual.setChild, xml.Node.isNamed, xml.Node.into, xml.Node.text,
      xml.Node.children, beq_iff_eq]
    by_cases hn : n.Local = "deceased"
    · simp [hn]
    · simp only [apply_ite Individual.Deceased, hn, if_false, ite_self]
  | charData d => rfl
  | procInst t ver enc => rfl
  | readError => rfl

theorem all_Individual_Deceased (v : Individual) (L : List xml.Node) (hok : xml.ok L) :
    (xml.decodeAll Individual.unmarshal v L).Deceased
      = ((xml.reach ["deceased"] L).map xml.Node.text).getLast?.getD v.Deceased :=
  (all_child Individual.unmarshal Individual.setChild Individual.setAttr into_ok_Individual (fun v => v.Deceased)
    (xml.Node.isNamed "deceased") (fun _ c => c.text) setChild_Individual_Deceased setAttr_Individual_Deceased L hok v).trans
    (foldl_set_last _ _ _)

theorem setAttr_Individual_MembershipType (v : Individual) (a : xml.Attr) :
    (Individual.setAttr v a).MembershipType = v.MembershipType := by
  simp only [Individual.setAttr, apply_ite Individual.MembershipType, ite_self]

theorem setChild_Individual_MembershipType (v : Individual) (c : xml.Node) :
    (Individual.setChild v c).MembershipType
      = if c.isNamed "membership_type" = true then c.into IDRef.unmarshal v.MembershipType else v.MembershipType := by
  cases c with
  | element n a cs =>
    simp only [Individual.setChild, xml.Node.isNamed, xml.Node.into, xml.Node.text,
      xml.Node.children, beq_iff_eq]
    by_cases hn : n.Local = "membership_type"
    · simp [hn]
    · simp only [apply_ite Individual.MembershipType, hn, if_false, ite_self]
  | charData d => rfl
  | procInst t ver enc => rfl
  | readError => rfl

theorem all_Individual_MembershipType (v : Individual) (L : List xml.Node) (hok : xml.ok L) :
    (xml.decodeAll Individual.unmarshal v L).MembershipType
      = xml.decodeAll IDRef.unmarshal v.MembershipType (xml.reach ["membership_type"] L) :=
  all_child Individual.unmarshal Individual.setChild Individual.setAttr into_ok_Individual (fun v => v.MembershipType)
    (xml.Node.isNamed "membership_type") (fun acc c => c.into IDRef.unmarshal acc) setChild_Individual_MembershipType setAttr_Individual_MembershipType L hok v

theorem setAttr_Individual_MembershipDate (v : Individual) (a : xml.Attr) :
    (Individual.setAttr v a).MembershipDate = v.MembershipDate := by
  simp only [Individual.setAttr, apply_ite Individual.MembershipDate, ite_self]

theorem setChild_Individual_MembershipDate (v : Individual) (c : xml.Node) :
    (Individual.setChild v c).MembershipDate
      = if c.isNamed "membership_date" = true then c.text else v.MembershipDate := by
  cases c with
  | element n a cs =>
    simp only [Individual.setChild, xml.Node.isNamed, xml.Node.into, xml.Node.text,
      xml.Node.children, beq_iff_eq]
    by_cases hn : n.Local = "membership_date"
    · simp [hn]
    · simp only [apply_ite Individual.MembershipDate, hn, if_false, ite_self]
  | charData d => rfl
  | procInst t ver enc => rfl
  | readError => rfl

theorem all_Individual_MembershipDate (v : Individual) (L : List xml.Node) (hok : xml.ok L) :
    (xml.decodeAll Individual.unmarshal v L).MembershipDate
      = ((xml.reach ["membership_date"] L).map xml.Node.text).getLast?.getD v.MembershipDate :=
  (all_child Individual.unmarshal Individual.setChild Individual.setAttr into_ok_Individual (fun v => v.MembershipDate)
    (xml.Node.isNamed "membership_date") (fun _ c => c.text) setChild_Individual_MembershipDate setAttr_Individual_MembershipDate L hok v).trans
    (foldl_set_last _ _ _)

theorem setAttr_Individual_MembershipEnd (v : Individual) (a : xml.Attr) :
    (Individual.setAttr v a).MembershipEnd = v.MembershipEnd := by
  simp only [Individual.setAttr, apply_ite Individual.MembershipEnd, ite_self]

theorem setChild_Individual_MembershipEnd (v : Individual) (c : xml.Node) :
    (Individual.setChild v c).MembershipEnd
      = if c.isNamed "membership_end" = true then c.text else v.MembershipEnd := by
  cases c with
  | element n a cs =>
    simp only [Individual.setChild, xml.Node.isNamed, xml.Node.into, xml.Node.text,
      xml.Node.children, beq_iff_eq]
    by_cases hn : n.Local = "membership_end"
    · simp [hn]
    · simp only [apply_ite Individual.MembershipEnd, hn, if_false, ite_self]
  | charData d => rfl
  | procInst t ver enc => rfl
  | readError => rfl

theorem all_Individual_MembershipEnd (v : Individual) (L : List xml.Node) (hok : xml.ok L) :
    (xml.decodeAll Individual.unmarshal v L).MembershipEnd
      = ((xml.reach ["membership_end"] L).map xml.Node.text).getLast?.getD v.MembershipEnd :=
  (all_child Individual.unmarshal Individual.setChild Individual.setAttr into_ok_Individual (fun v => v.MembershipEnd)
    (xml.Node.isNamed "membership_end") (fun _ c => c.text) setChild_Individual_MembershipEnd setAttr_Individual_MembershipEnd L hok v).trans
    (foldl_set_last _ _ _)

theorem setAttr_Individual_ReceiveEmailFromChurch (v : Individual) (a : xml.Attr) :
    (Individual.setAttr v a).ReceiveEmailFromChurch = v.ReceiveEmailFromChurch := by
  simp only [Individual.setAttr, apply_ite Individual.ReceiveEmailFromChurch, ite_self]

theorem setChild_Individual_ReceiveEmailFromChurch (v : Individual) (c : xml.Node) :
    (Individual.setChild v c).ReceiveEmailFromChurch
      = if c.isNamed "receive_email_from_church" = true then c.text else v.ReceiveEmailFromChurch := by
  cases c with
  | element n a cs =>
    simp only [Individual.setChild, xml.Node.isNamed, xml.Node.into, xml.Node.text,
      xml.Node.children, beq_iff_eq]
    by_cases hn : n.Local = "receive_email_from_church"
    · simp [hn]
    · simp only [apply_ite Individual.ReceiveEmailFromChurch, hn, if_false, ite_self]
  | charData d => rfl
  | procInst t ver enc => rfl
  | readError => rfl

theorem all_Individual_ReceiveEmailFromChurch (v : Individual) (L : List xml.Node) (hok : xml.ok L) :
    (xml.decodeAll Individual.unmarshal v L).ReceiveEmailFromChurch
      = ((xml.reach ["receive_email_from_church"] L).map xml.Node.text).getLast?.getD v.ReceiveEmailFromChurch :=
  (all_child Individual.unmarshal Individual.setChild Individual.setAttr into_ok_Individual (fun v => v.ReceiveEmailFromChurch)
    (xml.Node.isNamed "receive_email_from_church") (fun _ c => c.text) setChild_Individual_ReceiveEmailFromChurch setAttr_Individual_ReceiveEmailFromChurch L hok v).trans
    (foldl_set_last _ _ _)

theorem setAttr_Individual_DefaultNewGroupMessages (v : Individual) (a : xml.Attr) :
    (Individual.setAttr v a).DefaultNewGroupMessages = v.DefaultNewGroupMessages := by
  simp only [Individual.setAttr, apply_ite Individual.DefaultNewGroupMessages, ite_self]

theorem setChild_Individual_DefaultNewGroupMessages (v : Individual) (c : xml.Node) :
    (Individual.setChild v c).DefaultNewGroupMessages
      = if c.isNamed "default_new_group_messages" = true then c.text else v.DefaultNewGroupMessages := by
  cases c with
  | element n a cs =>
    simp only [Individual.setChild, xml.Node.isNamed, xml.Node.into, xml.Node.text,
      xml.Node.children, beq_iff_eq]
    by_cases hn : n.Local = "default_new_group_messages"
    · simp [hn]
    · simp only [apply_ite Individual.DefaultNewGroupMessages, hn, if_false, ite_self]
  | charData d => rfl
  | procInst t ver enc => rfl
  | readError => rfl

theorem all_Individual_DefaultNewGroupMessages (v : Individual) (L : List xml.Node) (hok : xml.ok L) :
    (xml.decodeAll Individual.unmarshal v L).DefaultNewGroupMessages
      = ((xml.reach ["default_new_group_messages"] L).map xml.Node.text).getLast?.getD v.DefaultNewGroupMessages :=
  (all_child Individual.unmarshal Individual.setChild Individual.setAttr into_ok_Individual (fun v => v.DefaultNewGroupMessages)
    (xml.Node.isNamed "default_new_group_messages") (fun _ c => c.text) setChild_Individual_DefaultNewGroupMessages setAttr_Individual_DefaultNewGroupMessages L hok v).trans
    (foldl_set_last _ _ _)

theorem setAttr_Individual_DefaultNewGroupComments (v : Individual) (a : xml.Attr) :
    (Individual.setAttr v a).DefaultNewGroupComments = v.DefaultNewGroupComments := by
  simp only [Individual.setAttr, apply_ite Individual.DefaultNewGroupComments, ite_self]

theorem setChild_Individual_DefaultNewGroupComments (v : Individual) (c : xml.Node) :
    (Individual.setChild v c).DefaultNewGroupComments
      = if c.isNamed "default_new_group_comments" = true then c.text else v.DefaultNewGroupComments := by
  cases c with
  | element n a cs =>
    simp only [Individual.setChild, xml.Node.isNamed, xml.Node.into, xml.Node.text,
      xml.Node.children, beq_iff_eq]
    by_cases hn : n.Local = "default_new_group_comments"
    · simp [hn]
    · simp only [apply_ite Individual.DefaultNewGroupComments, hn, if_false, ite_self]
  | charData d => rfl
  | procInst t ver enc => rfl
  | readError => rfl

theorem all_Individual_DefaultNewGroupComments (v : Individual) (L : List xml.Node) (hok : xml.ok L) :
    (xml.decodeAll Individual.unmarshal v L).DefaultNewGroupComments
      = ((xml.reach ["default_new_group_comments"] L).map xml.Node.text).getLast?.getD v.DefaultNewGroupComments :=
  (all_child Individual.unmarshal Individual.setChild Individual.setAttr into_ok_Individual (fun v => v.DefaultNewGroupComments)
    (xml.Node.isNamed "default_new_group_comments") (fun _ c => c.text) setChild_Individual_DefaultNewGroupComments setAttr_Individual_DefaultNewGroupComments L hok v).trans
    (foldl_set_last _ _ _)

theorem setAttr_Individual_DefaultNewGroupDigest (v : Individual) (a : xml.Attr) :
    (Individual.setAttr v a).DefaultNewGroupDigest = v.DefaultNewGroupDigest := by
  simp only [Individual.setAttr, apply_ite Individual.DefaultNewGroupDigest, ite_self]

theorem setChild_Individual_DefaultNewGroupDigest (v : Individual) (c : xml.Node) :
    (Individual.setChild v c).DefaultNewGroupDigest
      = if c.isNamed "default_new_group_digest" = true then c.text else v.DefaultNewGroupDigest := by
  cases c with
  | element n a cs =>
    simp only [Individual.setChild, xml.Node.isNamed, xml.Node.into, xml.Node.text,
      xml.Node.children, beq_iff_eq]
    by_cases hn : n.Local = "default_new_group_digest"
    · simp [hn]
    · simp only [apply_ite Individual.DefaultNewGroupDigest, hn, if_false, ite_self]
  | charData d => rfl
  | procInst t ver enc => rfl
  | readError => rfl

theorem all_Individual_DefaultNewGroupDigest (v : Individual) (L : List xml.Node) (hok : xml.ok L) :
    (xml.decodeAll Individual.unmarshal v L).DefaultNewGroupDigest
      = ((xml.reach ["default_new_group_digest"] L).map xml.Node.text).getLast?.getD v.DefaultNewGroupDigest :=
  (all_child Individual.unmarshal Individual.setChild Individual.setAttr into_ok_Individual (fun v => v.DefaultNewGroupDigest)
    (xml.Node.isNamed "default_new_group_digest") (fun _ c => c.text) setChild_Individual_DefaultNewGroupDigest setAttr_Individual_DefaultNewGroupDigest L hok v).trans
    (foldl_set_last _ _ _)

theorem setAttr_Individual_DefaultNewGroupSms (v : Individual) (a : xml.Attr) :
    (Individual.setAttr v a).DefaultNewGroupSms = v.DefaultNewGroupSms := by
  simp only [Individual.setAttr, apply_ite Individual.DefaultNewGroupSms, ite_self]

theorem setChild_Individual_DefaultNewGroupSms (v : Individual) (c : xml.Node) :
    (Individual.setChild v c).DefaultNewGroupSms
      = if c.isNamed "default_new_group_sms" = true then c.text else v.DefaultNewGroupSms := by
  cases c with
  | element n a cs =>
    simp only [Individual.setChild, xml.Node.isNamed, xml.Node.into, xml.Node.text,
      xml.Node.children, beq_iff_eq]
    by_cases hn : n.Local = "default_new_group_sms"
    · simp [hn]
    · simp only [apply_ite Individual.DefaultNewGroupSms, hn, if_false, ite_self]
  | charData d => rfl
  | procInst t ver enc => rfl
  | readError => rfl

theorem all_Individual_DefaultNewGroupSms (v : Individual) (L : List xml.Node) (hok : xml.ok L) :
    (xml.decodeAll Individual.unmarshal v L).DefaultNewGroupSms
      = ((xml.reach ["default_new_group_sms"] L).map xml.Node.text).getLast?.getD v.DefaultNewGroupSms :=
  (all_child Individual.unmarshal Individual.setChild Individual.setAttr into_ok_Individual (fun v => v.DefaultNewGroupSms)
    (xml.Node.isNamed "default_new_group_sms") (fun _ c => c.text) setChild_Individual_DefaultNewGroupSms setAttr_Individual_DefaultNewGroupSms L hok v).trans
    (foldl_set_last _ _ _)

theorem setAttr_Individual_PrivacySettings (v : Individual) (a : xml.Attr) :
    (Individual.setAttr v a).PrivacySettings = v.PrivacySettings := by
  simp only [Individual.setAttr, apply_ite Individual.PrivacySettings, ite_self]

theorem setChild_Individual_PrivacySettings (v : Individual) (c : xml.Node) :
    (Individual.setChild v c).PrivacySettings
      = if c.isNamed "privacy_settings" = true then c.into PrivacySettings.unmarshal v.PrivacySettings else v.PrivacySettings := by
  cases c with
  | element n a cs =>
    simp only [Individual.setChild, xml.Node.isNamed, xml.Node.into, xml.Node.text,
      xml.Node.children, beq_iff_eq]
    by_cases hn : n.Local = "privacy_settings"
    · simp [hn]
    · simp only [apply_ite Individual.PrivacySettings, hn, if_false, ite_self]
  | charData d => rfl
  | procInst t ver enc => rfl
  | readError => rfl

theorem all_Individual_PrivacySettings (v : Individual) (L : List xml.Node) (hok : xml.ok L) :
    (xml.decodeAll Individual.unmarshal v L).PrivacySettings
      = xml.decodeAll PrivacySettings.unmarshal v.PrivacySettings (xml.reach ["privacy_settings"] L) :=
  all_child Individual.unmarshal Individual.setChild Individual.setAttr into_ok_Individual (fun v => v.PrivacySettings)
    (xml.Node.isNamed "privacy_settings") (fun acc c => c.into PrivacySettings.unmarshal acc) setChild_Individual_PrivacySettings setAttr_Individual_PrivacySettings L hok v

theorem setAttr_Individual_Active (v : Individual) (a : xml.Attr) :
    (Individual.setAttr v a).Active = v.Active := by
  simp only [Individual.setAttr, apply_ite Individual.Active, ite_self]

theorem setChild_Individual_Active (v : Individual) (c : xml.Node) :
    (Individual.setChild v c).Active
      = if c.isNamed "active" = true then c.text else v.Active := by
  cases c with
  | element n a cs =>
    simp only [Individual.setChild, xml.Node.isNamed, xml.Node.into, xml.Node.text,
      xml.Node.children, beq_iff_eq]
    by_cases hn : n.Local = "active"
    · simp [hn]
    · simp only [apply_ite Individual.Active, hn, if_false, ite_self]
  | charData d => rfl
  | procInst t ver enc => rfl
  | readError => rfl

theorem all_Individual_Active (v : Individual) (L : List xml.Node) (hok : xml.ok L) :
    (xml.decodeAll Individual.unmarshal v L).Active
      = ((xml.reach ["active"] L).map xml.Node.text).getLast?.getD v.Active :=
  (all_child Individual.unmarshal Individual.setChild Individual.setAttr into_ok_Individual (fun v => v.Active)
    (xml.Node.isNamed "active") (fun _ c => c.text) setChild_Individual_Active setAttr_Individual_Active L hok v).trans
    (foldl_set_last _ _ _)

theorem setAttr_Individual_Creator (v : Individual) (a : xml.Attr) :
    (Individual.setAttr v a).Creator = v.Creator := by
  simp only [Individual.setAttr, apply_ite Individual.Creator, ite_self]

theorem setChild_Individual_Creator (v : Individual) (c : xml.Node) :
    (Individual.setChild v c).Creator
      = if c.isNamed "creator" = true then c.into IDRef.unmarshal v.Creator else v.Creator := by
  cases c with
  | element n a cs =>
    simp only [Individual.setChild, xml.Node.isNamed, xml.Node.into, xml.Node.text,
      xml.Node.children, beq_iff_eq]
    by_cases hn : n.Local = "creator"
    · simp [hn]
    · simp only [apply_ite Individual.Creator, hn, if_false, ite_self]
  | charData d => rfl
  | procInst t ver enc => rfl
  | readError => rfl

theorem all_Individual_Creator (v : Individual) (L : List xml.Node) (hok : xml.ok L) :
    (xml.decodeAll Individual.unmarshal v L).Creator
      = xml.decodeAll IDRef.unmarshal v.Creator (xml.reach ["creator"] L) :=
  all_child Individual.unmarshal Individual.setChild Individual.setAttr into_ok_Individual (fun v => v.Creator)
    (xml.Node.isNamed "creator") (fun acc c => c.into IDRef.unmarshal acc) setChild_Individual_Creator setAttr_Individual_Creator L hok v

theorem setAttr_Individual_Modifier (v : Individual) (a : xml.Attr) :
    (Individual.setAttr v a).Modifier = v.Modifier := by
  simp only [Individual.setAttr, apply_ite Individual.Modifier, ite_self]

theorem setChild_Individual_Modifier (v : Individual) (c : xml.Node) :
    (Individual.setChild v c).Modifier
      = if c.isNamed "modifier" = true then c.into IDRef.unmarshal v.Modifier else v.Modifier := by
  cases c with
  | element n a cs =>
    simp only [Individual.setChild, xml.Node.isNamed, xml.Node.into, xml.Node.text,
      xml.Node.children, beq_iff_eq]
    by_cases hn : n.Local = "modifier"
    · simp [hn]
    · simp only [apply_ite Individual.Modifier, hn, if_false, ite_self]
  | charData d => rfl
  | procInst t ver enc => rfl
  | readError => rfl

theorem all_Individual_Modifier (v : Individual) (L : List xml.Node) (hok : xml.ok L) :
    (xml.decodeAll Individual.unmarshal v L).Modifier
      = xml.decodeAll IDRef.unmarshal v.Modifier (xml.reach ["modifier"] L) :=
  all_child Individual.unmarshal Individual.setChild Individual.setAttr into_ok_Individual (fun v => v.Modifier)
    (xml.Node.isNamed "modifier") (fun acc c => c.into IDRef.unmarshal acc) setChild_Individual_Modifier setAttr_Individual_Modifier L hok v

theorem setAttr_Individual_Created (v : Individual) (a : xml.Attr) :
    (Individual.setAttr v a).Created = v.Created := by
  simp only [Individual.setAttr, apply_ite Individual.Created, ite_self]

theorem setChild_Individual_Created (v : Individual) (c : xml.Node) :
    (Individual.setChild v c).Created
      = if c.isNamed "created" = true then c.text else v.Created := by
  cases c with
  | element n a cs =>
    simp only [Individual.setChild, xml.Node.isNamed, xml.Node.into, xml.Node.text,
      xml.Node.children, beq_iff_eq]
    by_cases hn : n.Local = "created"
    · simp [hn]
    · simp only [apply_ite Individual.Created, hn, if_false, ite_self]
  | charData d => rfl
  | procInst t ver enc => rfl
  | readError => rfl

theorem all_Individual_Created (v : Individual) (L : List xml.Node) (hok : xml.ok L) :
    (xml.decodeAll Individual.unmarshal v L).Created
      = ((xml.reach ["created"] L).map xml.Node.text).getLast?.getD v.Created :=
  (all_child Individual.unmarshal Individual.setChild Individual.setAttr into_ok_Individual (fun v => v.Created)
    (xml.Node.isNamed "created") (fun _ c => c.text) setChild_Individual_Created setAttr_Individual_Created L hok v).trans
    (foldl_set_last _ _ _)

theorem setAttr_Individual_Modified (v : Individual) (a : xml.Attr) :
    (Individual.setAttr v a).Modified = v.Modified := by
  simp only [Individual.setAttr, apply_ite Individual.Modified, ite_self]

theorem setChild_Individual_Modified (v : Individual) (c : xml.Node) :
    (Individual.setChild v c).Modified
      = if c.isNamed "modified" = true then c.text else v.Modified := by
  cases c with
  | element n a cs =>
    simp only [Individual.setChild, xml.Node.isNamed, xml.Node.into, xml.Node.text,
      xml.Node.children, beq_iff_eq]
    by_cases hn : n.Local = "modified"
    · simp [hn]
    · simp only [apply_ite Individual.Modified, hn, if_false, ite_self]
  | charData d => rfl
  | procInst t ver enc => rfl
  | readError => rfl

theorem all_Individual_Modified (v : Individual) (L : List xml.Node) (hok : xml.ok L) :
    (xml.decodeAll Individual.unmarshal v L).Modified
      = ((xml.reach ["modified"] L).map xml.Node.text).getLast?.getD v.Modified :=
  (all_child Individual.unmarshal Individual.setChild Individual.setAttr into_ok_Individual (fun v => v.Modified)
    (xml.Node.isNamed "modified") (fun _ c => c.text) setChild_Individual_Modified setAttr_Individual_Modified L hok v).trans
    (foldl_set_last _ _ _)

theorem setAttr_Individual_UserDefinedTextFields (v : Individual) (a : xml.Attr) :
    (Individual.setAttr v a).UserDefinedTextFields = v.UserDefinedTextFields := by
  simp only [Individual.setAttr, apply_ite Individual.UserDefinedTextFields, ite_self]

theorem setChild_Individual_UserDefinedTextFields (v : Individual) (c : xml.Node) :
    (Individual.setChild v c).UserDefinedTextFields
      = if c.isNamed "user_defined_text_fields" = true then c.text else v.UserDefinedTextFields := by
  cases c with
  | element n a cs =>
    simp only [Individual.setChild, xml.Node.isNamed, xml.Node.into, xml.Node.text,
      xml.Node.children, beq_iff_eq]
    by_cases hn : n.Local = "user_defined_text_fields"
    · simp [hn]
    · simp only [apply_ite Individual.UserDefinedTextFields, hn, if_false, ite_self]
  | charData d => rfl
  | procInst t ver enc => rfl
  | readError => rfl

theorem all_Individual_UserDefinedTextFields (v : Individual) (L : List xml.Node) (hok : xml.ok L) :
    (xml.decodeAll Individual.unmarshal v L).UserDefinedTextFields
      = ((xml.reach ["user_defined_text_fields"] L).map xml.Node.text).getLast?.getD v.UserDefinedTextFields :=
  (all_child Individual.unmarshal Individual.setChild Individual.setAttr into_ok_Individual (fun v => v.UserDefinedTextFields)
    (xml.Node.isNamed "user_defined_text_fields") (fun _ c => c.text) setChild_Individual_UserDefinedTextFields setAttr_Individual_UserDefinedTextFields L hok v).trans
    (foldl_set_last _ _ _)

theorem setAttr_Individual_UserDefinedDateFields (v : Individual) (a : xml.Attr) :
    (Individual.setAttr v a).UserDefinedDateFields = v.UserDefinedDateFields := by
  simp only [Individual.setAttr, apply_ite Individual.UserDefinedDateFields, ite_self]

theorem setChild_Individual_UserDefinedDateFields (v : Individual) (c : xml.Node) :
    (Individual.setChild v c).UserDefinedDateFields
      = if c.isNamed "user_defined_date_fields" = true then c.text else v.UserDefinedDateFields := by
  cases c with
  | element n a cs =>
    simp only [Individual.setChild, xml.Node.isNamed, xml.Node.into, xml.Node.text,
      xml.Node.children, beq_iff_eq]
    by_cases hn : n.Local = "user_defined_date_fields"
    · simp [hn]
    · simp only [apply_ite Individual.UserDefinedDateFields, hn, if_false, ite_self]
  | charData d => rfl
  | procInst t ver enc => rfl
  | readError => rfl

theorem all_Individual_UserDefinedDateFields (v : Individual) (L : List xml.Node) (hok : xml.ok L) :
    (xml.decodeAll Individual.unmarshal v L).UserDefinedDateFields
      = ((xml.reach ["user_defined_date_fields"] L).map xml.Node.text).getLast?.getD v.UserDefinedDateFields :=
  (all_child Individual.unmarshal Individual.setChild Individual.setAttr into_ok_Individual (fun v => v.UserDefinedDateFields)
    (xml.Node.isNamed "user_defined_date_fields") (fun _ c => c.text) setChild_Individual_UserDefinedDateFields setAttr_Individual_UserDefinedDateFields L hok v).trans
    (foldl_set_last _ _ _)

theorem setAttr_Individual_UserDefinedPulldownFields (v : Individual) (a : xml.Attr) :
    (Individual.setAttr v a).UserDefinedPulldownFields = v.UserDefinedPulldownFields := by
  simp only [Individual.setAttr, apply_ite Individual.UserDefinedPulldownFields, ite_self]

theorem setChild_Individual_UserDefinedPulldownFields (v : Individual) (c : xml.Node) :
    (Individual.setChild v c).UserDefinedPulldownFields
      = if c.isNamed "user_defined_pulldown_fields" = true then c.text else v.UserDefinedPulldownFields := by
  cases c with
  | element n a cs =>
    simp only [Individual.setChild, xml.Node.isNamed, xml.Node.into, xml.Node.text,
      xml.Node.children, beq_iff_eq]
    by_cases hn : n.Local = "user_defined_pulldown_fields"
    · simp [hn]
    · simp only [apply_ite Individual.UserDefinedPulldownFields, hn, if_false, ite_self]
  | charData d => rfl
  | procInst t ver enc => rfl
  | readError => rfl

theorem all_Individual_UserDefinedPulldownFields (v : Individual) (L : List xml.Node) (hok : xml.ok L) :
    (xml.decodeAll Individual.unmarshal v L).UserDefinedPulldownFields
      = ((xml.reach ["user_defined_pulldown_fields"] L).map xml.Node.text).getLast?.getD v.UserDefinedPulldownFields :=
  (all_child Individual.unmarshal Individual.setChild Individual.setAttr into_ok_Individual (fun v => v.UserDefinedPulldownFields)
    (xml.Node.isNamed "user_defined_pulldown_fields") (fun _ c => c.text) setChild_Individual_UserDefinedPulldownFields setAttr_Individual_UserDefinedPulldownFields L hok v).trans
    (foldl_set_last _ _ _)

theorem into_ok_Individuals (v : Individuals) (e : xml.Node) (he : e.fails = false) :
    e.into Individuals.unmarshal v = e.children.foldl Individuals.setChild (e.attrs.foldl Individuals.setAttr v) := by
  cases e with
  | element n a cs =>
    simp only [xml.Node.into, xml.Node.children, xml.Node.attrs, Individuals.unmarshal]
    rw [decodeChildren_ok _ _ _ _ (show xml.ok cs from ok_children he)]
  | charData d => rfl
  | procInst t ver enc => rfl
  | readError => rfl

theorem setAttr_Individuals_Count (v : Individuals) (a : xml.Attr) :
    (Individuals.setAttr v a).Count
      = if (a.Name.Local == "count") = true then a.Value else v.Count := by
  simp only [Individuals.setAttr, beq_iff_eq]
  split_ifs <;> rfl

theorem setChild_Individuals_Count (v : Individuals) (c : xml.Node) :
    (Individuals.setChild v c).Count = v.Count := by
  cases c <;> simp only [Individuals.setChild, apply_ite Individuals.Count, ite_self]

theorem all_Individuals_Count (v : Individuals) (L : List xml.Node) (hok : xml.ok L) :
    (xml.decodeAll Individuals.unmarshal v L).Count
      = (((L.flatMap xml.Node.attrs).filter fun a => a.Name.Local == "count").map
          fun a => a.Value).getLast?.getD v.Count :=
  (all_attr Individuals.unmarshal Individuals.setChild Individuals.setAttr into_ok_Individuals (fun v => v.Count)
    (fun a => a.Name.Local == "count") (fun _ a => a.Value) setChild_Individuals_Count setAttr_Individuals_Count L hok v).trans
    (foldl_set_last _ _ _)

theorem setAttr_Individuals_Individual (v : Individuals) (a : xml.Attr) :
    (Individuals.setAttr v a).Individual = v.Individual := by
  simp only [Individuals.setAttr, apply_ite Individuals.Individual, ite_self]

theorem setChild_Individuals_Individual (v : Individuals) (c : xml.Node) :
    (Individuals.setChild v c).Individual
      = if c.isNamed "individual" = true then c.into Individual.unmarshal v.Individual else v.Individual := by
  cases c with
  | element n a cs =>
    simp only [Individuals.setChild, xml.Node.isNamed, xml.Node.into, xml.Node.text,
      xml.Node.children, beq_iff_eq]
    by_cases hn : n.Local = "individual"
    · simp [hn]
    · simp only [apply_ite Individuals.Individual, hn, if_false, ite_self]
  | charData d => rfl
  | procInst t ver enc => rfl
  | readError => rfl

theorem all_Individuals_Individual (v : Individuals) (L : List xml.Node) (hok : xml.ok L) :
    (xml.decodeAll Individuals.unmarshal v L).Individual
      = xml.decodeAll Individual.unmarshal v.Individual (xml.reach ["individual"] L) :=
  all_child Individuals.unmarshal Individuals.setChild Individuals.setAttr into_ok_Individuals (fun v => v.Individual)
    (xml.Node.isNamed "individual") (fun acc c => c.into Individual.unmarshal acc) setChild_Individuals_Individual setAttr_Individuals_Individual L hok v

theorem into_ok_Response (v : Response) (e : xml.Node) (he : e.fails = false) :
    e.into Response.unmarshal v = e.children.foldl Response.setChild (e.attrs.foldl (fun v _ => v) v) := by
  cases e with
  | element n a cs =>
    simp only [xml.Node.into, xml.Node.children, xml.Node.attrs, Response.unmarshal]
    rw [decodeChildren_ok _ _ _ _ (show xml.ok cs from ok_children he), foldl_keep]
  | charData d => rfl
  | procInst t ver enc => rfl
  | readError => rfl

theorem setChild_Response_Service (v : Response) (c : xml.Node) :
    (Response.setChild v c).Service
      = if c.isNamed "service" = true then c.text else v.Service := by
  cases c with
  | element n a cs =>
    simp only [Response.setChild, xml.Node.isNamed, xml.Node.into, xml.Node.text,
      xml.Node.children, beq_iff_eq]
    by_cases hn : n.Local = "service"
    · simp [hn]
    · simp only [apply_ite Response.Service, hn, if_false, ite_self]
  | charData d => rfl
  | procInst t ver enc => rfl
  | readError => rfl

theorem all_Response_Service (v : Response) (L : List xml.Node) (hok : xml.ok L) :
    (xml.decodeAll Response.unmarshal v L).Service
      = ((xml.reach ["service"] L).map xml.Node.text).getLast?.getD v.Service :=
  (all_child Response.unmarshal Response.setChild (fun v _ => v) into_ok_Response (fun v => v.Service)
    (xml.Node.isNamed "service") (fun _ c => c.text) setChild_Response_Service (fun _ _ => rfl) L hok v).trans
    (foldl_set_last _ _ _)

theorem setChild_Response_ServiceAction (v : Response) (c : xml.Node) :
    (Response.setChild v c).ServiceAction
      = if c.isNamed "service_action" = true then c.text else v.ServiceAction := by
  cases c with
  | element n a cs =>
    simp only [Response.setChild, xml.Node.isNamed, xml.Node.into, xml.Node.text,
      xml.Node.children, beq_iff_eq]
    by_cases hn : n.Local = "service_action"
    · simp [hn]
    · simp only [apply_ite Response.ServiceAction, hn, if_false, ite_self]
  | charData d => rfl
  | procInst t ver enc => rfl
  | readError => rfl

theorem all_Response_ServiceAction (v : Response) (L : List xml.Node) (hok : xml.ok L) :
    (xml.decodeAll Response.unmarshal v L).ServiceAction
      = ((xml.reach ["service_action"] L).map xml.Node.text).getLast?.getD v.ServiceAction :=
  (all_child Response.unmarshal Response.setChild (fun v _ => v) into_ok_Response (fun v => v.ServiceAction)
    (xml.Node.isNamed "service_action") (fun _ c => c.text) setChild_Response_ServiceAction (fun _ _ => rfl) L hok v).trans
    (foldl_set_last _ _ _)

theorem setChild_Response_Availability (v : Response) (c : xml.Node) :
    (Response.setChild v c).Availability
      = if c.isNamed "availability" = true then c.text else v.Availability := by
  cases c with
  | element n a cs =>
    simp only [Response.setChild, xml.Node.isNamed, xml.Node.into, xml.Node.text,
      xml.Node.children, beq_iff_eq]
    by_cases hn : n.Local = "availability"
    · simp [hn]
    · simp only [apply_ite Response.Availability, hn, if_false, ite_self]
  | charData d => rfl
  | procInst t ver enc => rfl
  | readError => rfl

theorem all_Response_Availability (v : Response) (L : List xml.Node) (hok : xml.ok L) :
    (xml.decodeAll Response.unmarshal v L).Availability
      = ((xml.reach ["availability"] L).map xml.Node.text).getLast?.getD v.Availability :=
  (all_child Response.unmarshal Response.setChild (fun v _ => v) into_ok_Response (fun v => v.Availability)
    (xml.Node.isNamed "availability") (fun _ c => c.text) setChild_Response_Availability (fun _ _ => rfl) L hok v).trans
    (foldl_set_last _ _ _)

theorem setChild_Response_Individuals (v : Response) (c : xml.Node) :
    (Response.setChild v c).Individuals
      = if c.isNamed "individuals" = true then c.into Individuals.unmarshal v.Individuals else v.Individuals := by
  cases c with
  | element n a cs =>
    simp only [Response.setChild, xml.Node.isNamed, xml.Node.into, xml.Node.text,
      xml.Node.children, beq_iff_eq]
    by_cases hn : n.Local = "individuals"
    · simp [hn]
    · simp only [apply_ite Response.Individuals, hn, if_false, ite_self]
  | charData d => rfl
  | procInst t ver enc => rfl
  | readError => rfl

theorem all_Response_Individuals (v : Response) (L : List xml.Node) (hok : xml.ok L) :
    (xml.decodeAll Response.unmarshal v L).Individuals
      = xml.decodeAll Individuals.unmarshal v.Individuals (xml.reach ["individuals"] L) :=
  all_child Response.unmarshal Response.setChild (fun v _ => v) into_ok_Response (fun v => v.Individuals)
    (xml.Node.isNamed "individuals") (fun acc c => c.into Individuals.unmarshal acc) setChild_Response_Individuals (fun _ _ => rfl) L hok v

theorem into_ok_CCBAPI (v : CCBAPI) (e : xml.Node) (he : e.fails = false) :
    e.into CCBAPI.unmarshal v = e.children.foldl CCBAPI.setChild (e.attrs.foldl (fun v _ => v) v) := by
  cases e with
  | element n a cs =>
    simp only [xml.Node.into, xml.Node.children, xml.Node.attrs, CCBAPI.unmarshal]
    rw [decodeChildren_ok _ _ _ _ (show xml.ok cs from ok_children he), foldl_keep]
  | charData d => rfl
  | procInst t ver enc => rfl
  | readError => rfl

theorem setChild_CCBAPI_Request (v : CCBAPI) (c : xml.Node) :
    (CCBAPI.setChild v c).Request
      = if c.isNamed "request" = true then c.into Request.unmarshal v.Request else v.Request := by
  cases c with
  | element n a cs =>
    simp only [CCBAPI.setChild, xml.Node.isNamed, xml.Node.into, xml.Node.text,
      xml.Node.children, beq_iff_eq]
    by_cases hn : n.Local = "request"
    · simp [hn]
    · simp only [apply_ite CCBAPI.Request, hn, if_false, ite_self]
  | charData d => rfl
  | procInst t ver enc => rfl
  | readError => rfl

theorem all_CCBAPI_Request (v : CCBAPI) (L : List xml.Node) (hok : xml.ok L) :
    (xml.decodeAll CCBAPI.unmarshal v L).Request
      = xml.decodeAll Request.unmarshal v.Request (xml.reach ["request"] L) :=
  all_child CCBAPI.unmarshal CCBAPI.setChild (fun v _ => v) into_ok_CCBAPI (fun v => v.Request)
    (xml.Node.isNamed "request") (fun acc c => c.into Request.unmarshal acc) setChild_CCBAPI_Request (fun _ _ => rfl) L hok v

theorem setChild_CCBAPI_Response (v : CCBAPI) (c : xml.Node) :
    (CCBAPI.setChild v c).Response
      = if c.isNamed "response" = true then c.into Response.unmarshal v.Response else v.Response := by
  cases c with
  | element n a cs =>
    simp only [CCBAPI.setChild, xml.Node.isNamed, xml.Node.into, xml.Node.text,
      xml.Node.children, beq_iff_eq]
    by_cases hn : n.Local = "response"
    · simp [hn]
    · simp only [apply_ite CCBAPI.Response, hn, if_false, ite_self]
  | charData d => rfl
  | procInst t ver enc => rfl
  | readError => rfl

theorem all_CCBAPI_Response (v : CCBAPI) (L : List xml.Node) (hok : xml.ok L) :
    (xml.decodeAll CCBAPI.unmarshal v L).Response
      = xml.decodeAll Response.unmarshal v.Response (xml.reach ["response"] L) :=
  all_child CCBAPI.unmarshal CCBAPI.setChild (fun v _ => v) into_ok_CCBAPI (fun v => v.Response)
    (xml.Node.isNamed "response") (fun acc c => c.into Response.unmarshal acc) setChild_CCBAPI_Response (fun _ _ => rfl) L hok v
theorem sub_CCBAPI_Request (v : CCBAPI) (L : List xml.Node) (hok : xml.ok L) :
    (xml.decodeAll CCBAPI.unmarshal v L).Request
      = xml.decodeAll Request.unmarshal v.Request
          (xml.reach ["request"] L) := by
  exact all_CCBAPI_Request v L hok

theorem sub_CCBAPI_Request_Parameters (v : CCBAPI) (L : List xml.Node) (hok : xml.ok L) :
    (xml.decodeAll CCBAPI.unmarshal v L).Request.Parameters
      = xml.decodeAll Parameters.unmarshal v.Request.Parameters
          (xml.reach ["request", "parameters"] L) := by
  rw [sub_CCBAPI_Request v L hok]
  exact all_Request_Parameters _ _ (ok_reach _ _ hok)

theorem sub_CCBAPI_Response (v : CCBAPI) (L : List xml.Node) (hok : xml.ok L) :
    (xml.decodeAll CCBAPI.unmarshal v L).Response
      = xml.decodeAll Response.unmarshal v.Response
          (xml.reach ["response"] L) := by
  exact all_CCBAPI_Response v L hok

theorem sub_CCBAPI_Response_Individuals (v : CCBAPI) (L : List xml.Node) (hok : xml.ok L) :
    (xml.decodeAll CCBAPI.unmarshal v L).Response.Individuals
      = xml.decodeAll Individuals.unmarshal v.Response.Individuals
          (xml.reach ["response", "individuals"] L) := by
  rw [sub_CCBAPI_Response v L hok]
  exact all_Response_Individuals _ _ (ok_reach _ _ hok)

theorem sub_CCBAPI_Response_Individuals_Individual (v : CCBAPI) (L : List xml.Node) (hok : xml.ok L) :
    (xml.decodeAll CCBAPI.unmarshal v L).Response.Individuals.Individual
      = xml.decodeAll Individual.unmarshal v.Response.Individuals.Individual
          (xml.reach ["response", "individuals", "individual"] L) := by
  rw [sub_CCBAPI_Response_Individuals v L hok]
  exact all_Individuals_Individual _ _ (ok_reach _ _ hok)

theorem sub_CCBAPI_Response_Individuals_Individual_Campus (v : CCBAPI) (L : List xml.Node) (hok : xml.ok L) :
    (xml.decodeAll CCBAPI.unmarshal v L).Response.Individuals.Individual.Campus
      = xml.decodeAll IDRef.unmarshal v.Response.Individuals.Individual.Campus
          (xml.reach ["response", "individuals", "individual", "campus"] L) := by
  rw [sub_CCBAPI_Response_Individuals_Individual v L hok]
  exact all_Individual_Campus _ _ (ok_reach _ _ hok)

theorem sub_CCBAPI_Response_Individuals_Individual_Family (v : CCBAPI) (L : List xml.Node) (hok : xml.ok L) :
    (xml.decodeAll CCBAPI.unmarshal v L).Response.Individuals.Individual.Family
      = xml.decodeAll IDRef.unmarshal v.Response.Individuals.Individual.Family
          (xml.reach ["response", "individuals", "individual", "family"] L) := by
  rw [sub_CCBAPI_Response_Individuals_Individual v L hok]
  exact all_Individual_Family _ _ (ok_reach _ _ hok)

theorem sub_CCBAPI_Response_Individuals_Individual_Addresses (v : CCBAPI) (L : List xml.Node) (hok : xml.ok L) :
    (xml.decodeAll CCBAPI.unmarshal v L).Response.Individuals.Individual.Addresses
      = xml.decodeAll Addresses.unmarshal v.Response.Individuals.Individual.Addresses
          (xml.reach ["response", "individuals", "individual", "addresses"] L) := by
  rw [sub_CCBAPI_Response_Individuals_Individual v L hok]
  exact all_Individual_Addresses _ _ (ok_reach _ _ hok)

theorem sub_CCBAPI_Response_Individuals_Individual_Phones (v : CCBAPI) (L : List xml.Node) (hok : xml.ok L) :
    (xml.decodeAll CCBAPI.unmarshal v L).Response.Individuals.Individual.Phones
      = xml.decodeAll Phones.unmarshal v.Response.Individuals.Individual.Phones
          (xml.reach ["response", "individuals", "individual", "phones"] L) := by
  rw [sub_CCBAPI_Response_Individuals_Individual v L hok]
  exact all_Individual_Phones _ _ (ok_reach _ _ hok)

theorem sub_CCBAPI_Response_Individuals_Individual_MobileCarrier (v : CCBAPI) (L : List xml.Node) (hok : xml.ok L) :
    (xml.decodeAll CCBAPI.unmarshal v L).Response.Individuals.Individual.MobileCarrier
      = xml.decodeAll IDRef.unmarshal v.Response.Individuals.Individual.MobileCarrier
          (xml.reach ["response", "individuals", "individual", "mobile_carrier"] L) := by
  rw [sub_CCBAPI_Response_Individuals_Individual v L hok]
  exact all_Individual_MobileCarrier _ _ (ok_reach _ _ hok)

theorem sub_CCBAPI_Response_Individuals_Individual_MembershipType (v : CCBAPI) (L : List xml.Node) (hok : xml.ok L) :
    (xml.decodeAll CCBAPI.unmarshal v L).Response.Individuals.Individual.MembershipType
      = xml.decodeAll IDRef.unmarshal v.Response.Individuals.Individual.MembershipType
          (xml.reach ["response", "individuals", "individual", "membership_type"] L) := by
  rw [sub_CCBAPI_Response_Individuals_Individual v L hok]
  exact all_Individual_MembershipType _ _ (ok_reach _ _ hok)

theorem sub_CCBAPI_Response_Individuals_Individual_PrivacySettings (v : CCBAPI) (L : List xml.Node) (hok : xml.ok L) :
    (xml.decodeAll CCBAPI.unmarshal v L).Response.Individuals.Individual.PrivacySettings
      = xml.decodeAll PrivacySettings.unmarshal v.Response.Individuals.Individual.PrivacySettings
          (xml.reach ["response", "individuals", "individual", "privacy_settings"] L) := by
  rw [sub_CCBAPI_Response_Individuals_Individual v L hok]
  exact all_Individual_PrivacySettings _ _ (ok_reach _ _ hok)

theorem sub_CCBAPI_Response_Individuals_Individual_PrivacySettings_MailingAddress (v : CCBAPI) (L : List xml.Node) (hok : xml.ok L) :
    (xml.decodeAll CCBAPI.unmarshal v L).Response.Individuals.Individual.PrivacySettings.MailingAddress
      = xml.decodeAll IDRef.unmarshal v.Response.Individuals.Individual.PrivacySettings.MailingAddress
          (xml.reach ["response", "individuals", "individual", "privacy_settings", "mailing_address"] L) := by
  rw [sub_CCBAPI_Response_Individuals_Individual_PrivacySettings v L hok]
  exact all_PrivacySettings_MailingAddress _ _ (ok_reach _ _ hok)

theorem sub_CCBAPI_Response_Individuals_Individual_PrivacySettings_HomeAddress (v : CCBAPI) (L : List xml.Node) (hok : xml.ok L) :
    (xml.decodeAll CCBAPI.unmarshal v L).Response.Individuals.Individual.PrivacySettings.HomeAddress
      = xml.decodeAll IDRef.unmarshal v.Response.Individuals.Individual.PrivacySettings.HomeAddress
          (xml.reach ["response", "individuals", "individual", "privacy_settings", "home_address"] L) := by
  rw [sub_CCBAPI_Response_Individuals_Individual_PrivacySettings v L hok]
  exact all_PrivacySettings_HomeAddress _ _ (ok_reach _ _ hok)

theorem sub_CCBAPI_Response_Individuals_Individual_PrivacySettings_HomePhone (v : CCBAPI) (L : List xml.Node) (hok : xml.ok L) :
    (xml.decodeAll CCBAPI.unmarshal v L).Response.Individuals.Individual.PrivacySettings.HomePhone
      = xml.decodeAll IDRef.unmarshal v.Response.Individuals.Individual.PrivacySettings.HomePhone
          (xml.reach ["response", "individuals", "individual", "privacy_settings", "home_phone"] L) := by
  rw [sub_CCBAPI_Response_Individuals_Individual_PrivacySettings v L hok]
  exact all_PrivacySettings_HomePhone _ _ (ok_reach _ _ hok)

theorem sub_CCBAPI_Response_Individuals_Individual_PrivacySettings_WorkPhone (v : CCBAPI) (L : List xml.Node) (hok : xml.ok L) :
    (xml.decodeAll CCBAPI.unmarshal v L).Response.Individuals.Individual.PrivacySettings.WorkPhone
      = xml.decodeAll IDRef.unmarshal v.Response.Individuals.Individual.PrivacySettings.WorkPhone
          (xml.reach ["response", "individuals", "individual", "privacy_settings", "work_phone"] L) := by
  rw [sub_CCBAPI_Response_Individuals_Individual_PrivacySettings v L hok]
  exact all_PrivacySettings_WorkPhone _ _ (ok_reach _ _ hok)

theorem sub_CCBAPI_Response_Individuals_Individual_PrivacySettings_MobilePhone (v : CCBAPI) (L : List xml.Node) (hok : xml.ok L) :
    (xml.decodeAll CCBAPI.unmarshal v L).Response.Individuals.Individual.PrivacySettings.MobilePhone
      = xml.decodeAll IDRef.unmarshal v.Response.Individuals.Individual.PrivacySettings.MobilePhone
          (xml.reach ["response", "individuals", "individual", "privacy_settings", "mobile_phone"] L) := by
  rw [sub_CCBAPI_Response_Individuals_Individual_PrivacySettings v L hok]
  exact all_PrivacySettings_MobilePhone _ _ (ok_reach _ _ hok)

theorem sub_CCBAPI_Response_Individuals_Individual_PrivacySettings_EmergencyPhone (v : CCBAPI) (L : List xml.Node) (hok : xml.ok L) :
    (xml.decodeAll CCBAPI.unmarshal v L).Response.Individuals.Individual.PrivacySettings.EmergencyPhone
      = xml.decodeAll IDRef.unmarshal v.Response.Individuals.Individual.PrivacySettings.EmergencyPhone
          (xml.reach ["response", "individuals", "individual", "privacy_settings", "emergency_phone"] L) := by
  rw [sub_CCBAPI_Response_Individuals_Individual_PrivacySettings v L hok]
  exact all_PrivacySettings_EmergencyPhone _ _ (ok_reach _ _ hok)

theorem sub_CCBAPI_Response_Individuals_Individual_PrivacySettings_Birthday (v : CCBAPI) (L : List xml.Node) (hok : xml.ok L) :
    (xml.decodeAll CCBAPI.unmarshal v L).Response.Individuals.Individual.PrivacySettings.Birthday
      = xml.decodeAll IDRef.unmarshal v.Response.Individuals.Individual.PrivacySettings.Birthday
          (xml.reach ["response", "individuals", "individual", "privacy_settings", "birthday"] L) := by
  rw [sub_CCBAPI_Response_Individuals_Individual_PrivacySettings v L hok]
  exact all_PrivacySettings_Birthday _ _ (ok_reach _ _ hok)

theorem sub_CCBAPI_Response_Individuals_Individual_PrivacySettings_Anniversary (v : CCBAPI) (L : List xml.Node) (hok : xml.ok L) :
    (xml.decodeAll CCBAPI.unmarshal v L).Response.Individuals.Individual.PrivacySettings.Anniversary
      = xml.decodeAll IDRef.unmarshal v.Response.Individuals.Individual.PrivacySettings.Anniversary
          (xml.reach ["response", "individuals", "individual", "privacy_settings", "anniversary"] L) := by
  rw [sub_CCBAPI_Response_Individuals_Individual_PrivacySettings v L hok]
  exact all_PrivacySettings_Anniversary _ _ (ok_reach _ _ hok)

theorem sub_CCBAPI_Response_Individuals_Individual_PrivacySettings_Gender (v : CCBAPI) (L : List xml.Node) (hok : xml.ok L) :
    (xml.decodeAll CCBAPI.unmarshal v L).Response.Individuals.Individual.PrivacySettings.Gender
      = xml.decodeAll IDRef.unmarshal v.Response.Individuals.Individual.PrivacySettings.Gender
          (xml.reach ["response", "individuals", "individual", "privacy_settings", "gender"] L) := by
  rw [sub_CCBAPI_Response_Individuals_Individual_PrivacySettings v L hok]
  exact all_PrivacySettings_Gender _ _ (ok_reach _ _ hok)

theorem sub_CCBAPI_Response_Individuals_Individual_PrivacySettings_MaritalStatus (v : CCBAPI) (L : List xml.Node) (hok : xml.ok L) :
    (xml.decodeAll CCBAPI.unmarshal v L).Response.Individuals.Individual.PrivacySettings.MaritalStatus
      = xml.decodeAll IDRef.unmarshal v.Response.Individuals.Individual.PrivacySettings.MaritalStatus
          (xml.reach ["response", "individuals", "individual", "privacy_settings", "marital_status"] L) := by
  rw [sub_CCBAPI_Response_Individuals_Individual_PrivacySettings v L hok]
  exact all_PrivacySettings_MaritalStatus _ _ (ok_reach _ _ hok)

theorem sub_CCBAPI_Response_Individuals_Individual_PrivacySettings_UserDefinedFields (v : CCBAPI) (L : List xml.Node) (hok : xml.ok L) :
    (xml.decodeAll CCBAPI.unmarshal v L).Response.Individuals.Individual.PrivacySettings.UserDefinedFields
      = xml.decodeAll IDRef.unmarshal v.Response.Individuals.Individual.PrivacySettings.UserDefinedFields
          (xml.reach ["response", "individuals", "individual", "privacy_settings", "user_defined_fields"] L) := by
  rw [sub_CCBAPI_Response_Individuals_Individual_PrivacySettings v L hok]
  exact all_PrivacySettings_UserDefinedFields _ _ (ok_reach _ _ hok)

theorem sub_CCBAPI_Response_Individuals_Individual_PrivacySettings_Allergies (v : CCBAPI) (L : List xml.Node) (hok : xml.ok L) :
    (xml.decodeAll CCBAPI.unmarshal v L).Response.Individuals.Individual.PrivacySettings.Allergies
      = xml.decodeAll IDRef.unmarshal v.Response.Individuals.Individual.PrivacySettings.Allergies
          (xml.reach ["response", "individuals", "individual", "privacy_settings", "allergies"] L) := by
  rw [sub_CCBAPI_Response_Individuals_Individual_PrivacySettings v L hok]
  exact all_PrivacySettings_Allergies _ _ (ok_reach _ _ hok)

theorem sub_CCBAPI_Response_Individuals_Individual_Creator (v : CCBAPI) (L : List xml.Node) (hok : xml.ok L) :
    (xml.decodeAll CCBAPI.unmarshal v L).Response.Individuals.Individual.Creator
      = xml.decodeAll IDRef.unmarshal v.Response.Individuals.Individual.Creator
          (xml.reach ["response", "individuals", "individual", "creator"] L) := by
  rw [sub_CCBAPI_Response_Individuals_Individual v L hok]
  exact all_Individual_Creator _ _ (ok_reach _ _ hok)

theorem sub_CCBAPI_Response_Individuals_Individual_Modifier (v : CCBAPI) (L : List xml.Node) (hok : xml.ok L) :
    (xml.decodeAll CCBAPI.unmarshal v L).Response.Individuals.Individual.Modifier
      = xml.decodeAll IDRef.unmarshal v.Response.Individuals.Individual.Modifier
          (xml.reach ["response", "individuals", "individual", "modifier"] L) := by
  rw [sub_CCBAPI_Response_Individuals_Individual v L hok]
  exact all_Individual_Modifier _ _ (ok_reach _ _ hok)

theorem leaf_CCBAPI_Response_Service (v : CCBAPI) (L : List xml.Node) (hok : xml.ok L) :
    (CCBAPI.marshal (xml.decodeAll CCBAPI.unmarshal v L)).getPath? ["Response", "Service"]
      = some (.str ((Leaf.values
          ⟨["response", "service"], none, ["Response", "Service"]⟩ L).getLast?.getD
          v.Response.Service)) := by
  have hjson : ∀ r : CCBAPI, (CCBAPI.marshal r).getPath? ["Response", "Service"]
      = some (.str r.Response.Service) := fun _ => rfl
  rw [hjson, sub_CCBAPI_Response v L hok]
  exact congrArg (fun s => some (JSON.str s)) (all_Response_Service _ _ (ok_reach _ _ hok))

theorem leaf_CCBAPI_Response_ServiceAction (v : CCBAPI) (L : List xml.Node) (hok : xml.ok L) :
    (CCBAPI.marshal (xml.decodeAll CCBAPI.unmarshal v L)).getPath? ["Response", "ServiceAction"]
      = some (.str ((Leaf.values
          ⟨["response", "service_action"], none, ["Response", "ServiceAction"]⟩ L).getLast?.getD
          v.Response.ServiceAction)) := by
  have hjson : ∀ r : CCBAPI, (CCBAPI.marshal r).getPath? ["Response", "ServiceAction"]
      = some (.str r.Response.ServiceAction) := fun _ => rfl
  rw [hjson, sub_CCBAPI_Response v L hok]
  exact congrArg (fun s => some (JSON.str s)) (all_Response_ServiceAction _ _ (ok_reach _ _ hok))

theorem leaf_CCBAPI_Response_Availability (v : CCBAPI) (L : List xml.Node) (hok : xml.ok L) :
    (CCBAPI.marshal (xml.decodeAll CCBAPI.unmarshal v L)).getPath? ["Response", "Availability"]
      = some (.str ((Leaf.values
          ⟨["response", "availability"], none, ["Response", "Availability"]⟩ L).getLast?.getD
          v.Response.Availability)) := by
  have hjson : ∀ r : CCBAPI, (CCBAPI.marshal r).getPath? ["Response", "Availability"]
      = some (.str r.Response.Availability) := fun _ => rfl
  rw [hjson, sub_CCBAPI_Response v L hok]
  exact congrArg (fun s => some (JSON.str s)) (all_Response_Availability _ _ (ok_reach _ _ hok))

theorem leaf_CCBAPI_Response_Individuals_Count (v : CCBAPI) (L : List xml.Node) (hok : xml.ok L) :
    (CCBAPI.marshal (xml.decodeAll CCBAPI.unmarshal v L)).getPath? ["Response", "Individuals", "Count"]
      = some (.str ((Leaf.values
          ⟨["response", "individuals"], some "count", ["Response", "Individuals", "Count"]⟩ L).getLast?.getD
          v.Response.Individuals.Count)) := by
  have hjson : ∀ r : CCBAPI, (CCBAPI.marshal r).getPath? ["Response", "Individuals", "Count"]
      = some (.str r.Response.Individuals.Count) := fun _ => rfl
  rw [hjson, sub_CCBAPI_Response_Individuals v L hok]
  exact congrArg (fun s => some (JSON.str s)) (all_Individuals_Count _ _ (ok_reach _ _ hok))

theorem leaf_CCBAPI_Response_Individuals_Individual_ID (v : CCBAPI) (L : List xml.Node) (hok : xml.ok L) :
    (CCBAPI.marshal (xml.decodeAll CCBAPI.unmarshal v L)).getPath? ["Response", "Individuals", "Individual", "ID"]
      = some (.str ((Leaf.values
          ⟨["response", "individuals", "individual"], some "id",
            ["Response", "Individuals", "Individual", "ID"]⟩ L).getLast?.getD
          v.Response.Individuals.Individual.ID)) := by
  have hjson : ∀ r : CCBAPI, (CCBAPI.marshal r).getPath? ["Response", "Individuals", "Individual", "ID"]
      = some (.str r.Response.Individuals.Individual.ID) := fun _ => rfl
  rw [hjson, sub_CCBAPI_Response_Individuals_Individual v L hok]
  exact congrArg (fun s => some (JSON.str s)) (all_Individual_ID _ _ (ok_reach _ _ hok))

theorem leaf_CCBAPI_Response_Individuals_Individual_SyncID (v : CCBAPI) (L : List xml.Node) (hok : xml.ok L) :
    (CCBAPI.marshal (xml.decodeAll CCBAPI.unmarshal v L)).getPath? ["Response", "Individuals", "Individual", "SyncID"]
      = some (.str ((Leaf.values
          ⟨["response", "individuals", "individual", "sync_id"], none,
            ["Response", "Individuals", "Individual", "SyncID"]⟩ L).getLast?.getD
          v.Response.Individuals.Individual.SyncID)) := by
  have hjson : ∀ r : CCBAPI, (CCBAPI.marshal r).getPath? ["Response", "Individuals", "Individual", "SyncID"]
      = some (.str r.Response.Individuals.Individual.SyncID) := fun _ => rfl
  rw [hjson, sub_CCBAPI_Response_Individuals_Individual v L hok]
  exact congrArg (fun s => some (JSON.str s)) (all_Individual_SyncID _ _ (ok_reach _ _ hok))

theorem leaf_CCBAPI_Response_Individuals_Individual_OtherID (v : CCBAPI) (L : List xml.Node) (hok : xml.ok L) :
    (CCBAPI.marshal (xml.decodeAll CCBAPI.unmarshal v L)).getPath? ["Response", "Individuals", "Individual", "OtherID"]
      = some (.str ((Leaf.values
          ⟨["response", "individuals", "individual", "other_id"], none,
            ["Response", "Individuals", "Individual", "OtherID"]⟩ L).getLast?.getD
          v.Response.Individuals.Individual.OtherID)) := by
  have hjson : ∀ r : CCBAPI, (CCBAPI.marshal r).getPath? ["Response", "Individuals", "Individual", "OtherID"]
      = some (.str r.Response.Individuals.Individual.OtherID) := fun _ => rfl
  rw [hjson, sub_CCBAPI_Response_Individuals_Individual v L hok]
  exact congrArg (fun s => some (JSON.str s)) (all_Individual_OtherID _ _ (ok_reach _ _ hok))

theorem leaf_CCBAPI_Response_Individuals_Individual_GivingNumber (v : CCBAPI) (L : List xml.Node) (hok : xml.ok L) :
    (CCBAPI.marshal (xml.decodeAll CCBAPI.unmarshal v L)).getPath? ["Response", "Individuals", "Individual", "GivingNumber"]
      = some (.str ((Leaf.values
          ⟨["response", "individuals", "individual", "giving_number"], none,
            ["Response", "Individuals", "Individual", "GivingNumber"]⟩ L).getLast?.getD
          v.Response.Individuals.Individual.GivingNumber)) := by
  have hjson : ∀ r : CCBAPI, (CCBAPI.marshal r).getPath? ["Response", "Individuals", "Individual", "GivingNumber"]
      = some (.str r.Response.Individuals.Individual.GivingNumber) := fun _ => rfl
  rw [hjson, sub_CCBAPI_Response_Individuals_Individual v L hok]
  exact congrArg (fun s => some (JSON.str s)) (all_Individual_GivingNumber _ _ (ok_reach _ _ hok))

theorem leaf_CCBAPI_Response_Individuals_Individual_Campus_ID (v : CCBAPI) (L : List xml.Node) (hok : xml.ok L) :
    (CCBAPI.marshal (xml.decodeAll CCBAPI.unmarshal v L)).getPath? ["Response", "Individuals", "Individual", "Campus", "ID"]
      = some (.str ((Leaf.values
          ⟨["response", "individuals", "individual", "campus"], some "id",
            ["Response", "Individuals", "Individual", "Campus", "ID"]⟩ L).getLast?.getD
          v.Response.Individuals.Individual.Campus.ID)) := by
  have hjson : ∀ r : CCBAPI, (CCBAPI.marshal r).getPath? ["Response", "Individuals", "Individual", "Campus", "ID"]
      = some (.str r.Response.Individuals.Individual.Campus.ID) := fun _ => rfl
  rw [hjson, sub_CCBAPI_Response_Individuals_Individual_Campus v L hok]
  exact congrArg (fun s => some (JSON.str s)) (all_IDRef_ID _ _ (ok_reach _ _ hok))

theorem leaf_CCBAPI_Response_Individuals_Individual_Family_ID (v : CCBAPI) (L : List xml.Node) (hok : xml.ok L) :
    (CCBAPI.marshal (xml.decodeAll CCBAPI.unmarshal v L)).getPath? ["Response", "Individuals", "Individual", "Family", "ID"]
      = some (.str ((Leaf.values
          ⟨["response", "individuals", "individual", "family"], some "id",
            ["Response", "Individuals", "Individual", "Family", "ID"]⟩ L).getLast?.getD
          v.Response.Individuals.Individual.Family.ID)) := by
  have hjson : ∀ r : CCBAPI, (CCBAPI.marshal r).getPath? ["Response", "Individuals", "Individual", "Family", "ID"]
      = some (.str r.Response.Individuals.Individual.Family.ID) := fun _ => rfl
  rw [hjson, sub_CCBAPI_Response_Individuals_Individual_Family v L hok]
  exact congrArg (fun s => some (JSON.str s)) (all_IDRef_ID _ _ (ok_reach _ _ hok))

theorem leaf_CCBAPI_Response_Individuals_Individual_FamilyImage (v : CCBAPI) (L : List xml.Node) (hok : xml.ok L) :
    (CCBAPI.marshal (xml.decodeAll CCBAPI.unmarshal v L)).getPath? ["Response", "Individuals", "Individual", "FamilyImage"]
      = some (.str ((Leaf.values
          ⟨["response", "individuals", "individual", "family_image"], none,
            ["Response", "Individuals", "Individual", "FamilyImage"]⟩ L).getLast?.getD
          v.Response.Individuals.Individual.FamilyImage)) := by
  have hjson : ∀ r : CCBAPI, (CCBAPI.marshal r).getPath? ["Response", "Individuals", "Individual", "FamilyImage"]
      = some (.str r.Response.Individuals.Individual.FamilyImage) := fun _ => rfl
  rw [hjson, sub_CCBAPI_Response_Individuals_Individual v L hok]
  exact congrArg (fun s => some (JSON.str s)) (all_Individual_FamilyImage _ _ (ok_reach _ _ hok))

theorem leaf_CCBAPI_Response_Individuals_Individual_FamilyPosition (v : CCBAPI) (L : List xml.Node) (hok : xml.ok L) :
    (CCBAPI.marshal (xml.decodeAll CCBAPI.unmarshal v L)).getPath? ["Response", "Individuals", "Individual", "FamilyPosition"]
      = some (.str ((Leaf.values
          ⟨["response", "individuals", "individual", "family_position"], none,
            ["Response", "Individuals", "Individual", "FamilyPosition"]⟩ L).getLast?.getD
          v.Response.Individuals.Individual.FamilyPosition)) := by
  have hjson : ∀ r : CCBAPI, (CCBAPI.marshal r).getPath? ["Response", "Individuals", "Individual", "FamilyPosition"]
      = some (.str r.Response.Individuals.Individual.FamilyPosition) := fun _ => rfl
  rw [hjson, sub_CCBAPI_Response_Individuals_Individual v L hok]
  exact congrArg (fun s => some (JSON.str s)) (all_Individual_FamilyPosition _ _ (ok_reach _ _ hok))

theorem leaf_CCBAPI_Response_Individuals_Individual_FamilyMembers (v : CCBAPI) (L : List xml.Node) (hok : xml.ok L) :
    (CCBAPI.marshal (xml.decodeAll CCBAPI.unmarshal v L)).getPath? ["Response", "Individuals", "Individual", "FamilyMembers"]
      = some (.str ((Leaf.values
          ⟨["response", "individuals", "individual", "family_members"], none,
            ["Response", "Individuals", "Individual", "FamilyMembers"]⟩ L).getLast?.getD
          v.Response.Individuals.Individual.FamilyMembers)) := by
  have hjson : ∀ r : CCBAPI, (CCBAPI.marshal r).getPath? ["Response", "Individuals", "Individual", "FamilyMembers"]
      = some (.str r.Response.Individuals.Individual.FamilyMembers) := fun _ => rfl
  rw [hjson, sub_CCBAPI_Response_Individuals_Individual v L hok]
  exact congrArg (fun s => some (JSON.str s)) (all_Individual_FamilyMembers _ _ (ok_reach _ _ hok))

theorem leaf_CCBAPI_Response_Individuals_Individual_FirstName (v : CCBAPI) (L : List xml.Node) (hok : xml.ok L) :
    (CCBAPI.marshal (xml.decodeAll CCBAPI.unmarshal v L)).getPath? ["Response", "Individuals", "Individual", "FirstName"]
      = some (.str ((Leaf.values
          ⟨["response", "individuals", "individual", "first_name"], none,
            ["Response", "Individuals", "Individual", "FirstName"]⟩ L).getLast?.getD
          v.Response.Individuals.Individual.FirstName)) := by
  have hjson : ∀ r : CCBAPI, (CCBAPI.marshal r).getPath? ["Response", "Individuals", "Individual", "FirstName"]
      = some (.str r.Response.Individuals.Individual.FirstName) := fun _ => rfl
  rw [hjson, sub_CCBAPI_Response_Individuals_Individual v L hok]
  exact congrArg (fun s => some (JSON.str s)) (all_Individual_FirstName _ _ (ok_reach _ _ hok))

theorem leaf_CCBAPI_Response_Individuals_Individual_LastName (v : CCBAPI) (L : List xml.Node) (hok : xml.ok L) :
    (CCBAPI.marshal (xml.decodeAll CCBAPI.unmarshal v L)).getPath? ["Response", "Individuals", "Individual", "LastName"]
      = some (.str ((Leaf.values
          ⟨["response", "individuals", "individual", "last_name"], none,
            ["Response", "Individuals", "Individual", "LastName"]⟩ L).getLast?.getD
          v.Response.Individuals.Individual.LastName)) := by
  have hjson : ∀ r : CCBAPI, (CCBAPI.marshal r).getPath? ["Response", "Individuals", "Individual", "LastName"]
      = some (.str r.Response.Individuals.Individual.LastName) := fun _ => rfl
  rw [hjson, sub_CCBAPI_Response_Individuals_Individual v L hok]
  exact congrArg (fun s => some (JSON.str s)) (all_Individual_LastName _ _ (ok_reach _ _ hok))

theorem leaf_CCBAPI_Response_Individuals_Individual_MiddleName (v : CCBAPI) (L : List xml.Node) (hok : xml.ok L) :
    (CCBAPI.marshal (xml.decodeAll CCBAPI.unmarshal v L)).getPath? ["Response", "Individuals", "Individual", "MiddleName"]
      = some (.str ((Leaf.values
          ⟨["response", "individuals", "individual", "middle_name"], none,
            ["Response", "Individuals", "Individual", "MiddleName"]⟩ L).getLast?.getD
          v.Response.Individuals.Individual.MiddleName)) := by
  have hjson : ∀ r : CCBAPI, (CCBAPI.marshal r).getPath? ["Response", "Individuals", "Individual", "MiddleName"]
      = some (.str r.Response.Individuals.Individual.MiddleName) := fun _ => rfl
  rw [hjson, sub_CCBAPI_Response_Individuals_Individual v L hok]
  exact congrArg (fun s => some (JSON.str s)) (all_Individual_MiddleName _ _ (ok_reach _ _ hok))

theorem leaf_CCBAPI_Response_Individuals_Individual_LegalFirstName (v : CCBAPI) (L : List xml.Node) (hok : xml.ok L) :
    (CCBAPI.marshal (xml.decodeAll CCBAPI.unmarshal v L)).getPath? ["Response", "Individuals", "Individual", "LegalFirstName"]
      = some (.str ((Leaf.values
          ⟨["response", "individuals", "individual", "legal_first_name"], none,
            ["Response", "Individuals", "Individual", "LegalFirstName"]⟩ L).getLast?.getD
          v.Response.Individuals.Individual.LegalFirstName)) := by
  have hjson : ∀ r : CCBAPI, (CCBAPI.marshal r).getPath? ["Response", "Individuals", "Individual", "LegalFirstName"]
      = some (.str r.Response.Individuals.Individual.LegalFirstName) := fun _ => rfl
  rw [hjson, sub_CCBAPI_Response_Individuals_Individual v L hok]
  exact congrArg (fun s => some (JSON.str s)) (all_Individual_LegalFirstName _ _ (ok_reach _ _ hok))

theorem leaf_CCBAPI_Response_Individuals_Individual_FullName (v : CCBAPI) (L : List xml.Node) (hok : xml.ok L) :
    (CCBAPI.marshal (xml.decodeAll CCBAPI.unmarshal v L)).getPath? ["Response", "Individuals", "Individual", "FullName"]
      = some (.str ((Leaf.values
          ⟨["response", "individuals", "individual", "full_name"], none,
            ["Response", "Individuals", "Individual", "FullName"]⟩ L).getLast?.getD
          v.Response.Individuals.Individual.FullName)) := by
  have hjson : ∀ r : CCBAPI, (CCBAPI.marshal r).getPath? ["Response", "Individuals", "Individual", "FullName"]
      = some (.str r.Response.Individuals.Individual.FullName) := fun _ => rfl
  rw [hjson, sub_CCBAPI_Response_Individuals_Individual v L hok]
  exact congrArg (fun s => some (JSON.str s)) (all_Individual_FullName _ _ (ok_reach _ _ hok))

theorem leaf_CCBAPI_Response_Individuals_Individual_Salutation (v : CCBAPI) (L : List xml.Node) (hok : xml.ok L) :
    (CCBAPI.marshal (xml.decodeAll CCBAPI.unmarshal v L)).getPath? ["Response", "Individuals", "Individual", "Salutation"]
      = some (.str ((Leaf.values
          ⟨["response", "individuals", "individual", "salutation"], none,
            ["Response", "Individuals", "Individual", "Salutation"]⟩ L).getLast?.getD
          v.Response.Individuals.Individual.Salutation)) := by
  have hjson : ∀ r : CCBAPI, (CCBAPI.marshal r).getPath? ["Response", "Individuals", "Individual", "Salutation"]
      = some (.str r.Response.Individuals.Individual.Salutation) := fun _ => rfl
  rw [hjson, sub_CCBAPI_Response_Individuals_Individual v L hok]
  exact congrArg (fun s => some (JSON.str s)) (all_Individual_Salutation _ _ (ok_reach _ _ hok))

theorem leaf_CCBAPI_Response_Individuals_Individual_Suffix (v : CCBAPI) (L : List xml.Node) (hok : xml.ok L) :
    (CCBAPI.marshal (xml.decodeAll CCBAPI.unmarshal v L)).getPath? ["Response", "Individuals", "Individual", "Suffix"]
      = some (.str ((Leaf.values
          ⟨["response", "individuals", "individual", "suffix"], none,
            ["Response", "Individuals", "Individual", "Suffix"]⟩ L).getLast?.getD
          v.Response.Individuals.Individual.Suffix)) := by
  have hjson : ∀ r : CCBAPI, (CCBAPI.marshal r).getPath? ["Response", "Individuals", "Individual", "Suffix"]
      = some (.str r.Response.Individuals.Individual.Suffix) := fun _ => rfl
  rw [hjson, sub_CCBAPI_Response_Individuals_Individual v L hok]
  exact congrArg (fun s => some (JSON.str s)) (all_Individual_Suffix _ _ (ok_reach _ _ hok))

theorem leaf_CCBAPI_Response_Individuals_Individual_Image (v : CCBAPI) (L : List xml.Node) (hok : xml.ok L) :
    (CCBAPI.marshal (xml.decodeAll CCBAPI.unmarshal v L)).getPath? ["Response", "Individuals", "Individual", "Image"]
      = some (.str ((Leaf.values
          ⟨["response", "individuals", "individual", "image"], none,
            ["Response", "Individuals", "Individual", "Image"]⟩ L).getLast?.getD
          v.Response.Individuals.Individual.Image)) := by
  have hjson : ∀ r : CCBAPI, (CCBAPI.marshal r).getPath? ["Response", "Individuals", "Individual", "Image"]
      = some (.str r.Response.Individuals.Individual.Image) := fun _ => rfl
  rw [hjson, sub_CCBAPI_Response_Individuals_Individual v L hok]
  exact congrArg (fun s => some (JSON.str s)) (all_Individual_Image _ _ (ok_reach _ _ hok))

theorem leaf_CCBAPI_Response_Individuals_Individual_Email (v : CCBAPI) (L : List xml.Node) (hok : xml.ok L) :
    (CCBAPI.marshal (xml.decodeAll CCBAPI.unmarshal v L)).getPath? ["Response", "Individuals", "Individual", "Email"]
      = some (.str ((Leaf.values
          ⟨["response", "individuals", "individual", "email"], none,
            ["Response", "Individuals", "Individual", "Email"]⟩ L).getLast?.getD
          v.Response.Individuals.Individual.Email)) := by
  have hjson : ∀ r : CCBAPI, (CCBAPI.marshal r).getPath? ["Response", "Individuals", "Individual", "Email"]
      = some (.str r.Response.Individuals.Individual.Email) := fun _ => rfl
  rw [hjson, sub_CCBAPI_Response_Individuals_Individual v L hok]
  exact congrArg (fun s => some (JSON.str s)) (all_Individual_Email _ _ (ok_reach _ _ hok))

theorem leaf_CCBAPI_Response_Individuals_Individual_Allergies (v : CCBAPI) (L : List xml.Node) (hok : xml.ok L) :
    (CCBAPI.marshal (xml.decodeAll CCBAPI.unmarshal v L)).getPath? ["Response", "Individuals", "Individual", "Allergies"]
      = some (.str ((Leaf.values
          ⟨["response", "individuals", "individual", "allergies"], none,
            ["Response", "Individuals", "Individual", "Allergies"]⟩ L).getLast?.getD
          v.Response.Individuals.Individual.Allergies)) := by
  have hjson : ∀ r : CCBAPI, (CCBAPI.marshal r).getPath? ["Response", "Individuals", "Individual", "Allergies"]
      = some (.str r.Response.Individuals.Individual.Allergies) := fun _ => rfl
  rw [hjson, sub_CCBAPI_Response_Individuals_Individual v L hok]
  exact congrArg (fun s => some (JSON.str s)) (all_Individual_Allergies _ _ (ok_reach _ _ hok))

theorem leaf_CCBAPI_Response_Individuals_Individual_ConfirmedNoAllergies (v : CCBAPI) (L : List xml.Node) (hok : xml.ok L) :
    (CCBAPI.marshal (xml.decodeAll CCBAPI.unmarshal v L)).getPath? ["Response", "Individuals", "Individual", "ConfirmedNoAllergies"]
      = some (.str ((Leaf.values
          ⟨["response", "individuals", "individual", "confirmed_no_allergies"], none,
            ["Response", "Individuals", "Individual", "ConfirmedNoAllergies"]⟩ L).getLast?.getD
          v.Response.Individuals.Individual.ConfirmedNoAllergies)) := by
  have hjson : ∀ r : CCBAPI, (CCBAPI.marshal r).getPath? ["Response", "Individuals", "Individual", "ConfirmedNoAllergies"]
      = some (.str r.Response.Individuals.Individual.ConfirmedNoAllergies) := fun _ => rfl
  rw [hjson, sub_CCBAPI_Response_Individuals_Individual v L hok]
  exact congrArg (fun s => some (JSON.str s)) (all_Individual_ConfirmedNoAllergies _ _ (ok_reach _ _ hok))

theorem leaf_CCBAPI_Response_Individuals_Individual_MobileCarrier_ID (v : CCBAPI) (L : List xml.Node) (hok : xml.ok L) :
    (CCBAPI.marshal (xml.decodeAll CCBAPI.unmarshal v L)).getPath? ["Response", "Individuals", "Individual", "MobileCarrier", "ID"]
      = some (.str ((Leaf.values
          ⟨["response", "individuals", "individual", "mobile_carrier"], some "id",
            ["Response", "Individuals", "Individual", "MobileCarrier", "ID"]⟩ L).getLast?.getD
          v.Response.Individuals.Individual.MobileCarrier.ID)) := by
  have hjson : ∀ r : CCBAPI, (CCBAPI.marshal r).getPath? ["Response", "Individuals", "Individual", "MobileCarrier", "ID"]
      = some (.str r.Response.Individuals.Individual.MobileCarrier.ID) := fun _ => rfl
  rw [hjson, sub_CCBAPI_Response_Individuals_Individual_MobileCarrier v L hok]
  exact congrArg (fun s => some (JSON.str s)) (all_IDRef_ID _ _ (ok_reach _ _ hok))

theorem leaf_CCBAPI_Response_Individuals_Individual_Gender (v : CCBAPI) (L : List xml.Node) (hok : xml.ok L) :
    (CCBAPI.marshal (xml.decodeAll CCBAPI.unmarshal v L)).getPath? ["Response", "Individuals", "Individual", "Gender"]
      = some (.str ((Leaf.values
          ⟨["response", "individuals", "individual", "gender"], none,
            ["Response", "Individuals", "Individual", "Gender"]⟩ L).getLast?.getD
          v.Response.Individuals.Individual.Gender)) := by
  have hjson : ∀ r : CCBAPI, (CCBAPI.marshal r).getPath? ["Response", "Individuals", "Individual", "Gender"]
      = some (.str r.Response.Individuals.Individual.Gender) := fun _ => rfl
  rw [hjson, sub_CCBAPI_Response_Individuals_Individual v L hok]
  exact congrArg (fun s => some (JSON.str s)) (all_Individual_Gender _ _ (ok_reach _ _ hok))

theorem leaf_CCBAPI_Response_Individuals_Individual_MaritalStatus (v : CCBAPI) (L : List xml.Node) (hok : xml.ok L) :
    (CCBAPI.marshal (xml.decodeAll CCBAPI.unmarshal v L)).getPath? ["Response", "Individuals", "Individual", "MaritalStatus"]
      = some (.str ((Leaf.values
          ⟨["response", "individuals", "individual", "marital_status"], none,
            ["Response", "Individuals", "Individual", "MaritalStatus"]⟩ L).getLast?.getD
          v.Response.Individuals.Individual.MaritalStatus)) := by
  have hjson : ∀ r : CCBAPI, (CCBAPI.marshal r).getPath? ["Response", "Individuals", "Individual", "MaritalStatus"]
      = some (.str r.Response.Individuals.Individual.MaritalStatus) := fun _ => rfl
  rw [hjson, sub_CCBAPI_Response_Individuals_Individual v L hok]
  exact congrArg (fun s => some (JSON.str s)) (all_Individual_MaritalStatus _ _ (ok_reach _ _ hok))

theorem leaf_CCBAPI_Response_Individuals_Individual_Birthday (v : CCBAPI) (L : List xml.Node) (hok : xml.ok L) :
    (CCBAPI.marshal (xml.decodeAll CCBAPI.unmarshal v L)).getPath? ["Response", "Individuals", "Individual", "Birthday"]
      = some (.str ((Leaf.values
          ⟨["response", "individuals", "individual", "birthday"], none,
            ["Response", "Individuals", "Individual", "Birthday"]⟩ L).getLast?.getD
          v.Response.Individuals.Individual.Birthday)) := by
  have hjson : ∀ r : CCBAPI, (CCBAPI.marshal r).getPath? ["Response", "Individuals", "Individual", "Birthday"]
      = some (.str r.Response.Individuals.Individual.Birthday) := fun _ => rfl
  rw [hjson, sub_CCBAPI_Response_Individuals_Individual v L hok]
  exact congrArg (fun s => some (JSON.str s)) (all_Individual_Birthday _ _ (ok_reach _ _ hok))

theorem leaf_CCBAPI_Response_Individuals_Individual_Anniversary (v : CCBAPI) (L : List xml.Node) (hok : xml.ok L) :
    (CCBAPI.marshal (xml.decodeAll CCBAPI.unmarshal v L)).getPath? ["Response", "Individuals", "Individual", "Anniversary"]
      = some (.str ((Leaf.values
          ⟨["response", "individuals", "individual", "anniversary"], none,
            ["Response", "Individuals", "Individual", "Anniversary"]⟩ L).getLast?.getD
          v.Response.Individuals.Individual.Anniversary)) := by
  have hjson : ∀ r : CCBAPI, (CCBAPI.marshal r).getPath? ["Response", "Individuals", "Individual", "Anniversary"]
      = some (.str r.Response.Individuals.Individual.Anniversary) := fun _ => rfl
  rw [hjson, sub_CCBAPI_Response_Individuals_Individual v L hok]
  exact congrArg (fun s => some (JSON.str s)) (all_Individual_Anniversary _ _ (ok_reach _ _ hok))

theorem leaf_CCBAPI_Response_Individuals_Individual_Baptized (v : CCBAPI) (L : List xml.Node) (hok : xml.ok L) :
    (CCBAPI.marshal (xml.decodeAll CCBAPI.unmarshal v L)).getPath? ["Response", "Individuals", "Individual", "Baptized"]
      = some (.str ((Leaf.values
          ⟨["response", "individuals", "individual", "baptized"], none,
            ["Response", "Individuals", "Individual", "Baptized"]⟩ L).getLast?.getD
          v.Response.Individuals.Individual.Baptized)) := by
  have hjson : ∀ r : CCBAPI, (CCBAPI.marshal r).getPath? ["Response", "Individuals", "Individual", "Baptized"]
      = some (.str r.Response.Individuals.Individual.Baptized) := fun _ => rfl
  rw [hjson, sub_CCBAPI_Response_Individuals_Individual v L hok]
  exact congrArg (fun s => some (JSON.str s)) (all_Individual_Baptized _ _ (ok_reach _ _ hok))

theorem leaf_CCBAPI_Response_Individuals_Individual_Deceased (v : CCBAPI) (L : List xml.Node) (hok : xml.ok L) :
    (CCBAPI.marshal (xml.decodeAll CCBAPI.unmarshal v L)).getPath? ["Response", "Individuals", "Individual", "Deceased"]
      = some (.str ((Leaf.values
          ⟨["response", "individuals", "individual", "deceased"], none,
            ["Response", "Individuals", "Individual", "Deceased"]⟩ L).getLast?.getD
          v.Response.Individuals.Individual.Deceased)) := by
  have hjson : ∀ r : CCBAPI, (CCBAPI.marshal r).getPath? ["Response", "Individuals", "Individual", "Deceased"]
      = some (.str r.Response.Individuals.Individual.Deceased) := fun _ => rfl
  rw [hjson, sub_CCBAPI_Response_Individuals_Individual v L hok]
  exact congrArg (fun s => some (JSON.str s)) (all_Individual_Deceased _ _ (ok_reach _ _ hok))

theorem leaf_CCBAPI_Response_Individuals_Individual_MembershipType_ID (v : CCBAPI) (L : List xml.Node) (hok : xml.ok L) :
    (CCBAPI.marshal (xml.decodeAll CCBAPI.unmarshal v L)).getPath? ["Response", "Individuals", "Individual", "MembershipType", "ID"]
      = some (.str ((Leaf.values
          ⟨["response", "individuals", "individual", "membership_type"], some "id",
            ["Response", "Individuals", "Individual", "MembershipType", "ID"]⟩ L).getLast?.getD
          v.Response.Individuals.Individual.MembershipType.ID)) := by
  have hjson : ∀ r : CCBAPI, (CCBAPI.marshal r).getPath? ["Response", "Individuals", "Individual", "MembershipType", "ID"]
      = some (.str r.Response.Individuals.Individual.MembershipType.ID) := fun _ => rfl
  rw [hjson, sub_CCBAPI_Response_Individuals_Individual_MembershipType v L hok]
  exact congrArg (fun s => some (JSON.str s)) (all_IDRef_ID _ _ (ok_reach _ _ hok))

theorem leaf_CCBAPI_Response_Individuals_Individual_MembershipDate (v : CCBAPI) (L : List xml.Node) (hok : xml.ok L) :
    (CCBAPI.marshal (xml.decodeAll CCBAPI.unmarshal v L)).getPath? ["Response", "Individuals", "Individual", "MembershipDate"]
      = some (.str ((Leaf.values
          ⟨["response", "individuals", "individual", "membership_date"], none,
            ["Response", "Individuals", "Individual", "MembershipDate"]⟩ L).getLast?.getD
          v.Response.Individuals.Individual.MembershipDate)) := by
  have hjson : ∀ r : CCBAPI, (CCBAPI.marshal r).getPath? ["Response", "Individuals", "Individual", "MembershipDate"]
      = some (.str r.Response.Individuals.Individual.MembershipDate) := fun _ => rfl
  rw [hjson, sub_CCBAPI_Response_Individuals_Individual v L hok]
  exact congrArg (fun s => some (JSON.str s)) (all_Individual_MembershipDate _ _ (ok_reach _ _ hok))

theorem leaf_CCBAPI_Response_Individuals_Individual_MembershipEnd (v : CCBAPI) (L : List xml.Node) (hok : xml.ok L) :
    (CCBAPI.marshal (xml.decodeAll CCBAPI.unmarshal v L)).getPath? ["Response", "Individuals", "Individual", "MembershipEnd"]
      = some (.str ((Leaf.values
          ⟨["response", "individuals", "individual", "membership_end"], none,
            ["Response", "Individuals", "Individual", "MembershipEnd"]⟩ L).getLast?.getD
          v.Response.Individuals.Individual.MembershipEnd)) := by
  have hjson : ∀ r : CCBAPI, (CCBAPI.marshal r).getPath? ["Response", "Individuals", "Individual", "MembershipEnd"]
      = some (.str r.Response.Individuals.Individual.MembershipEnd) := fun _ => rfl
  rw [hjson, sub_CCBAPI_Response_Individuals_Individual v L hok]
  exact congrArg (fun s => some (JSON.str s)) (all_Individual_MembershipEnd _ _ (ok_reach _ _ hok))

theorem leaf_CCBAPI_Response_Individuals_Individual_ReceiveEmailFromChurch (v : CCBAPI) (L : List xml.Node) (hok : xml.ok L) :
    (CCBAPI.marshal (xml.decodeAll CCBAPI.unmarshal v L)).getPath? ["Response", "Individuals", "Individual", "ReceiveEmailFromChurch"]
      = some (.str ((Leaf.values
          ⟨["response", "individuals", "individual", "receive_email_from_church"], none,
            ["Response", "Individuals", "Individual", "ReceiveEmailFromChurch"]⟩ L).getLast?.getD
          v.Response.Individuals.Individual.ReceiveEmailFromChurch)) := by
  have hjson : ∀ r : CCBAPI, (CCBAPI.marshal r).getPath? ["Response", "Individuals", "Individual", "ReceiveEmailFromChurch"]
      = some (.str r.Response.Individuals.Individual.ReceiveEmailFromChurch) := fun _ => rfl
  rw [hjson, sub_CCBAPI_Response_Individuals_Individual v L hok]
  exact congrArg (fun s => some (JSON.str s)) (all_Individual_ReceiveEmailFromChurch _ _ (ok_reach _ _ hok))

theorem leaf_CCBAPI_Response_Individuals_Individual_DefaultNewGroupMessages (v : CCBAPI) (L : List xml.Node) (hok : xml.ok L) :
    (CCBAPI.marshal (xml.decodeAll CCBAPI.unmarshal v L)).getPath? ["Response", "Individuals", "Individual", "DefaultNewGroupMessages"]
      = some (.str ((Leaf.values
          ⟨["response", "individuals", "individual", "default_new_group_messages"], none,
            ["Response", "Individuals", "Individual", "DefaultNewGroupMessages"]⟩ L).getLast?.getD
          v.Response.Individuals.Individual.DefaultNewGroupMessages)) := by
  have hjson : ∀ r : CCBAPI, (CCBAPI.marshal r).getPath? ["Response", "Individuals", "Individual", "DefaultNewGroupMessages"]
      = some (.str r.Response.Individuals.Individual.DefaultNewGroupMessages) := fun _ => rfl
  rw [hjson, sub_CCBAPI_Response_Individuals_Individual v L hok]
  exact congrArg (fun s => some (JSON.str s)) (all_Individual_DefaultNewGroupMessages _ _ (ok_reach _ _ hok))

theorem leaf_CCBAPI_Response_Individuals_Individual_DefaultNewGroupComments (v : CCBAPI) (L : List xml.Node) (hok : xml.ok L) :
    (CCBAPI.marshal (xml.decodeAll CCBAPI.unmarshal v L)).getPath? ["Response", "Individuals", "Individual", "DefaultNewGroupComments"]
      = some (.str ((Leaf.values
          ⟨["response", "individuals", "individual", "default_new_group_comments"], none,
            ["Response", "Individuals", "Individual", "DefaultNewGroupComments"]⟩ L).getLast?.getD
          v.Response.Individuals.Individual.DefaultNewGroupComments)) := by
  have hjson : ∀ r : CCBAPI, (CCBAPI.marshal r).getPath? ["Response", "Individuals", "Individual", "DefaultNewGroupComments"]
      = some (.str r.Response.Individuals.Individual.DefaultNewGroupComments) := fun _ => rfl
  rw [hjson, sub_CCBAPI_Response_Individuals_Individual v L hok]
  exact congrArg (fun s => some (JSON.str s)) (all_Individual_DefaultNewGroupComments _ _ (ok_reach _ _ hok))

theorem leaf_CCBAPI_Response_Individuals_Individual_DefaultNewGroupDigest (v : CCBAPI) (L : List xml.Node) (hok : xml.ok L) :
    (CCBAPI.marshal (xml.decodeAll CCBAPI.unmarshal v L)).getPath? ["Response", "Individuals", "Individual", "DefaultNewGroupDigest"]
      = some (.str ((Leaf.values
          ⟨["response", "individuals", "individual", "default_new_group_digest"], none,
            ["Response", "Individuals", "Individual", "DefaultNewGroupDigest"]⟩ L).getLast?.getD
          v.Response.Individuals.Individual.DefaultNewGroupDigest)) := by
  have hjson : ∀ r : CCBAPI, (CCBAPI.marshal r).getPath? ["Response", "Individuals", "Individual", "DefaultNewGroupDigest"]
      = some (.str r.Response.Individuals.Individual.DefaultNewGroupDigest) := fun _ => rfl
  rw [hjson, sub_CCBAPI_Response_Individuals_Individual v L hok]
  exact congrArg (fun s => some (JSON.str s)) (all_Individual_DefaultNewGroupDigest _ _ (ok_reach _ _ hok))

theorem leaf_CCBAPI_Response_Individuals_Individual_DefaultNewGroupSms (v : CCBAPI) (L : List xml.Node) (hok : xml.ok L) :
    (CCBAPI.marshal (xml.decodeAll CCBAPI.unmarshal v L)).getPath? ["Response", "Individuals", "Individual", "DefaultNewGroupSms"]
      = some (.str ((Leaf.values
          ⟨["response", "individuals", "individual", "default_new_group_sms"], none,
            ["Response", "Individuals", "Individual", "DefaultNewGroupSms"]⟩ L).getLast?.getD
          v.Response.Individuals.Individual.DefaultNewGroupSms)) := by
  have hjson : ∀ r : CCBAPI, (CCBAPI.marshal r).getPath? ["Response", "Individuals", "Individual", "DefaultNewGroupSms"]
      = some (.str r.Response.Individuals.Individual.DefaultNewGroupSms) := fun _ => rfl
  rw [hjson, sub_CCBAPI_Response_Individuals_Individual v L hok]
  exact congrArg (fun s => some (JSON.str s)) (all_Individual_DefaultNewGroupSms _ _ (ok_reach _ _ hok))

theorem leaf_CCBAPI_Response_Individuals_Individual_PrivacySettings_ProfileListed (v : CCBAPI) (L : List xml.Node) (hok : xml.ok L) :
    (CCBAPI.marshal (xml.decodeAll CCBAPI.unmarshal v L)).getPath? ["Response", "Individuals", "Individual", "PrivacySettings", "ProfileListed"]
      = some (.str ((Leaf.values
          ⟨["response", "individuals", "individual", "privacy_settings", "profile_listed"],
            none, ["Response", "Individuals", "Individual", "PrivacySettings", "ProfileListed"]⟩ L).getLast?.getD
          v.Response.Individuals.Individual.PrivacySettings.ProfileListed)) := by
  have hjson : ∀ r : CCBAPI, (CCBAPI.marshal r).getPath? ["Response", "Individuals", "Individual", "PrivacySettings", "ProfileListed"]
      = some (.str r.Response.Individuals.Individual.PrivacySettings.ProfileListed) := fun _ => rfl
  rw [hjson, sub_CCBAPI_Response_Individuals_Individual_PrivacySettings v L hok]
  exact congrArg (fun s => some (JSON.str s)) (all_PrivacySettings_ProfileListed _ _ (ok_reach _ _ hok))

theorem leaf_CCBAPI_Response_Individuals_Individual_PrivacySettings_MailingAddress_ID (v : CCBAPI) (L : List xml.Node) (hok : xml.ok L) :
    (CCBAPI.marshal (xml.decodeAll CCBAPI.unmarshal v L)).getPath? ["Response", "Individuals", "Individual", "PrivacySettings", "MailingAddress", "ID"]
      = some (.str ((Leaf.values
          ⟨["response", "individuals", "individual", "privacy_settings", "mailing_address"],
            some "id", ["Response", "Individuals", "Individual", "PrivacySettings", "MailingAddress", "ID"]⟩ L).getLast?.getD
          v.Response.Individuals.Individual.PrivacySettings.MailingAddress.ID)) := by
  have hjson : ∀ r : CCBAPI, (CCBAPI.marshal r).getPath? ["Response", "Individuals", "Individual", "PrivacySettings", "MailingAddress", "ID"]
      = some (.str r.Response.Individuals.Individual.PrivacySettings.MailingAddress.ID) := fun _ => rfl
  rw [hjson, sub_CCBAPI_Response_Individuals_Individual_PrivacySettings_MailingAddress v L hok]
  exact congrArg (fun s => some (JSON.str s)) (all_IDRef_ID _ _ (ok_reach _ _ hok))

theorem leaf_CCBAPI_Response_Individuals_Individual_PrivacySettings_HomeAddress_ID (v : CCBAPI) (L : List xml.Node) (hok : xml.ok L) :
    (CCBAPI.marshal (xml.decodeAll CCBAPI.unmarshal v L)).getPath? ["Response", "Individuals", "Individual", "PrivacySettings", "HomeAddress", "ID"]
      = some (.str ((Leaf.values
          ⟨["response", "individuals", "individual", "privacy_settings", "home_address"],
            some "id", ["Response", "Individuals", "Individual", "PrivacySettings", "HomeAddress", "ID"]⟩ L).getLast?.getD
          v.Response.Individuals.Individual.PrivacySettings.HomeAddress.ID)) := by
  have hjson : ∀ r : CCBAPI, (CCBAPI.marshal r).getPath? ["Response", "Individuals", "Individual", "PrivacySettings", "HomeAddress", "ID"]
      = some (.str r.Response.Individuals.Individual.PrivacySettings.HomeAddress.ID) := fun _ => rfl
  rw [hjson, sub_CCBAPI_Response_Individuals_Individual_PrivacySettings_HomeAddress v L hok]
  exact congrArg (fun s => some (JSON.str s)) (all_IDRef_ID _ _ (ok_reach _ _ hok))

theorem leaf_CCBAPI_Response_Individuals_Individual_PrivacySettings_HomePhone_ID (v : CCBAPI) (L : List xml.Node) (hok : xml.ok L) :
    (CCBAPI.marshal (xml.decodeAll CCBAPI.unmarshal v L)).getPath? ["Response", "Individuals", "Individual", "PrivacySettings", "HomePhone", "ID"]
      = some (.str ((Leaf.values
          ⟨["response", "individuals", "individual", "privacy_settings", "home_phone"],
            some "id", ["Response", "Individuals", "Individual", "PrivacySettings", "HomePhone", "ID"]⟩ L).getLast?.getD
          v.Response.Individuals.Individual.PrivacySettings.HomePhone.ID)) := by
  have hjson : ∀ r : CCBAPI, (CCBAPI.marshal r).getPath? ["Response", "Individuals", "Individual", "PrivacySettings", "HomePhone", "ID"]
      = some (.str r.Response.Individuals.Individual.PrivacySettings.HomePhone.ID) := fun _ => rfl
  rw [hjson, sub_CCBAPI_Response_Individuals_Individual_PrivacySettings_HomePhone v L hok]
  exact congrArg (fun s => some (JSON.str s)) (all_IDRef_ID _ _ (ok_reach _ _ hok))

theorem leaf_CCBAPI_Response_Individuals_Individual_PrivacySettings_WorkPhone_ID (v : CCBAPI) (L : List xml.Node) (hok : xml.ok L) :
    (CCBAPI.marshal (xml.decodeAll CCBAPI.unmarshal v L)).getPath? ["Response", "Individuals", "Individual", "PrivacySettings", "WorkPhone", "ID"]
      = some (.str ((Leaf.values
          ⟨["response", "individuals", "individual", "privacy_settings", "work_phone"],
            some "id", ["Response", "Individuals", "Individual", "PrivacySettings", "WorkPhone", "ID"]⟩ L).getLast?.getD
          v.Response.Individuals.Individual.PrivacySettings.WorkPhone.ID)) := by
  have hjson : ∀ r : CCBAPI, (CCBAPI.marshal r).getPath? ["Response", "Individuals", "Individual", "PrivacySettings", "WorkPhone", "ID"]
      = some (.str r.Response.Individuals.Individual.PrivacySettings.WorkPhone.ID) := fun _ => rfl
  rw [hjson, sub_CCBAPI_Response_Individuals_Individual_PrivacySettings_WorkPhone v L hok]
  exact congrArg (fun s => some (JSON.str s)) (all_IDRef_ID _ _ (ok_reach _ _ hok))

theorem leaf_CCBAPI_Response_Individuals_Individual_PrivacySettings_MobilePhone_ID (v : CCBAPI) (L : List xml.Node) (hok : xml.ok L) :
    (CCBAPI.marshal (xml.decodeAll CCBAPI.unmarshal v L)).getPath? ["Response", "Individuals", "Individual", "PrivacySettings", "MobilePhone", "ID"]
      = some (.str ((Leaf.values
          ⟨["response", "individuals", "individual", "privacy_settings", "mobile_phone"],
            some "id", ["Response", "Individuals", "Individual", "PrivacySettings", "MobilePhone", "ID"]⟩ L).getLast?.getD
          v.Response.Individuals.Individual.PrivacySettings.MobilePhone.ID)) := by
  have hjson : ∀ r : CCBAPI, (CCBAPI.marshal r).getPath? ["Response", "Individuals", "Individual", "PrivacySettings", "MobilePhone", "ID"]
      = some (.str r.Response.Individuals.Individual.PrivacySettings.MobilePhone.ID) := fun _ => rfl
  rw [hjson, sub_CCBAPI_Response_Individuals_Individual_PrivacySettings_MobilePhone v L hok]
  exact congrArg (fun s => some (JSON.str s)) (all_IDRef_ID _ _ (ok_reach _ _ hok))

theorem leaf_CCBAPI_Response_Individuals_Individual_PrivacySettings_EmergencyPhone_ID (v : CCBAPI) (L : List xml.Node) (hok : xml.ok L) :
    (CCBAPI.marshal (xml.decodeAll CCBAPI.unmarshal v L)).getPath? ["Response", "Individuals", "Individual", "PrivacySettings", "EmergencyPhone", "ID"]
      = some (.str ((Leaf.values
          ⟨["response", "individuals", "individual", "privacy_settings", "emergency_phone"],
            some "id", ["Response", "Individuals", "Individual", "PrivacySettings", "EmergencyPhone", "ID"]⟩ L).getLast?.getD
          v.Response.Individuals.Individual.PrivacySettings.EmergencyPhone.ID)) := by
  have hjson : ∀ r : CCBAPI, (CCBAPI.marshal r).getPath? ["Response", "Individuals", "Individual", "PrivacySettings", "EmergencyPhone", "ID"]
      = some (.str r.Response.Individuals.Individual.PrivacySettings.EmergencyPhone.ID) := fun _ => rfl
  rw [hjson, sub_CCBAPI_Response_Individuals_Individual_PrivacySettings_EmergencyPhone v L hok]
  exact congrArg (fun s => some (JSON.str s)) (all_IDRef_ID _ _ (ok_reach _ _ hok))

theorem leaf_CCBAPI_Response_Individuals_Individual_PrivacySettings_Birthday_ID (v : CCBAPI) (L : List xml.Node) (hok : xml.ok L) :
    (CCBAPI.marshal (xml.decodeAll CCBAPI.unmarshal v L)).getPath? ["Response", "Individuals", "Individual", "PrivacySettings", "Birthday", "ID"]
      = some (.str ((Leaf.values
          ⟨["response", "individuals", "individual", "privacy_settings", "birthday"], some "id",
            ["Response", "Individuals", "Individual", "PrivacySettings", "Birthday", "ID"]⟩ L).getLast?.getD
          v.Response.Individuals.Individual.PrivacySettings.Birthday.ID)) := by
  have hjson : ∀ r : CCBAPI, (CCBAPI.marshal r).getPath? ["Response", "Individuals", "Individual", "PrivacySettings", "Birthday", "ID"]
      = some (.str r.Response.Individuals.Individual.PrivacySettings.Birthday.ID) := fun _ => rfl
  rw [hjson, sub_CCBAPI_Response_Individuals_Individual_PrivacySettings_Birthday v L hok]
  exact congrArg (fun s => some (JSON.str s)) (all_IDRef_ID _ _ (ok_reach _ _ hok))

theorem leaf_CCBAPI_Response_Individuals_Individual_PrivacySettings_Anniversary_ID (v : CCBAPI) (L : List xml.Node) (hok : xml.ok L) :
    (CCBAPI.marshal (xml.decodeAll CCBAPI.unmarshal v L)).getPath? ["Response", "Individuals", "Individual", "PrivacySettings", "Anniversary", "ID"]
      = some (.str ((Leaf.values
          ⟨["response", "individuals", "individual", "privacy_settings", "anniversary"],
            some "id", ["Response", "Individuals", "Individual", "PrivacySettings", "Anniversary", "ID"]⟩ L).getLast?.getD
          v.Response.Individuals.Individual.PrivacySettings.Anniversary.ID)) := by
  have hjson : ∀ r : CCBAPI, (CCBAPI.marshal r).getPath? ["Response", "Individuals", "Individual", "PrivacySettings", "Anniversary", "ID"]
      = some (.str r.Response.Individuals.Individual.PrivacySettings.Anniversary.ID) := fun _ => rfl
  rw [hjson, sub_CCBAPI_Response_Individuals_Individual_PrivacySettings_Anniversary v L hok]
  exact congrArg (fun s => some (JSON.str s)) (all_IDRef_ID _ _ (ok_reach _ _ hok))

theorem leaf_CCBAPI_Response_Individuals_Individual_PrivacySettings_Gender_ID (v : CCBAPI) (L : List xml.Node) (hok : xml.ok L) :
    (CCBAPI.marshal (xml.decodeAll CCBAPI.unmarshal v L)).getPath? ["Response", "Individuals", "Individual", "PrivacySettings", "Gender", "ID"]
      = some (.str ((Leaf.values
          ⟨["response", "individuals", "individual", "privacy_settings", "gender"], some "id",
            ["Response", "Individuals", "Individual", "PrivacySettings", "Gender", "ID"]⟩ L).getLast?.getD
          v.Response.Individuals.Individual.PrivacySettings.Gender.ID)) := by
  have hjson : ∀ r : CCBAPI, (CCBAPI.marshal r).getPath? ["Response", "Individuals", "Individual", "PrivacySettings", "Gender", "ID"]
      = some (.str r.Response.Individuals.Individual.PrivacySettings.Gender.ID) := fun _ => rfl
  rw [hjson, sub_CCBAPI_Response_Individuals_Individual_PrivacySettings_Gender v L hok]
  exact congrArg (fun s => some (JSON.str s)) (all_IDRef_ID _ _ (ok_reach _ _ hok))

theorem leaf_CCBAPI_Response_Individuals_Individual_PrivacySettings_MaritalStatus_ID (v : CCBAPI) (L : List xml.Node) (hok : xml.ok L) :
    (CCBAPI.marshal (xml.decodeAll CCBAPI.unmarshal v L)).getPath? ["Response", "Individuals", "Individual", "PrivacySettings", "MaritalStatus", "ID"]
      = some (.str ((Leaf.values
          ⟨["response", "individuals", "individual", "privacy_settings", "marital_status"],
            some "id", ["Response", "Individuals", "Individual", "PrivacySettings", "MaritalStatus", "ID"]⟩ L).getLast?.getD
          v.Response.Individuals.Individual.PrivacySettings.MaritalStatus.ID)) := by
  have hjson : ∀ r : CCBAPI, (CCBAPI.marshal r).getPath? ["Response", "Individuals", "Individual", "PrivacySettings", "MaritalStatus", "ID"]
      = some (.str r.Response.Individuals.Individual.PrivacySettings.MaritalStatus.ID) := fun _ => rfl
  rw [hjson, sub_CCBAPI_Response_Individuals_Individual_PrivacySettings_MaritalStatus v L hok]
  exact congrArg (fun s => some (JSON.str s)) (all_IDRef_ID _ _ (ok_reach _ _ hok))

theorem leaf_CCBAPI_Response_Individuals_Individual_PrivacySettings_UserDefinedFields_ID (v : CCBAPI) (L : List xml.Node) (hok : xml.ok L) :
    (CCBAPI.marshal (xml.decodeAll CCBAPI.unmarshal v L)).getPath? ["Response", "Individuals", "Individual", "PrivacySettings", "UserDefinedFields", "ID"]
      = some (.str ((Leaf.values
          ⟨["response", "individuals", "individual", "privacy_settings", "user_defined_fields"],
            some "id", ["Response", "Individuals", "Individual", "PrivacySettings", "UserDefinedFields", "ID"]⟩ L).getLast?.getD
          v.Response.Individuals.Individual.PrivacySettings.UserDefinedFields.ID)) := by
  have hjson : ∀ r : CCBAPI, (CCBAPI.marshal r).getPath? ["Response", "Individuals", "Individual", "PrivacySettings", "UserDefinedFields", "ID"]
      = some (.str r.Response.Individuals.Individual.PrivacySettings.UserDefinedFields.ID) := fun _ => rfl
  rw [hjson, sub_CCBAPI_Response_Individuals_Individual_PrivacySettings_UserDefinedFields v L hok]
  exact congrArg (fun s => some (JSON.str s)) (all_IDRef_ID _ _ (ok_reach _ _ hok))

theorem leaf_CCBAPI_Response_Individuals_Individual_PrivacySettings_Allergies_ID (v : CCBAPI) (L : List xml.Node) (hok : xml.ok L) :
    (CCBAPI.marshal (xml.decodeAll CCBAPI.unmarshal v L)).getPath? ["Response", "Individuals", "Individual", "PrivacySettings", "Allergies", "ID"]
      = some (.str ((Leaf.values
          ⟨["response", "individuals", "individual", "privacy_settings", "allergies"],
            some "id", ["Response", "Individuals", "Individual", "PrivacySettings", "Allergies", "ID"]⟩ L).getLast?.getD
          v.Response.Individuals.Individual.PrivacySettings.Allergies.ID)) := by
  have hjson : ∀ r : CCBAPI, (CCBAPI.marshal r).getPath? ["Response", "Individuals", "Individual", "PrivacySettings", "Allergies", "ID"]
      = some (.str r.Response.Individuals.Individual.PrivacySettings.Allergies.ID) := fun _ => rfl
  rw [hjson, sub_CCBAPI_Response_Individuals_Individual_PrivacySettings_Allergies v L hok]
  exact congrArg (fun s => some (JSON.str s)) (all_IDRef_ID _ _ (ok_reach _ _ hok))

theorem leaf_CCBAPI_Response_Individuals_Individual_Active (v : CCBAPI) (L : List xml.Node) (hok : xml.ok L) :
    (CCBAPI.marshal (xml.decodeAll CCBAPI.unmarshal v L)).getPath? ["Response", "Individuals", "Individual", "Active"]
      = some (.str ((Leaf.values
          ⟨["response", "individuals", "individual", "active"], none,
            ["Response", "Individuals", "Individual", "Active"]⟩ L).getLast?.getD
          v.Response.Individuals.Individual.Active)) := by
  have hjson : ∀ r : CCBAPI, (CCBAPI.marshal r).getPath? ["Response", "Individuals", "Individual", "Active"]
      = some (.str r.Response.Individuals.Individual.Active) := fun _ => rfl
  rw [hjson, sub_CCBAPI_Response_Individuals_Individual v L hok]
  exact congrArg (fun s => some (JSON.str s)) (all_Individual_Active _ _ (ok_reach _ _ hok))

theorem leaf_CCBAPI_Response_Individuals_Individual_Creator_ID (v : CCBAPI) (L : List xml.Node) (hok : xml.ok L) :
    (CCBAPI.marshal (xml.decodeAll CCBAPI.unmarshal v L)).getPath? ["Response", "Individuals", "Individual", "Creator", "ID"]
      = some (.str ((Leaf.values
          ⟨["response", "individuals", "individual", "creator"], some "id",
            ["Response", "Individuals", "Individual", "Creator", "ID"]⟩ L).getLast?.getD
          v.Response.Individuals.Individual.Creator.ID)) := by
  have hjson : ∀ r : CCBAPI, (CCBAPI.marshal r).getPath? ["Response", "Individuals", "Individual", "Creator", "ID"]
      = some (.str r.Response.Individuals.Individual.Creator.ID) := fun _ => rfl
  rw [hjson, sub_CCBAPI_Response_Individuals_Individual_Creator v L hok]
  exact congrArg (fun s => some (JSON.str s)) (all_IDRef_ID _ _ (ok_reach _ _ hok))

theorem leaf_CCBAPI_Response_Individuals_Individual_Modifier_ID (v : CCBAPI) (L : List xml.Node) (hok : xml.ok L) :
    (CCBAPI.marshal (xml.decodeAll CCBAPI.unmarshal v L)).getPath? ["Response", "Individuals", "Individual", "Modifier", "ID"]
      = some (.str ((Leaf.values
          ⟨["response", "individuals", "individual", "modifier"], some "id",
            ["Response", "Individuals", "Individual", "Modifier", "ID"]⟩ L).getLast?.getD
          v.Response.Individuals.Individual.Modifier.ID)) := by
  have hjson : ∀ r : CCBAPI, (CCBAPI.marshal r).getPath? ["Response", "Individuals", "Individual", "Modifier", "ID"]
      = some (.str r.Response.Individuals.Individual.Modifier.ID) := fun _ => rfl
  rw [hjson, sub_CCBAPI_Response_Individuals_Individual_Modifier v L hok]
  exact congrArg (fun s => some (JSON.str s)) (all_IDRef_ID _ _ (ok_reach _ _ hok))

theorem leaf_CCBAPI_Response_Individuals_Individual_Created (v : CCBAPI) (L : List xml.Node) (hok : xml.ok L) :
    (CCBAPI.marshal (xml.decodeAll CCBAPI.unmarshal v L)).getPath? ["Response", "Individuals", "Individual", "Created"]
      = some (.str ((Leaf.values
          ⟨["response", "individuals", "individual", "created"], none,
            ["Response", "Individuals", "Individual", "Created"]⟩ L).getLast?.getD
          v.Response.Individuals.Individual.Created)) := by
  have hjson : ∀ r : CCBAPI, (CCBAPI.marshal r).getPath? ["Response", "Individuals", "Individual", "Created"]
      = some (.str r.Response.Individuals.Individual.Created) := fun _ => rfl
  rw [hjson, sub_CCBAPI_Response_Individuals_Individual v L hok]
  exact congrArg (fun s => some (JSON.str s)) (all_Individual_Created _ _ (ok_reach _ _ hok))

theorem leaf_CCBAPI_Response_Individuals_Individual_Modified (v : CCBAPI) (L : List xml.Node) (hok : xml.ok L) :
    (CCBAPI.marshal (xml.decodeAll CCBAPI.unmarshal v L)).getPath? ["Response", "Individuals", "Individual", "Modified"]
      = some (.str ((Leaf.values
          ⟨["response", "individuals", "individual", "modified"], none,
            ["Response", "Individuals", "Individual", "Modified"]⟩ L).getLast?.getD
          v.Response.Individuals.Individual.Modified)) := by
  have hjson : ∀ r : CCBAPI, (CCBAPI.marshal r).getPath? ["Response", "Individuals", "Individual", "Modified"]
      = some (.str r.Response.Individuals.Individual.Modified) := fun _ => rfl
  rw [hjson, sub_CCBAPI_Response_Individuals_Individual v L hok]
  exact congrArg (fun s => some (JSON.str s)) (all_Individual_Modified _ _ (ok_reach _ _ hok))

theorem leaf_CCBAPI_Response_Individuals_Individual_UserDefinedTextFields (v : CCBAPI) (L : List xml.Node) (hok : xml.ok L) :
    (CCBAPI.marshal (xml.decodeAll CCBAPI.unmarshal v L)).getPath? ["Response", "Individuals", "Individual", "UserDefinedTextFields"]
      = some (.str ((Leaf.values
          ⟨["response", "individuals", "individual", "user_defined_text_fields"], none,
            ["Response", "Individuals", "Individual", "UserDefinedTextFields"]⟩ L).getLast?.getD
          v.Response.Individuals.Individual.UserDefinedTextFields)) := by
  have hjson : ∀ r : CCBAPI, (CCBAPI.marshal r).getPath? ["Response", "Individuals", "Individual", "UserDefinedTextFields"]
      = some (.str r.Response.Individuals.Individual.UserDefinedTextFields) := fun _ => rfl
  rw [hjson, sub_CCBAPI_Response_Individuals_Individual v L hok]
  exact congrArg (fun s => some (JSON.str s)) (all_Individual_UserDefinedTextFields _ _ (ok_reach _ _ hok))

theorem leaf_CCBAPI_Response_Individuals_Individual_UserDefinedDateFields (v : CCBAPI) (L : List xml.Node) (hok : xml.ok L) :
    (CCBAPI.marshal (xml.decodeAll CCBAPI.unmarshal v L)).getPath? ["Response", "Individuals", "Individual", "UserDefinedDateFields"]
      = some (.str ((Leaf.values
          ⟨["response", "individuals", "individual", "user_defined_date_fields"], none,
            ["Response", "Individuals", "Individual", "UserDefinedDateFields"]⟩ L).getLast?.getD
          v.Response.Individuals.Individual.UserDefinedDateFields)) := by
  have hjson : ∀ r : CCBAPI, (CCBAPI.marshal r).getPath? ["Response", "Individuals", "Individual", "UserDefinedDateFields"]
      = some (.str r.Response.Individuals.Individual.UserDefinedDateFields) := fun _ => rfl
  rw [hjson, sub_CCBAPI_Response_Individuals_Individual v L hok]
  exact congrArg (fun s => some (JSON.str s)) (all_Individual_UserDefinedDateFields _ _ (ok_reach _ _ hok))

theorem leaf_CCBAPI_Response_Individuals_Individual_UserDefinedPulldownFields (v : CCBAPI) (L : List xml.Node) (hok : xml.ok L) :
    (CCBAPI.marshal (xml.decodeAll CCBAPI.unmarshal v L)).getPath? ["Response", "Individuals", "Individual", "UserDefinedPulldownFields"]
      = some (.str ((Leaf.values
          ⟨["response", "individuals", "individual", "user_defined_pulldown_fields"], none,
            ["Response", "Individuals", "Individual", "UserDefinedPulldownFields"]⟩ L).getLast?.getD
          v.Response.Individuals.Individual.UserDefinedPulldownFields)) := by
  have hjson : ∀ r : CCBAPI, (CCBAPI.marshal r).getPath? ["Response", "Individuals", "Individual", "UserDefinedPulldownFields"]
      = some (.str r.Response.Individuals.Individual.UserDefinedPulldownFields) := fun _ => rfl
  rw [hjson, sub_CCBAPI_Response_Individuals_Individual v L hok]
  exact congrArg (fun s => some (JSON.str s)) (all_Individual_UserDefinedPulldownFields _ _ (ok_reach _ _ hok))

theorem leaves_CCBAPI (name : xml.Name) (L : List xml.Node) (hok : xml.ok L) (leaf : Leaf)
    (hmem : leaf ∈ CCBAPI.leaves) :
    (CCBAPI.marshal (xml.decodeAll CCBAPI.unmarshal { XMLName := name } L)).getPath? leaf.json
      = some (.str (leaf.value L)) := by
  simp only [CCBAPI.leaves, List.mem_cons, List.mem_singleton, List.not_mem_nil, or_false] at hmem
  rcases hmem with rfl | rfl | rfl | rfl | rfl | rfl | rfl | rfl | rfl | rfl | rfl | rfl | rfl |
    rfl | rfl | rfl | rfl | rfl | rfl | rfl | rfl | rfl | rfl | rfl | rfl | rfl | rfl | rfl | rfl |
    rfl | rfl | rfl | rfl | rfl | rfl | rfl | rfl | rfl | rfl | rfl | rfl | rfl | rfl | rfl | rfl |
    rfl | rfl | rfl | rfl | rfl | rfl | rfl | rfl | rfl | rfl | rfl | rfl | rfl | rfl | rfl
  · exact leaf_CCBAPI_Response_Service _ L hok
  · exact leaf_CCBAPI_Response_ServiceAction _ L hok
  · exact leaf_CCBAPI_Response_Availability _ L hok
  · exact leaf_CCBAPI_Response_Individuals_Count _ L hok
  · exact leaf_CCBAPI_Response_Individuals_Individual_ID _ L hok
  · exact leaf_CCBAPI_Response_Individuals_Individual_SyncID _ L hok
  · exact leaf_CCBAPI_Response_Individuals_Individual_OtherID _ L hok
  · exact leaf_CCBAPI_Response_Individuals_Individual_GivingNumber _ L hok
  · exact leaf_CCBAPI_Response_Individuals_Individual_Campus_ID _ L hok
  · exact leaf_CCBAPI_Response_Individuals_Individual_Family_ID _ L hok
  · exact leaf_CCBAPI_Response_Individuals_Individual_FamilyImage _ L hok
  · exact leaf_CCBAPI_Response_Individuals_Individual_FamilyPosition _ L hok
  · exact leaf_CCBAPI_Response_Individuals_Individual_FamilyMembers _ L hok
  · exact leaf_CCBAPI_Response_Individuals_Individual_FirstName _ L hok
  · exact leaf_CCBAPI_Response_Individuals_Individual_LastName _ L hok
  · exact leaf_CCBAPI_Response_Individuals_Individual_MiddleName _ L hok
  · exact leaf_CCBAPI_Response_Individuals_Individual_LegalFirstName _ L hok
  · exact leaf_CCBAPI_Response_Individuals_Individual_FullName _ L hok
  · exact leaf_CCBAPI_Response_Individuals_Individual_Salutation _ L hok
  · exact leaf_CCBAPI_Response_Individuals_Individual_Suffix _ L hok
  · exact leaf_CCBAPI_Response_Individuals_Individual_Image _ L hok
  · exact leaf_CCBAPI_Response_Individuals_Individual_Email _ L hok
  · exact leaf_CCBAPI_Response_Individuals_Individual_Allergies _ L hok
  · exact leaf_CCBAPI_Response_Individuals_Individual_ConfirmedNoAllergies _ L hok
  · exact leaf_CCBAPI_Response_Individuals_Individual_MobileCarrier_ID _ L hok
  · exact leaf_CCBAPI_Response_Individuals_Individual_Gender _ L hok
  · exact leaf_CCBAPI_Response_Individuals_Individual_MaritalStatus _ L hok
  · exact leaf_CCBAPI_Response_Individuals_Individual_Birthday _ L hok
  · exact leaf_CCBAPI_Response_Individuals_Individual_Anniversary _ L hok
  · exact leaf_CCBAPI_Response_Individuals_Individual_Baptized _ L hok
  · exact leaf_CCBAPI_Response_Individuals_Individual_Deceased _ L hok
  · exact leaf_CCBAPI_Response_Individuals_Individual_MembershipType_ID _ L hok
  · exact leaf_CCBAPI_Response_Individuals_Individual_MembershipDate _ L hok
  · exact leaf_CCBAPI_Response_Individuals_Individual_MembershipEnd _ L hok
  · exact leaf_CCBAPI_Response_Individuals_Individual_ReceiveEmailFromChurch _ L hok
  · exact leaf_CCBAPI_Response_Individuals_Individual_DefaultNewGroupMessages _ L hok
  · exact leaf_CCBAPI_Response_Individuals_Individual_DefaultNewGroupComments _ L hok
  · exact leaf_CCBAPI_Response_Individuals_Individual_DefaultNewGroupDigest _ L hok
  · exact leaf_CCBAPI_Response_Individuals_Individual_DefaultNewGroupSms _ L hok
  · exact leaf_CCBAPI_Response_Individuals_Individual_PrivacySettings_ProfileListed _ L hok
  · exact leaf_CCBAPI_Response_Individuals_Individual_PrivacySettings_MailingAddress_ID _ L hok
  · exact leaf_CCBAPI_Response_Individuals_Individual_PrivacySettings_HomeAddress_ID _ L hok
  · exact leaf_CCBAPI_Response_Individuals_Individual_PrivacySettings_HomePhone_ID _ L hok
  · exact leaf_CCBAPI_Response_Individuals_Individual_PrivacySettings_WorkPhone_ID _ L hok
  · exact leaf_CCBAPI_Response_Individuals_Individual_PrivacySettings_MobilePhone_ID _ L hok
  · exact leaf_CCBAPI_Response_Individuals_Individual_PrivacySettings_EmergencyPhone_ID _ L hok
  · exact leaf_CCBAPI_Response_Individuals_Individual_PrivacySettings_Birthday_ID _ L hok
  · exact leaf_CCBAPI_Response_Individuals_Individual_PrivacySettings_Anniversary_ID _ L hok
  · exact leaf_CCBAPI_Response_Individuals_Individual_PrivacySettings_Gender_ID _ L hok
  · exact leaf_CCBAPI_Response_Individuals_Individual_PrivacySettings_MaritalStatus_ID _ L hok
  · exact leaf_CCBAPI_Response_Individuals_Individual_PrivacySettings_UserDefinedFields_ID _ L hok
  · exact leaf_CCBAPI_Response_Individuals_Individual_PrivacySettings_Allergies_ID _ L hok
  · exact leaf_CCBAPI_Response_Individuals_Individual_Active _ L hok
  · exact leaf_CCBAPI_Response_Individuals_Individual_Creator_ID _ L hok
  · exact leaf_CCBAPI_Response_Individuals_Individual_Modifier_ID _ L hok
  · exact leaf_CCBAPI_Response_Individuals_Individual_Created _ L hok
  · exact leaf_CCBAPI_Response_Individuals_Individual_Modified _ L hok
  · exact leaf_CCBAPI_Response_Individuals_Individual_UserDefinedTextFields _ L hok
  · exact leaf_CCBAPI_Response_Individuals_Individual_UserDefinedDateFields _ L hok
  · exact leaf_CCBAPI_Response_Individuals_Individual_UserDefinedPulldownFields _ L hok

theorem leaves_present_CCBAPI (v : CCBAPI) (leaf : Leaf) (hmem : leaf ∈ CCBAPI.leaves) :
    ∃ s, (CCBAPI.marshal v).getPath? leaf.json = some (.str s) := by
  have hnil : xml.ok [] := fun c hc => absurd hc (List.not_mem_nil c)
  simp only [CCBAPI.leaves, List.mem_cons, List.mem_singleton, List.not_mem_nil, or_false] at hmem
  rcases hmem with rfl | rfl | rfl | rfl | rfl | rfl | rfl | rfl | rfl | rfl | rfl | rfl | rfl |
    rfl | rfl | rfl | rfl | rfl | rfl | rfl | rfl | rfl | rfl | rfl | rfl | rfl | rfl | rfl | rfl |
    rfl | rfl | rfl | rfl | rfl | rfl | rfl | rfl | rfl | rfl | rfl | rfl | rfl | rfl | rfl | rfl |
    rfl | rfl | rfl | rfl | rfl | rfl | rfl | rfl | rfl | rfl | rfl | rfl | rfl | rfl | rfl
  · exact ⟨_, leaf_CCBAPI_Response_Service v [] hnil⟩
  · exact ⟨_, leaf_CCBAPI_Response_ServiceAction v [] hnil⟩
  · exact ⟨_, leaf_CCBAPI_Response_Availability v [] hnil⟩
  · exact ⟨_, leaf_CCBAPI_Response_Individuals_Count v [] hnil⟩
  · exact ⟨_, leaf_CCBAPI_Response_Individuals_Individual_ID v [] hnil⟩
  · exact ⟨_, leaf_CCBAPI_Response_Individuals_Individual_SyncID v [] hnil⟩
  · exact ⟨_, leaf_CCBAPI_Response_Individuals_Individual_OtherID v [] hnil⟩
  · exact ⟨_, leaf_CCBAPI_Response_Individuals_Individual_GivingNumber v [] hnil⟩
  · exact ⟨_, leaf_CCBAPI_Response_Individuals_Individual_Campus_ID v [] hnil⟩
  · exact ⟨_, leaf_CCBAPI_Response_Individuals_Individual_Family_ID v [] hnil⟩
  · exact ⟨_, leaf_CCBAPI_Response_Individuals_Individual_FamilyImage v [] hnil⟩
  · exact ⟨_, leaf_CCBAPI_Response_Individuals_Individual_FamilyPosition v [] hnil⟩
  · exact ⟨_, leaf_CCBAPI_Response_Individuals_Individual_FamilyMembers v [] hnil⟩
  · exact ⟨_, leaf_CCBAPI_Response_Individuals_Individual_FirstName v [] hnil⟩
  · exact ⟨_, leaf_CCBAPI_Response_Individuals_Individual_LastName v [] hnil⟩
  · exact ⟨_, leaf_CCBAPI_Response_Individuals_Individual_MiddleName v [] hnil⟩
  · exact ⟨_, leaf_CCBAPI_Response_Individuals_Individual_LegalFirstName v [] hnil⟩
  · exact ⟨_, leaf_CCBAPI_Response_Individuals_Individual_FullName v [] hnil⟩
  · exact ⟨_, leaf_CCBAPI_Response_Individuals_Individual_Salutation v [] hnil⟩
  · exact ⟨_, leaf_CCBAPI_Response_Individuals_Individual_Suffix v [] hnil⟩
  · exact ⟨_, leaf_CCBAPI_Response_Individuals_Individual_Image v [] hnil⟩
  · exact ⟨_, leaf_CCBAPI_Response_Individuals_Individual_Email v [] hnil⟩
  · exact ⟨_, leaf_CCBAPI_Response_Individuals_Individual_Allergies v [] hnil⟩
  · exact ⟨_, leaf_CCBAPI_Response_Individuals_Individual_ConfirmedNoAllergies v [] hnil⟩
  · exact ⟨_, leaf_CCBAPI_Response_Individuals_Individual_MobileCarrier_ID v [] hnil⟩
  · exact ⟨_, leaf_CCBAPI_Response_Individuals_Individual_Gender v [] hnil⟩
  · exact ⟨_, leaf_CCBAPI_Response_Individuals_Individual_MaritalStatus v [] hnil⟩
  · exact ⟨_, leaf_CCBAPI_Response_Individuals_Individual_Birthday v [] hnil⟩
  · exact ⟨_, leaf_CCBAPI_Response_Individuals_Individual_Anniversary v [] hnil⟩
  · exact ⟨_, leaf_CCBAPI_Response_Individuals_Individual_Baptized v [] hnil⟩
  · exact ⟨_, leaf_CCBAPI_Response_Individuals_Individual_Deceased v [] hnil⟩
  · exact ⟨_, leaf_CCBAPI_Response_Individuals_Individual_MembershipType_ID v [] hnil⟩
  · exact ⟨_, leaf_CCBAPI_Response_Individuals_Individual_MembershipDate v [] hnil⟩
  · exact ⟨_, leaf_CCBAPI_Response_Individuals_Individual_MembershipEnd v [] hnil⟩
  · exact ⟨_, leaf_CCBAPI_Response_Individuals_Individual_ReceiveEmailFromChurch v [] hnil⟩
  · exact ⟨_, leaf_CCBAPI_Response_Individuals_Individual_DefaultNewGroupMessages v [] hnil⟩
  · exact ⟨_, leaf_CCBAPI_Response_Individuals_Individual_DefaultNewGroupComments v [] hnil⟩
  · exact ⟨_, leaf_CCBAPI_Response_Individuals_Individual_DefaultNewGroupDigest v [] hnil⟩
  · exact ⟨_, leaf_CCBAPI_Response_Individuals_Individual_DefaultNewGroupSms v [] hnil⟩
  · exact ⟨_, leaf_CCBAPI_Response_Individuals_Individual_PrivacySettings_ProfileListed v [] hnil⟩
  · exact ⟨_, leaf_CCBAPI_Response_Individuals_Individual_PrivacySettings_MailingAddress_ID v [] hnil⟩
  · exact ⟨_, leaf_CCBAPI_Response_Individuals_Individual_PrivacySettings_HomeAddress_ID v [] hnil⟩
  · exact ⟨_, leaf_CCBAPI_Response_Individuals_Individual_PrivacySettings_HomePhone_ID v [] hnil⟩
  · exact ⟨_, leaf_CCBAPI_Response_Individuals_Individual_PrivacySettings_WorkPhone_ID v [] hnil⟩
  · exact ⟨_, leaf_CCBAPI_Response_Individuals_Individual_PrivacySettings_MobilePhone_ID v [] hnil⟩
  · exact ⟨_, leaf_CCBAPI_Response_Individuals_Individual_PrivacySettings_EmergencyPhone_ID v [] hnil⟩
  · exact ⟨_, leaf_CCBAPI_Response_Individuals_Individual_PrivacySettings_Birthday_ID v [] hnil⟩
  · exact ⟨_, leaf_CCBAPI_Response_Individuals_Individual_PrivacySettings_Anniversary_ID v [] hnil⟩
  · exact ⟨_, leaf_CCBAPI_Response_Individuals_Individual_PrivacySettings_Gender_ID v [] hnil⟩
  · exact ⟨_, leaf_CCBAPI_Response_Individuals_Individual_PrivacySettings_MaritalStatus_ID v [] hnil⟩
  · exact ⟨_, leaf_CCBAPI_Response_Individuals_Individual_PrivacySettings_UserDefinedFields_ID v [] hnil⟩
  · exact ⟨_, leaf_CCBAPI_Response_Individuals_Individual_PrivacySettings_Allergies_ID v [] hnil⟩
  · exact ⟨_, leaf_CCBAPI_Response_Individuals_Individual_Active v [] hnil⟩
  · exact ⟨_, leaf_CCBAPI_Response_Individuals_Individual_Creator_ID v [] hnil⟩
  · exact ⟨_, leaf_CCBAPI_Response_Individuals_Individual_Modifier_ID v [] hnil⟩
  · exact ⟨_, leaf_CCBAPI_Response_Individuals_Individual_Created v [] hnil⟩
  · exact ⟨_, leaf_CCBAPI_Response_Individuals_Individual_Modified v [] hnil⟩
  · exact ⟨_, leaf_CCBAPI_Response_Individuals_Individual_UserDefinedTextFields v [] hnil⟩
  · exact ⟨_, leaf_CCBAPI_Response_Individuals_Individual_UserDefinedDateFields v [] hnil⟩
  · exact ⟨_, leaf_CCBAPI_Response_Individuals_Individual_UserDefinedPulldownFields v [] hnil⟩

theorem leaf_Argument_Value (v : Argument) (L : List xml.Node) (hok : xml.ok L) :
    (Argument.marshal (xml.decodeAll Argument.unmarshal v L)).getPath? ["Value"]
      = some (.str ((Leaf.values
          ⟨[], some "value", ["Value"]⟩ L).getLast?.getD
          v.Value)) := by
  have hjson : ∀ r : Argument, (Argument.marshal r).getPath? ["Value"]
      = some (.str r.Value) := fun _ => rfl
  rw [hjson]
  exact congrArg (fun s => some (JSON.str s)) (all_Argument_Value v L hok)

theorem leaf_Argument_Name (v : Argument) (L : List xml.Node) (hok : xml.ok L) :
    (Argument.marshal (xml.decodeAll Argument.unmarshal v L)).getPath? ["Name"]
      = some (.str ((Leaf.values
          ⟨[], some "name", ["Name"]⟩ L).getLast?.getD
          v.Name)) := by
  have hjson : ∀ r : Argument, (Argument.marshal r).getPath? ["Name"]
      = some (.str r.Name) := fun _ => rfl
  rw [hjson]
  exact congrArg (fun s => some (JSON.str s)) (all_Argument_Name v L hok)

theorem leaves_Argument (L : List xml.Node) (hok : xml.ok L) (leaf : Leaf)
    (hmem : leaf ∈ Argument.leaves) :
    (Argument.marshal (xml.decodeAll Argument.unmarshal {} L)).getPath? leaf.json
      = some (.str (leaf.value L)) := by
  simp only [Argument.leaves, List.mem_cons, List.mem_singleton, List.not_mem_nil, or_false] at hmem
  rcases hmem with rfl | rfl
  · exact leaf_Argument_Value _ L hok
  · exact leaf_Argument_Name _ L hok

theorem leaves_present_Argument (v : Argument) (leaf : Leaf) (hmem : leaf ∈ Argument.leaves) :
    ∃ s, (Argument.marshal v).getPath? leaf.json = some (.str s) := by
  have hnil : xml.ok [] := fun c hc => absurd hc (List.not_mem_nil c)
  simp only [Argument.leaves, List.mem_cons, List.mem_singleton, List.not_mem_nil, or_false] at hmem
  rcases hmem with rfl | rfl
  · exact ⟨_, leaf_Argument_Value v [] hnil⟩
  · exact ⟨_, leaf_Argument_Name v [] hnil⟩

theorem sub_Address_Country (v : Address) (L : List xml.Node) (hok : xml.ok L) :
    (xml.decodeAll Address.unmarshal v L).Country
      = xml.decodeAll Country.unmarshal v.Country
          (xml.reach ["country"] L) := by
  exact all_Address_Country v L hok

theorem leaf_Address_Type_ (v : Address) (L : List xml.Node) (hok : xml.ok L) :
    (Address.marshal (xml.decodeAll Address.unmarshal v L)).getPath? ["Type"]
      = some (.str ((Leaf.values
          ⟨[], some "type", ["Type"]⟩ L).getLast?.getD
          v.Type_)) := by
  have hjson : ∀ r : Address, (Address.marshal r).getPath? ["Type"]
      = some (.str r.Type_) := fun _ => rfl
  rw [hjson]
  exact congrArg (fun s => some (JSON.str s)) (all_Address_Type_ v L hok)

theorem leaf_Address_StreetAddress (v : Address) (L : List xml.Node) (hok : xml.ok L) :
    (Address.marshal (xml.decodeAll Address.unmarshal v L)).getPath? ["StreetAddress"]
      = some (.str ((Leaf.values
          ⟨["street_address"], none, ["StreetAddress"]⟩ L).getLast?.getD
          v.StreetAddress)) := by
  have hjson : ∀ r : Address, (Address.marshal r).getPath? ["StreetAddress"]
      = some (.str r.StreetAddress) := fun _ => rfl
  rw [hjson]
  exact congrArg (fun s => some (JSON.str s)) (all_Address_StreetAddress v L hok)

theorem leaf_Address_City (v : Address) (L : List xml.Node) (hok : xml.ok L) :
    (Address.marshal (xml.decodeAll Address.unmarshal v L)).getPath? ["City"]
      = some (.str ((Leaf.values
          ⟨["city"], none, ["City"]⟩ L).getLast?.getD
          v.City)) := by
  have hjson : ∀ r : Address, (Address.marshal r).getPath? ["City"]
      = some (.str r.City) := fun _ => rfl
  rw [hjson]
  exact congrArg (fun s => some (JSON.str s)) (all_Address_City v L hok)

theorem leaf_Address_State (v : Address) (L : List xml.Node) (hok : xml.ok L) :
    (Address.marshal (xml.decodeAll Address.unmarshal v L)).getPath? ["State"]
      = some (.str ((Leaf.values
          ⟨["state"], none, ["State"]⟩ L).getLast?.getD
          v.State)) := by
  have hjson : ∀ r : Address, (Address.marshal r).getPath? ["State"]
      = some (.str r.State) := fun _ => rfl
  rw [hjson]
  exact congrArg (fun s => some (JSON.str s)) (all_Address_State v L hok)

theorem leaf_Address_Zip (v : Address) (L : List xml.Node) (hok : xml.ok L) :
    (Address.marshal (xml.decodeAll Address.unmarshal v L)).getPath? ["Zip"]
      = some (.str ((Leaf.values
          ⟨["zip"], none, ["Zip"]⟩ L).getLast?.getD
          v.Zip)) := by
  have hjson : ∀ r : Address, (Address.marshal r).getPath? ["Zip"]
      = some (.str r.Zip) := fun _ => rfl
  rw [hjson]
  exact congrArg (fun s => some (JSON.str s)) (all_Address_Zip v L hok)

theorem leaf_Address_Country_Code (v : Address) (L : List xml.Node) (hok : xml.ok L) :
    (Address.marshal (xml.decodeAll Address.unmarshal v L)).getPath? ["Country", "Code"]
      = some (.str ((Leaf.values
          ⟨["country"], some "code", ["Country", "Code"]⟩ L).getLast?.getD
          v.Country.Code)) := by
  have hjson : ∀ r : Address, (Address.marshal r).getPath? ["Country", "Code"]
      = some (.str r.Country.Code) := fun _ => rfl
  rw [hjson, sub_Address_Country v L hok]
  exact congrArg (fun s => some (JSON.str s)) (all_Country_Code _ _ (ok_reach _ _ hok))

theorem leaf_Address_Line1 (v : Address) (L : List xml.Node) (hok : xml.ok L) :
    (Address.marshal (xml.decodeAll Address.unmarshal v L)).getPath? ["Line1"]
      = some (.str ((Leaf.values
          ⟨["line_1"], none, ["Line1"]⟩ L).getLast?.getD
          v.Line1)) := by
  have hjson : ∀ r : Address, (Address.marshal r).getPath? ["Line1"]
      = some (.str r.Line1) := fun _ => rfl
  rw [hjson]
  exact congrArg (fun s => some (JSON.str s)) (all_Address_Line1 v L hok)

theorem leaf_Address_Line2 (v : Address) (L : List xml.Node) (hok : xml.ok L) :
    (Address.marshal (xml.decodeAll Address.unmarshal v L)).getPath? ["Line2"]
      = some (.str ((Leaf.values
          ⟨["line_2"], none, ["Line2"]⟩ L).getLast?.getD
          v.Line2)) := by
  have hjson : ∀ r : Address, (Address.marshal r).getPath? ["Line2"]
      = some (.str r.Line2) := fun _ => rfl
  rw [hjson]
  exact congrArg (fun s => some (JSON.str s)) (all_Address_Line2 v L hok)

theorem leaf_Address_Latitude (v : Address) (L : List xml.Node) (hok : xml.ok L) :
    (Address.marshal (xml.decodeAll Address.unmarshal v L)).getPath? ["Latitude"]
      = some (.str ((Leaf.values
          ⟨["latitude"], none, ["Latitude"]⟩ L).getLast?.getD
          v.Latitude)) := by
  have hjson : ∀ r : Address, (Address.marshal r).getPath? ["Latitude"]
      = some (.str r.Latitude) := fun _ => rfl
  rw [hjson]
  exact congrArg (fun s => some (JSON.str s)) (all_Address_Latitude v L hok)

theorem leaf_Address_Longitude (v : Address) (L : List xml.Node) (hok : xml.ok L) :
    (Address.marshal (xml.decodeAll Address.unmarshal v L)).getPath? ["Longitude"]
      = some (.str ((Leaf.values
          ⟨["longitude"], none, ["Longitude"]⟩ L).getLast?.getD
          v.Longitude)) := by
  have hjson : ∀ r : Address, (Address.marshal r).getPath? ["Longitude"]
      = some (.str r.Longitude) := fun _ => rfl
  rw [hjson]
  exact congrArg (fun s => some (JSON.str s)) (all_Address_Longitude v L hok)

theorem leaves_Address (L : List xml.Node) (hok : xml.ok L) (leaf : Leaf)
    (hmem : leaf ∈ Address.leaves) :
    (Address.marshal (xml.decodeAll Address.unmarshal {} L)).getPath? leaf.json
      = some (.str (leaf.value L)) := by
  simp only [Address.leaves, List.mem_cons, List.mem_singleton, List.not_mem_nil, or_false] at hmem
  rcases hmem with rfl | rfl | rfl | rfl | rfl | rfl | rfl | rfl | rfl | rfl
  · exact leaf_Address_Type_ _ L hok
  · exact leaf_Address_StreetAddress _ L hok
  · exact leaf_Address_City _ L hok
  · exact leaf_Address_State _ L hok
  · exact leaf_Address_Zip _ L hok
  · exact leaf_Address_Country_Code _ L hok
  · exact leaf_Address_Line1 _ L hok
  · exact leaf_Address_Line2 _ L hok
  · exact leaf_Address_Latitude _ L hok
  · exact leaf_Address_Longitude _ L hok

theorem leaves_present_Address (v : Address) (leaf : Leaf) (hmem : leaf ∈ Address.leaves) :
    ∃ s, (Address.marshal v).getPath? leaf.json = some (.str s) := by
  have hnil : xml.ok [] := fun c hc => absurd hc (List.not_mem_nil c)
  simp only [Address.leaves, List.mem_cons, List.mem_singleton, List.not_mem_nil, or_false] at hmem
  rcases hmem with rfl | rfl | rfl | rfl | rfl | rfl | rfl | rfl | rfl | rfl
  · exact ⟨_, leaf_Address_Type_ v [] hnil⟩
  · exact ⟨_, leaf_Address_StreetAddress v [] hnil⟩
  · exact ⟨_, leaf_Address_City v [] hnil⟩
  · exact ⟨_, leaf_Address_State v [] hnil⟩
  · exact ⟨_, leaf_Address_Zip v [] hnil⟩
  · exact ⟨_, leaf_Address_Country_Code v [] hnil⟩
  · exact ⟨_, leaf_Address_Line1 v [] hnil⟩
  · exact ⟨_, leaf_Address_Line2 v [] hnil⟩
  · exact ⟨_, leaf_Address_Latitude v [] hnil⟩
  · exact ⟨_, leaf_Address_Longitude v [] hnil⟩

theorem leaf_Phone_Type_ (v : Phone) (L : List xml.Node) (hok : xml.ok L) :
    (Phone.marshal (xml.decodeAll Phone.unmarshal v L)).getPath? ["Type"]
      = some (.str ((Leaf.values
          ⟨[], some "type", ["Type"]⟩ L).getLast?.getD
          v.Type_)) := by
  have hjson : ∀ r : Phone, (Phone.marshal r).getPath? ["Type"]
      = some (.str r.Type_) := fun _ => rfl
  rw [hjson]
  exact congrArg (fun s => some (JSON.str s)) (all_Phone_Type_ v L hok)

theorem leaves_Phone (L : List xml.Node) (hok : xml.ok L) (leaf : Leaf)
    (hmem : leaf ∈ Phone.leaves) :
    (Phone.marshal (xml.decodeAll Phone.unmarshal {} L)).getPath? leaf.json
      = some (.str (leaf.value L)) := by
  simp only [Phone.leaves, List.mem_cons, List.mem_singleton, List.not_mem_nil, or_false] at hmem
  subst hmem
  exact leaf_Phone_Type_ _ L hok

theorem leaves_present_Phone (v : Phone) (leaf : Leaf) (hmem : leaf ∈ Phone.leaves) :
    ∃ s, (Phone.marshal v).getPath? leaf.json = some (.str s) := by
  have hnil : xml.ok [] := fun c hc => absurd hc (List.not_mem_nil c)
  simp only [Phone.leaves, List.mem_cons, List.mem_singleton, List.not_mem_nil, or_false] at hmem
  subst hmem
  exact ⟨_, leaf_Phone_Type_ v [] hnil⟩

theorem seq_CCBAPI_Request_Parameters_Argument (name : xml.Name) (L : List xml.Node) (hok : xml.ok L) :
    (CCBAPI.marshal (xml.decodeAll CCBAPI.unmarshal { XMLName := name } L)).getPath?
        ["Request", "Parameters", "Argument"]
      = some (Slice.marshal Argument.marshal (Slice.appendAll none
          ((xml.reach ["request", "parameters", "argument"] L).map
            fun c => c.into Argument.unmarshal {}))) := by
  have hjson : ∀ r : CCBAPI, (CCBAPI.marshal r).getPath? ["Request", "Parameters", "Argument"]
      = some (Slice.marshal Argument.marshal r.Request.Parameters.Argument) := fun _ => rfl
  rw [hjson, sub_CCBAPI_Request_Parameters _ L hok, all_Parameters_Argument _ _ (ok_reach _ _ hok)]
  rfl

theorem seq_CCBAPI_Response_Individuals_Individual_Addresses_Address (name : xml.Name) (L : List xml.Node) (hok : xml.ok L) :
    (CCBAPI.marshal (xml.decodeAll CCBAPI.unmarshal { XMLName := name } L)).getPath?
        ["Response", "Individuals", "Individual", "Addresses", "Address"]
      = some (Slice.marshal Address.marshal (Slice.appendAll none
          ((xml.reach ["response", "individuals", "individual", "addresses", "address"] L).map
            fun c => c.into Address.unmarshal {}))) := by
  have hjson : ∀ r : CCBAPI, (CCBAPI.marshal r).getPath? ["Response", "Individuals", "Individual", "Addresses", "Address"]
      = some (Slice.marshal Address.marshal r.Response.Individuals.Individual.Addresses.Address) := fun _ => rfl
  rw [hjson, sub_CCBAPI_Response_Individuals_Individual_Addresses _ L hok, all_Addresses_Address _ _ (ok_reach _ _ hok)]
  rfl

theorem seq_CCBAPI_Response_Individuals_Individual_Phones_Phone (name : xml.Name) (L : List xml.Node) (hok : xml.ok L) :
    (CCBAPI.marshal (xml.decodeAll CCBAPI.unmarshal { XMLName := name } L)).getPath?
        ["Response", "Individuals", "Individual", "Phones", "Phone"]
      = some (Slice.marshal Phone.marshal (Slice.appendAll none
          ((xml.reach ["response", "individuals", "individual", "phones", "phone"] L).map
            fun c => c.into Phone.unmarshal {}))) := by
  have hjson : ∀ r : CCBAPI, (CCBAPI.marshal r).getPath? ["Response", "Individuals", "Individual", "Phones", "Phone"]
      = some (Slice.marshal Phone.marshal r.Response.Individuals.Individual.Phones.Phone) := fun _ => rfl
  rw [hjson, sub_CCBAPI_Response_Individuals_Individual_Phones _ L hok, all_Phones_Phone _ _ (ok_reach _ _ hok)]
  rfl
/-! ## The JSON encoding of the record -/

theorem getPath?_append (p q : List String) (x : JSON) :
    x.getPath? (p ++ q) = (x.getPath? p).bind (JSON.getPath? q) := by
  induction p generalizing x with
  | nil => rfl
  | cons key p ih =>
    simp only [List.cons_append, JSON.getPath?]
    cases x.get? key with
    | none => rfl
    | some y => simpa using ih y

theorem conforms_str (s : String) : (JSON.str s).conforms .string = true := rfl

theorem conforms_obj (members : List (String × JSON)) (fields : List (String × Schema)) :
    (JSON.obj members).conforms (.object fields) = JSON.conformsMembers members fields := rfl

theorem conformsMembers_nil : JSON.conformsMembers [] [] = true := rfl

theorem conformsMembers_cons (key field : String) (x : JSON) (schema : Schema)
    (rest : List (String × JSON)) (fields : List (String × Schema)) :
    JSON.conformsMembers ((key, x) :: rest) ((field, schema) :: fields)
      = (field == key && x.conforms schema && JSON.conformsMembers rest fields) := rfl

theorem conforms_slice {α : Type} (f : α → JSON) (schema : Schema)
    (h : ∀ x, (f x).conforms schema = true) (s : Slice α) :
    (Slice.marshal f s).conforms (.sequence schema) = true := by
  cases s with
  | none => rfl
  | some xs =>
    show JSON.conformsElems (xs.map f) schema = true
    induction xs with
    | nil => rfl
    | cons x xs ih =>
      show ((f x).conforms schema && JSON.conformsElems (xs.map f) schema) = true
      rw [h x, ih]
      rfl

theorem hasKey_str (k s : String) : (JSON.str s).hasKey k = false := rfl

theorem hasKey_obj (k : String) (members : List (String × JSON)) :
    (JSON.obj members).hasKey k = JSON.hasKeyMembers k members := rfl

theorem hasKeyMembers_nil (k : String) : JSON.hasKeyMembers k [] = false := rfl

theorem hasKeyMembers_cons (k key : String) (x : JSON) (rest : List (String × JSON)) :
    JSON.hasKeyMembers k ((key, x) :: rest)
      = (key == k || x.hasKey k || JSON.hasKeyMembers k rest) := rfl

theorem noKey_slice {α : Type} (f : α → JSON) (s : Slice α) (k : String)
    (h : ∀ x, (f x).hasKey k = false) : (Slice.marshal f s).hasKey k = false := by
  cases s with
  | none => rfl
  | some xs =>
    show JSON.hasKeyElems k (xs.map f) = false
    induction xs with
    | nil => rfl
    | cons x xs ih =>
      show ((f x).hasKey k || JSON.hasKeyElems k (xs.map f)) = false
      rw [h x, ih]
      rfl

theorem conforms_xml_Name (v : xml.Name) : (v.marshal).conforms xml.Name.schema = true := by
  simp only [xml.Name.marshal, xml.Name.schema, conforms_obj, conformsMembers_cons,
    conformsMembers_nil, conforms_str, beq_self_eq_true, Bool.and_self, Bool.and_true]

theorem noKey_xml_Name (k : String) (hk : k = "first_name" ∨ k = "last_name") (v : xml.Name) :
    (v.marshal).hasKey k = false := by
  simp only [xml.Name.marshal, hasKey_obj, hasKeyMembers_cons, hasKeyMembers_nil, hasKey_str,
    Bool.or_false]
  rcases hk with rfl | rfl <;> rfl

theorem conforms_Argument (v : Argument) : (v.marshal).conforms Argument.schema = true := by
  simp only [Argument.marshal, Argument.schema, conforms_obj, conformsMembers_cons,
    conformsMembers_nil, conforms_str, beq_self_eq_true, Bool.and_self, Bool.and_true]

theorem noKey_Argument (k : String) (hk : k = "first_name" ∨ k = "last_name") (v : Argument) :
    (v.marshal).hasKey k = false := by
  simp only [Argument.marshal, hasKey_obj, hasKeyMembers_cons, hasKeyMembers_nil, hasKey_str,
    Bool.or_false]
  rcases hk with rfl | rfl <;> rfl

theorem conforms_Parameters (v : Parameters) : (v.marshal).conforms Parameters.schema = true := by
  simp only [Parameters.marshal, Parameters.schema, conforms_obj, conformsMembers_cons,
    conformsMembers_nil, conforms_str, beq_self_eq_true, Bool.and_self, Bool.and_true,
    conforms_slice _ _ conforms_Argument]

theorem noKey_Parameters (k : String) (hk : k = "first_name" ∨ k = "last_name") (v : Parameters) :
    (v.marshal).hasKey k = false := by
  simp only [Parameters.marshal, hasKey_obj, hasKeyMembers_cons, hasKeyMembers_nil, hasKey_str,
    noKey_slice _ _ k (noKey_Argument k hk), Bool.or_false]
  rcases hk with rfl | rfl <;> rfl

theorem conforms_Request (v : Request) : (v.marshal).conforms Request.schema = true := by
  simp only [Request.marshal, Request.schema, conforms_obj, conformsMembers_cons,
    conformsMembers_nil, conforms_str, beq_self_eq_true, Bool.and_self, Bool.and_true,
    conforms_Parameters]

theorem noKey_Request (k : String) (hk : k = "first_name" ∨ k = "last_name") (v : Request) :
    (v.marshal).hasKey k = false := by
  simp only [Request.marshal, hasKey_obj, hasKeyMembers_cons, hasKeyMembers_nil, hasKey_str,
    noKey_Parameters k hk, Bool.or_false]
  rcases hk with rfl | rfl <;> rfl

theorem conforms_IDRef (v : IDRef) : (v.marshal).conforms IDRef.schema = true := by
  simp only [IDRef.marshal, IDRef.schema, conforms_obj, conformsMembers_cons,
    conformsMembers_nil, conforms_str, beq_self_eq_true, Bool.and_self, Bool.and_true]

theorem noKey_IDRef (k : String) (hk : k = "first_name" ∨ k = "last_name") (v : IDRef) :
    (v.marshal).hasKey k = false := by
  simp only [IDRef.marshal, hasKey_obj, hasKeyMembers_cons, hasKeyMembers_nil, hasKey_str,
    Bool.or_false]
  rcases hk with rfl | rfl <;> rfl

theorem conforms_Country (v : Country) : (v.marshal).conforms Country.schema = true := by
  simp only [Country.marshal, Country.schema, conforms_obj, conformsMembers_cons,
    conformsMembers_nil, conforms_str, beq_self_eq_true, Bool.and_self, Bool.and_true]

theorem noKey_Country (k : String) (hk : k = "first_name" ∨ k = "last_name") (v : Country) :
    (v.marshal).hasKey k = false := by
  simp only [Country.marshal, hasKey_obj, hasKeyMembers_cons, hasKeyMembers_nil, hasKey_str,
    Bool.or_false]
  rcases hk with rfl | rfl <;> rfl

theorem conforms_Address (v : Address) : (v.marshal).conforms Address.schema = true := by
  simp only [Address.marshal, Address.schema, conforms_obj, conformsMembers_cons,
    conformsMembers_nil, conforms_str, beq_self_eq_true, Bool.and_self, Bool.and_true,
    conforms_Country]

theorem noKey_Address (k : String) (hk : k = "first_name" ∨ k = "last_name") (v : Address) :
    (v.marshal).hasKey k = false := by
  simp only [Address.marshal, hasKey_obj, hasKeyMembers_cons, hasKeyMembers_nil, hasKey_str,
    noKey_Country k hk, Bool.or_false]
  rcases hk with rfl | rfl <;> rfl

theorem conforms_Addresses (v : Addresses) : (v.marshal).conforms Addresses.schema = true := by
  simp only [Addresses.marshal, Addresses.schema, conforms_obj, conformsMembers_cons,
    conformsMembers_nil, conforms_str, beq_self_eq_true, Bool.and_self, Bool.and_true,
    conforms_slice _ _ conforms_Address]

theorem noKey_Addresses (k : String) (hk : k = "first_name" ∨ k = "last_name") (v : Addresses) :
    (v.marshal).hasKey k = false := by
  simp only [Addresses.marshal, hasKey_obj, hasKeyMembers_cons, hasKeyMembers_nil, hasKey_str,
    noKey_slice _ _ k (noKey_Address k hk), Bool.or_false]
  rcases hk with rfl | rfl <;> rfl

theorem conforms_Phone (v : Phone) : (v.marshal).conforms Phone.schema = true := by
  simp only [Phone.marshal, Phone.schema, conforms_obj, conformsMembers_cons,
    conformsMembers_nil, conforms_str, beq_self_eq_true, Bool.and_self, Bool.and_true]

theorem noKey_Phone (k : String) (hk : k = "first_name" ∨ k = "last_name") (v : Phone) :
    (v.marshal).hasKey k = false := by
  simp only [Phone.marshal, hasKey_obj, hasKeyMembers_cons, hasKeyMembers_nil, hasKey_str,
    Bool.or_false]
  rcases hk with rfl | rfl <;> rfl

theorem conforms_Phones (v : Phones) : (v.marshal).conforms Phones.schema = true := by
  simp only [Phones.marshal, Phones.schema, conforms_obj, conformsMembers_cons,
    conformsMembers_nil, conforms_str, beq_self_eq_true, Bool.and_self, Bool.and_true,
    conforms_slice _ _ conforms_Phone]

theorem noKey_Phones (k : String) (hk : k = "first_name" ∨ k = "last_name") (v : Phones) :
    (v.marshal).hasKey k = false := by
  simp only [Phones.marshal, hasKey_obj, hasKeyMembers_cons, hasKeyMembers_nil, hasKey_str,
    noKey_slice _ _ k (noKey_Phone k hk), Bool.or_false]
  rcases hk with rfl | rfl <;> rfl

theorem conforms_PrivacySettings (v : PrivacySettings) : (v.marshal).conforms PrivacySettings.schema = true := by
  simp only [PrivacySettings.marshal, PrivacySettings.schema, conforms_obj, conformsMembers_cons,
    conformsMembers_nil, conforms_str, beq_self_eq_true, Bool.and_self, Bool.and_true,
    conforms_IDRef]

theorem noKey_PrivacySettings (k : String) (hk : k = "first_name" ∨ k = "last_name") (v : PrivacySettings) :
    (v.marshal).hasKey k = false := by
  simp only [PrivacySettings.marshal, hasKey_obj, hasKeyMembers_cons, hasKeyMembers_nil, hasKey_str,
    noKey_IDRef k hk, Bool.or_false]
  rcases hk with rfl | rfl <;> rfl

theorem conforms_Individual (v : Individual) : (v.marshal).conforms Individual.schema = true := by
  simp only [Individual.marshal, Individual.schema, conforms_obj, conformsMembers_cons,
    conformsMembers_nil, conforms_str, beq_self_eq_true, Bool.and_self, Bool.and_true,
    conforms_Addresses, conforms_IDRef, conforms_Phones, conforms_PrivacySettings]

theorem noKey_Individual (k : String) (hk : k = "first_name" ∨ k = "last_name") (v : Individual) :
    (v.marshal).hasKey k = false := by
  simp only [Individual.marshal, hasKey_obj, hasKeyMembers_cons, hasKeyMembers_nil, hasKey_str,
    noKey_Addresses k hk, noKey_IDRef k hk, noKey_Phones k hk, noKey_PrivacySettings k hk,
    Bool.or_false]
  rcases hk with rfl | rfl <;> rfl

theorem conforms_Individuals (v : Individuals) : (v.marshal).conforms Individuals.schema = true := by
  simp only [Individuals.marshal, Individuals.schema, conforms_obj, conformsMembers_cons,
    conformsMembers_nil, conforms_str, beq_self_eq_true, Bool.and_self, Bool.and_true,
    conforms_Individual]

theorem noKey_Individuals (k : String) (hk : k = "first_name" ∨ k = "last_name") (v : Individuals) :
    (v.marshal).hasKey k = false := by
  simp only [Individuals.marshal, hasKey_obj, hasKeyMembers_cons, hasKeyMembers_nil, hasKey_str,
    noKey_Individual k hk, Bool.or_false]
  rcases hk with rfl | rfl <;> rfl

theorem conforms_Response (v : Response) : (v.marshal).conforms Response.schema = true := by
  simp only [Response.marshal, Response.schema, conforms_obj, conformsMembers_cons,
    conformsMembers_nil, conforms_str, beq_self_eq_true, Bool.and_self, Bool.and_true,
    conforms_Individuals]

theorem noKey_Response (k : String) (hk : k = "first_name" ∨ k = "last_name") (v : Response) :
    (v.marshal).hasKey k = false := by
  simp only [Response.marshal, hasKey_obj, hasKeyMembers_cons, hasKeyMembers_nil, hasKey_str,
    noKey_Individuals k hk, Bool.or_false]
  rcases hk with rfl | rfl <;> rfl

theorem conforms_CCBAPI (v : CCBAPI) : (v.marshal).conforms CCBAPI.schema = true := by
  simp only [CCBAPI.marshal, CCBAPI.schema, conforms_obj, conformsMembers_cons,
    conformsMembers_nil, conforms_str, beq_self_eq_true, Bool.and_self, Bool.and_true,
    conforms_Request, conforms_Response, conforms_xml_Name]

theorem noKey_CCBAPI (k : String) (hk : k = "first_name" ∨ k = "last_name") (v : CCBAPI) :
    (v.marshal).hasKey k = false := by
  simp only [CCBAPI.marshal, hasKey_obj, hasKeyMembers_cons, hasKeyMembers_nil, hasKey_str,
    noKey_Request k hk, noKey_Response k hk, noKey_xml_Name k hk, Bool.or_false]
  rcases hk with rfl | rfl <;> rfl

/-! ## Decoding an input that is read without error -/

theorem unmarshal_decoded (body : List xml.Node) (name : xml.Name) (attr : List xml.Attr)
    (children : List xml.Node) (hfirst : xml.firstElement body = .ok (name, attr, children))
    (hdec : (xml.Unmarshal body {}).2 = none) :
    xml.ok [.element name attr children]
      ∧ WhoIs.jsonResponse body
        = CCBAPI.marshal
            (xml.decodeAll CCBAPI.unmarshal { XMLName := name } [.element name attr children]) := by
  unfold WhoIs.jsonResponse
  unfold xml.Unmarshal at hdec ⊢
  simp only [hfirst] at hdec ⊢
  by_cases hname : name.Local = "ccb_api"
  · simp only [hname, ne_eq, not_true_eq_false, if_false] at hdec ⊢
    refine ⟨ok_singleton ?_, rfl⟩
    simp [xml.Node.fails, xml.Node.error?, hdec]
  · simp [hname] at hdec

theorem decodeAll_XMLName (v : CCBAPI) (L : List xml.Node) (hok : xml.ok L) :
    (xml.decodeAll CCBAPI.unmarshal v L).XMLName = v.XMLName := by
  have hc : ∀ (v : CCBAPI) (c : xml.Node), (CCBAPI.setChild v c).XMLName = v.XMLName := by
    intro v c
    cases c <;> simp only [CCBAPI.setChild, apply_ite CCBAPI.XMLName, ite_self]
  unfold xml.decodeAll
  induction L generalizing v with
  | nil => rfl
  | cons e L ih =>
    rw [List.foldl_cons, ih _ (fun x hx => hok x (List.mem_cons_of_mem _ hx)),
      into_ok_CCBAPI v e (hok e (List.mem_cons_self _ _)),
      foldl_preserve CCBAPI.setChild (fun v => v.XMLName) hc, foldl_keep]

theorem forall₂_map_of_forall {α β : Type} (R : α → β → Prop) (f : α → β) (xs : List α)
    (h : ∀ x ∈ xs, R x (f x)) : List.Forall₂ R xs (xs.map f) := by
  induction xs with
  | nil => exact List.Forall₂.nil
  | cons x xs ih =>
    exact List.Forall₂.cons (h x (List.mem_cons_self _ _))
      (ih fun y hy => h y (List.mem_cons_of_mem _ hy))

theorem entries_Argument (es : List xml.Node) (hok : xml.ok es) :
    List.Forall₂ (fun e entry => ∀ leaf ∈ Argument.leaves,
        JSON.getPath? leaf.json entry = some (.str (leaf.value [e])))
      es (es.map fun c => Argument.marshal (c.into Argument.unmarshal {})) :=
  forall₂_map_of_forall _ _ es fun e he leaf hleaf =>
    leaves_Argument [e] (ok_singleton (hok e he)) leaf hleaf

theorem entries_Address (es : List xml.Node) (hok : xml.ok es) :
    List.Forall₂ (fun e entry => ∀ leaf ∈ Address.leaves,
        JSON.getPath? leaf.json entry = some (.str (leaf.value [e])))
      es (es.map fun c => Address.marshal (c.into Address.unmarshal {})) :=
  forall₂_map_of_forall _ _ es fun e he leaf hleaf =>
    leaves_Address [e] (ok_singleton (hok e he)) leaf hleaf

theorem entries_Phone (es : List xml.Node) (hok : xml.ok es) :
    List.Forall₂ (fun e entry => ∀ leaf ∈ Phone.leaves,
        JSON.getPath? leaf.json entry = some (.str (leaf.value [e])))
      es (es.map fun c => Phone.marshal (c.into Phone.unmarshal {})) :=
  forall₂_map_of_forall _ _ es fun e he leaf hleaf =>
    leaves_Phone [e] (ok_singleton (hok e he)) leaf hleaf

theorem sequence_holds {α : Type} {es : List xml.Node} {x : Option JSON}
    {leaves : List Leaf} (g : α → JSON) (dec : xml.Node → α)
    (hx : x = some (Slice.marshal g (Slice.appendAll none (es.map dec))))
    (hentries : List.Forall₂ (fun e entry => ∀ leaf ∈ leaves,
        JSON.getPath? leaf.json entry = some (.str (leaf.value [e])))
      es (es.map fun c => g (dec c))) :
    (es.length = 0 → x = some .null)
      ∧ (0 < es.length →
        ∃ entries, x = some (.arr entries)
          ∧ entries.length = es.length
          ∧ List.Forall₂ (fun e entry => ∀ leaf ∈ leaves,
              JSON.getPath? leaf.json entry = some (.str (leaf.value [e])))
            es entries) := by
  cases es with
  | nil => exact ⟨fun _ => hx, fun h => absurd h (by simp)⟩
  | cons e es =>
    refine ⟨fun h => absurd h (by simp), fun _ => ⟨_, hx.trans ?_, ?_, hentries⟩⟩
    · simp [Slice.marshal, Slice.appendAll]
    · simp

theorem privacyFlag_leaf (flag : PrivacyFlag) :
    (⟨["response", "individuals", "individual", "privacy_settings", flag.tag], some "id",
      ["Response", "Individuals", "Individual", "PrivacySettings", flag.key, "ID"]⟩ : Leaf)
      ∈ CCBAPI.leaves := by
  cases flag <;> decide

/-! ## Inputs on which reading fails -/

theorem jsonResponse_declaration_rejected (version encoding : String) (rest : List xml.Node)
    (h : (xml.declarationError? version encoding).isSome = true) :
    WhoIs.jsonResponse (.procInst "xml" version encoding :: rest) = CCBAPI.marshal {} := by
  cases hd : xml.declarationError? version encoding with
  | none => simp [hd] at h
  | some e => simp [WhoIs.jsonResponse, xml.Unmarshal, xml.firstElement, xml.Node.error?, hd]

theorem unmarshal_declared_encoding :
    xml.Unmarshal (.procInst "xml" "1.0" "ISO-8859-1" :: janeDoe) {}
        = ({}, some (.unsupportedEncoding "ISO-8859-1"))
      ∧ xml.Unmarshal (.procInst "xml" "1.1" "" :: janeDoe) {}
        = ({}, some (.unsupportedVersion "1.1"))
      ∧ xml.Unmarshal (.procInst "xml" "1.0" "utf-8" :: janeDoe) {}
        = xml.Unmarshal janeDoe {} := by
  decide

theorem unmarshal_read_error_in_address :
    ((WhoIs.jsonResponse (responseWith [xml.el "addresses" []
          [xml.el "address" [] [.readError]]])).getPath?
        (individualPath ++ ["Addresses", "Address"])).map JSON.render = some "[]"
      ∧ ((WhoIs.jsonResponse (responseWith [xml.el "addresses" []
          [addressOf "home" "Doral", xml.el "address" [] [.readError],
            addressOf "work" "Hialeah"]])).getPath?
        (individualPath ++ ["Addresses", "Address"])).bind JSON.arrayLength? = some 1
      ∧ (WhoIs.jsonResponse (responseWith [xml.el "first_name" [] [.charData "Ja", .readError],
          xml.el "last_name" [] [.charData "Doe"]])).getPath?
        (individualPath ++ ["FirstName"]) = some (.str "") := by
  refine ⟨by decide, by decide, by rfl⟩

/-! ## The claims on the transcoding -/

/-- Claim C7, amended: the JSON serialization `WhoIs` returns leaves no field of
the record out.  For every response body it holds a member for every field of
every struct of the Go type, under the Go name, at every depth and in every
entry of a sequence, every string field as a string, and its individual has all
46 fields.  When the body is decoded without error, every string field outside
the sequences holds the last value the input has for it, and the empty string
when the input has none; a sequence is `null` when the input has no element for
it, and else an array with an entry for each element, in order, whose string
fields hold what the element has for them, the empty string when it has
nothing. -/
theorem whoIs_json_emits_every_field (body : List xml.Node) :
    (WhoIs.jsonResponse body).conforms CCBAPI.schema = true
      ∧ (∀ leaf ∈ CCBAPI.leaves,
          ∃ s, (WhoIs.jsonResponse body).getPath? leaf.json = some (.str s))
      ∧ ((WhoIs.jsonResponse body).getPath? individualPath).map JSON.keys = some
        ["ID", "SyncID", "OtherID", "GivingNumber", "Campus", "Family", "FamilyImage",
          "FamilyPosition", "FamilyMembers", "FirstName", "LastName", "MiddleName",
          "LegalFirstName", "FullName", "Salutation", "Suffix", "Image", "Email", "Allergies",
          "ConfirmedNoAllergies", "Addresses", "Phones", "MobileCarrier", "Gender",
          "MaritalStatus", "Birthday", "Anniversary", "Baptized", "Deceased", "MembershipType",
          "MembershipDate", "MembershipEnd", "ReceiveEmailFromChurch",
          "DefaultNewGroupMessages", "DefaultNewGroupComments", "DefaultNewGroupDigest",
          "DefaultNewGroupSms", "PrivacySettings", "Active", "Creator", "Modifier", "Created",
          "Modified", "UserDefinedTextFields", "UserDefinedDateFields",
          "UserDefinedPulldownFields"]
      ∧ ∀ (name : xml.Name) (attr : List xml.Attr) (children : List xml.Node),
          xml.firstElement body = .ok (name, attr, children) →
          (xml.Unmarshal body {}).2 = none →
          (WhoIs.jsonResponse body).getPath? ["XMLName"] = some name.marshal
            ∧ (∀ leaf ∈ CCBAPI.leaves,
              (WhoIs.jsonResponse body).getPath? leaf.json
                = some (.str (leaf.value [.element name attr children])))
            ∧ ∀ seq ∈ CCBAPI.sequences,
              ((xml.reach seq.path [.element name attr children]).length = 0 →
                  (WhoIs.jsonResponse body).getPath? seq.json = some .null)
                ∧ (0 < (xml.reach seq.path [.element name attr children]).length →
                  ∃ entries, (WhoIs.jsonResponse body).getPath? seq.json = some (.arr entries)
                    ∧ entries.length
                      = (xml.reach seq.path [.element name attr children]).length
                    ∧ List.Forall₂ (fun e entry => ∀ leaf ∈ seq.leaves,
                        JSON.getPath? leaf.json entry = some (.str (leaf.value [e])))
                      (xml.reach seq.path [.element name attr children]) entries) := by
  have hkeys : ∀ r : CCBAPI, ((CCBAPI.marshal r).getPath? individualPath).map JSON.keys
      = some ((Individual.marshal {}).keys) := fun _ => rfl
  refine ⟨conforms_CCBAPI _, fun leaf hleaf => leaves_present_CCBAPI _ leaf hleaf, hkeys _, ?_⟩
  intro name attr children hfirst hdec
  obtain ⟨hok, hjson⟩ := unmarshal_decoded body name attr children hfirst hdec
  rw [hjson]
  have hname : ∀ r : CCBAPI, (CCBAPI.marshal r).getPath? ["XMLName"]
      = some r.XMLName.marshal := fun _ => rfl
  refine ⟨by rw [hname, decodeAll_XMLName _ _ hok], fun leaf hleaf =>
    leaves_CCBAPI name _ hok leaf hleaf, ?_⟩
  intro seq hseq
  simp only [CCBAPI.sequences, List.mem_cons, List.mem_singleton, List.not_mem_nil,
    or_false] at hseq
  rcases hseq with rfl | rfl | rfl
  · exact sequence_holds Argument.marshal (fun c => c.into Argument.unmarshal {})
      (seq_CCBAPI_Request_Parameters_Argument name _ hok)
      (entries_Argument _ (ok_reach _ _ hok))
  · exact sequence_holds Address.marshal (fun c => c.into Address.unmarshal {})
      (seq_CCBAPI_Response_Individuals_Individual_Addresses_Address name _ hok)
      (entries_Address _ (ok_reach _ _ hok))
  · exact sequence_holds Phone.marshal (fun c => c.into Phone.unmarshal {})
      (seq_CCBAPI_Response_Individuals_Individual_Phones_Phone name _ hok)
      (entries_Phone _ (ok_reach _ _ hok))

/-- For Jane Doe the middle name, absent from the input, is written as the empty
string, and so is the street of the first address; the phones are `null`. -/
theorem whoIs_json_emits_every_field_witness :
    (WhoIs.jsonResponse janeDoe).getPath? (individualPath ++ ["MiddleName"]) = some (.str "")
      ∧ (WhoIs.jsonResponse janeDoe).getPath? (individualPath ++ ["Phones", "Phone"])
        = some .null :=
  ⟨((whoIs_json_emits_every_field janeDoe).2.2.2 _ _ _ rfl rfl).2.1
      ⟨["response", "individuals", "individual", "middle_name"], none,
        ["Response", "Individuals", "Individual", "MiddleName"]⟩ (by decide),
   ((((whoIs_json_emits_every_field janeDoe).2.2.2 _ _ _ rfl rfl).2.2
      ⟨["response", "individuals", "individual", "phones", "phone"],
        ["Response", "Individuals", "Individual", "Phones", "Phone"], Phone.leaves⟩
      (by simp [CCBAPI.sequences])).1 rfl)⟩

/-- Claim C7 fails as stated: the serialization of the record parsed from an
empty `ccb_api` element has members whose value is the empty string, `FirstName`
among them, and its individual has all 46 fields. -/
theorem whoIs_json_empty_record_has_empty_fields :
    (WhoIs.jsonResponse [xml.el "ccb_api" [] []]).hasEmptyString = true
      ∧ ((WhoIs.jsonResponse [xml.el "ccb_api" [] []]).getPath?
          (individualPath ++ ["FirstName"])).map JSON.render = some "\"\""
      ∧ (((WhoIs.jsonResponse [xml.el "ccb_api" [] []]).getPath? individualPath).map
          fun individual => individual.keys.length) = some 46 := by
  decide

/-- Claim C8, amended: no response body makes `WhoIs` write a key `first_name` or
`last_name`, the record having no `json` tags.  For every body that is decoded
without error, the object `Response.Individuals.Individual` of the JSON
serialization holds under `FirstName` the text of the last `first_name` element
of the individual, under `LastName` that of the last `last_name` element, and
under `PrivacySettings`, the Go name of a privacy flag and `ID`, the last `id`
attribute of the flag's element, as it stands in the input.  For a body that
starts with an XML declaration the decoder refuses, both names are the empty
string. -/
theorem whoIs_round_trip_names (body : List xml.Node) :
    (WhoIs.jsonResponse body).hasKey "first_name" = false
      ∧ (WhoIs.jsonResponse body).hasKey "last_name" = false
      ∧ (∀ (name : xml.Name) (attr : List xml.Attr) (children : List xml.Node),
          xml.firstElement body = .ok (name, attr, children) →
          (xml.Unmarshal body {}).2 = none →
          (∀ e, (xml.reach ["response", "individuals", "individual", "first_name"]
                [.element name attr children]).getLast? = some e →
              (WhoIs.jsonResponse body).getPath? (individualPath ++ ["FirstName"])
                = some (.str e.text))
            ∧ (∀ e, (xml.reach ["response", "individuals", "individual", "last_name"]
                [.element name attr children]).getLast? = some e →
              (WhoIs.jsonResponse body).getPath? (individualPath ++ ["LastName"])
                = some (.str e.text))
            ∧ ∀ (flag : PrivacyFlag) (a : xml.Attr),
              (((xml.reach ["response", "individuals", "individual", "privacy_settings", flag.tag]
                  [.element name attr children]).flatMap xml.Node.attrs).filter
                fun a => a.Name.Local == "id").getLast? = some a →
              (WhoIs.jsonResponse body).getPath?
                  (individualPath ++ ["PrivacySettings", flag.key, "ID"])
                = some (.str a.Value))
      ∧ ∀ version encoding : String, (xml.declarationError? version encoding).isSome = true →
          (WhoIs.jsonResponse (.procInst "xml" version encoding :: body)).getPath?
              (individualPath ++ ["FirstName"]) = some (.str "")
            ∧ (WhoIs.jsonResponse (.procInst "xml" version encoding :: body)).getPath?
              (individualPath ++ ["LastName"]) = some (.str "") := by
  refine ⟨noKey_CCBAPI _ (Or.inl rfl) _, noKey_CCBAPI _ (Or.inr rfl) _, ?_, ?_⟩
  swap
  · intro version encoding h
    rw [jsonResponse_declaration_rejected version encoding body h]
    exact ⟨rfl, rfl⟩
  intro name attr children hfirst hdec
  obtain ⟨hok, hjson⟩ := unmarshal_decoded body name attr children hfirst hdec
  rw [hjson]
  refine ⟨?_, ?_, ?_⟩
  · intro e he
    rw [show individualPath ++ ["FirstName"]
        = ["Response", "Individuals", "Individual", "FirstName"] from rfl,
      leaf_CCBAPI_Response_Individuals_Individual_FirstName _ _ hok]
    simp [Leaf.values, List.getLast?_map, he]
  · intro e he
    rw [show individualPath ++ ["LastName"]
        = ["Response", "Individuals", "Individual", "LastName"] from rfl,
      leaf_CCBAPI_Response_Individuals_Individual_LastName _ _ hok]
    simp [Leaf.values, List.getLast?_map, he]
  · intro flag a ha
    have h := leaves_CCBAPI name _ hok _ (privacyFlag_leaf flag)
    rw [show individualPath ++ ["PrivacySettings", flag.key, "ID"]
        = ["Response", "Individuals", "Individual", "PrivacySettings", flag.key, "ID"] from rfl,
      h]
    simp [Leaf.value, Leaf.values, List.getLast?_map, ha]

/-- The names and the privacy-flag reference id of Jane Doe in the output, and the
empty first name when the response declares the encoding ISO-8859-1. -/
theorem whoIs_round_trip_names_witness :
    (WhoIs.jsonResponse janeDoe).getPath? (individualPath ++ ["FirstName"])
        = some (.str "Jane")
      ∧ (WhoIs.jsonResponse janeDoe).getPath? (individualPath ++ ["LastName"])
        = some (.str "Doe")
      ∧ (WhoIs.jsonResponse janeDoe).getPath?
          (individualPath ++ ["PrivacySettings", "MailingAddress", "ID"]) = some (.str "2")
      ∧ (WhoIs.jsonResponse (.procInst "xml" "1.0" "ISO-8859-1" :: janeDoe)).getPath?
          (individualPath ++ ["FirstName"]) = some (.str "") :=
  ⟨((whoIs_round_trip_names janeDoe).2.2.1 _ _ _ rfl rfl).1
      (xml.el "first_name" [] [.charData "Jane"]) rfl,
   ((whoIs_round_trip_names janeDoe).2.2.1 _ _ _ rfl rfl).2.1
      (xml.el "last_name" [] [.charData "Doe"]) rfl,
   ((whoIs_round_trip_names janeDoe).2.2.1 _ _ _ rfl rfl).2.2 .MailingAddress
      ⟨⟨"", "id"⟩, "2"⟩ rfl,
   ((whoIs_round_trip_names janeDoe).2.2.2 "1.0" "ISO-8859-1" (by decide)).1⟩

/-- Claim C8 fails as stated: for the response carrying Jane Doe, with two
addresses and one privacy-flag reference id, the JSON string `WhoIs` returns has
no key `first_name` and no key `last_name` at any depth. -/
theorem whoIs_json_has_no_first_name_key :
    (WhoIs janeRemote "Jane Doe").result
        = .ok ((WhoIs.jsonResponse janeDoe).render, none)
      ∧ (WhoIs.jsonResponse janeDoe).hasKey "first_name" = false
      ∧ (WhoIs.jsonResponse janeDoe).hasKey "last_name" = false
      ∧ ((WhoIs.jsonResponse janeDoe).getPath? (individualPath ++ ["Addresses", "Address"])).bind
          JSON.arrayLength? = some 2 := by
  refine ⟨by rfl, by decide, by decide, by decide⟩

/-- Claim C9, amended: for every response body that is decoded without error,
with `n` elements `address` under the `addresses` of its individual, the value
of `Address` in the JSON serialization is `null` when `n = 0`, and when `n ≥ 1`
an array of length `n` with an entry for each `address` element, in document
order: the string fields of the entry hold what that element has for them.  For
a body that starts with an XML declaration the decoder refuses, the value is
`null` whatever `n`. -/
theorem whoIs_addresses_multiplicity (body : List xml.Node) :
    (∀ (name : xml.Name) (attr : List xml.Attr) (children : List xml.Node),
        xml.firstElement body = .ok (name, attr, children) →
        (xml.Unmarshal body {}).2 = none →
        ((xml.reach ["response", "individuals", "individual", "addresses", "address"]
              [.element name attr children]).length = 0 →
            (WhoIs.jsonResponse body).getPath? (individualPath ++ ["Addresses", "Address"])
              = some .null)
          ∧ (0 < (xml.reach ["response", "individuals", "individual", "addresses", "address"]
              [.element name attr children]).length →
            ∃ entries,
              (WhoIs.jsonResponse body).getPath? (individualPath ++ ["Addresses", "Address"])
                  = some (.arr entries)
                ∧ entries.length
                  = (xml.reach ["response", "individuals", "individual", "addresses", "address"]
                      [.element name attr children]).length
                ∧ List.Forall₂ (fun address entry => ∀ leaf ∈ Address.leaves,
                    JSON.getPath? leaf.json entry = some (.str (leaf.value [address])))
                  (xml.reach ["response", "individuals", "individual", "addresses", "address"]
                    [.element name attr children]) entries))
      ∧ ∀ version encoding : String, (xml.declarationError? version encoding).isSome = true →
          (WhoIs.jsonResponse (.procInst "xml" version encoding :: body)).getPath?
            (individualPath ++ ["Addresses", "Address"]) = some .null := by
  constructor
  · intro name attr children hfirst hdec
    obtain ⟨hok, hjson⟩ := unmarshal_decoded body name attr children hfirst hdec
    rw [hjson, show individualPath ++ ["Addresses", "Address"]
      = ["Response", "Individuals", "Individual", "Addresses", "Address"] from rfl]
    exact sequence_holds Address.marshal (fun c => c.into Address.unmarshal {})
      (seq_CCBAPI_Response_Individuals_Individual_Addresses_Address name _ hok)
      (entries_Address _ (ok_reach _ _ hok))
  · intro version encoding h
    rw [jsonResponse_declaration_rejected version encoding body h]
    rfl

/-- The value of `Address` for no address, for one and for three addresses, and
for two addresses in a response that declares the encoding ISO-8859-1 or the
version 1.1. -/
theorem whoIs_addresses_multiplicity_witness :
    (WhoIs.jsonResponse (responseWith [xml.el "addresses" [] []])).getPath?
        (individualPath ++ ["Addresses", "Address"]) = some .null
      ∧ (∃ entries,
        (WhoIs.jsonResponse (responseWith [xml.el "addresses" []
            [addressOf "home" "Doral"]])).getPath?
          (individualPath ++ ["Addresses", "Address"]) = some (.arr entries)
        ∧ entries.length = 1)
      ∧ (∃ entries,
        (WhoIs.jsonResponse (responseWith [xml.el "addresses" []
            [addressOf "mailing" "Miami", addressOf "home" "Doral",
              addressOf "work" "Hialeah"]])).getPath?
          (individualPath ++ ["Addresses", "Address"]) = some (.arr entries)
        ∧ entries.length = 3)
      ∧ (WhoIs.jsonResponse (.procInst "xml" "1.0" "ISO-8859-1" :: janeDoe)).getPath?
          (individualPath ++ ["Addresses", "Address"]) = some .null
      ∧ (WhoIs.jsonResponse (.procInst "xml" "1.1" "UTF-8" :: janeDoe)).getPath?
          (individualPath ++ ["Addresses", "Address"]) = some .null :=
  ⟨((whoIs_addresses_multiplicity (responseWith [xml.el "addresses" [] []])).1 _ _ _
      rfl rfl).1 rfl,
   (((whoIs_addresses_multiplicity (responseWith [xml.el "addresses" []
        [addressOf "home" "Doral"]])).1 _ _ _ rfl rfl).2 (by decide)).imp
      fun _ h => ⟨h.1, h.2.1⟩,
   (((whoIs_addresses_multiplicity (responseWith [xml.el "addresses" []
        [addressOf "mailing" "Miami", addressOf "home" "Doral", addressOf "work" "Hialeah"]])).1
      _ _ _ rfl rfl).2 (by decide)).imp fun _ h => ⟨h.1, h.2.1⟩,
   (whoIs_addresses_multiplicity janeDoe).2 "1.0" "ISO-8859-1" (by decide),
   (whoIs_addresses_multiplicity janeDoe).2 "1.1" "UTF-8" (by decide)⟩

/-- Claim C9 fails as stated for `n = 0`: for an `addresses` element without
`address` elements the value of `Address` is `null`, which is not an array. -/
theorem whoIs_no_address_gives_null :
    ((WhoIs.jsonResponse (responseWith [xml.el "addresses" [] []])).getPath?
        (individualPath ++ ["Addresses", "Address"])).bind JSON.arrayLength? = none
      ∧ ((WhoIs.jsonResponse (responseWith [xml.el "addresses" [] []])).getPath?
        (individualPath ++ ["Addresses", "Address"])).map JSON.render = some "null" := by
  decide

end CCB
